import Mathlib

/-!
# Pintos thread scheduler: priority donation, the ready queue and the MLFQS engine

A shallow embedding of `src/threads/thread.c`, `src/threads/fixed_point.c` and
`src/threads/alarm.c`.

* A `struct thread *` is a page handle (`Nat`); a nullable pointer is an `Option Nat`.
* Kernel memory is the table `kernel.threads`, read with `deref` and written with
  `store`; intrusive lists (`ready_list`, `all_list`, every `donor_list`) are
  lists of handles.
* C `int` arithmetic of the fixed-point module is `Int` reduced by `wrap32`.
* The static `sleeping_list` of `alarm.c` is an `alarm_list`, passed to and
  returned by the alarm functions: the zero-filled structure the kernel starts
  with, or a list that `list_init` has set up. Its 64-bit ticks are `Nat`,
  converted with `to_int64` and `to_uint64` where the code converts.
* `ASSERT` failures, division by zero, an exhausted walk budget and a read
  through a null pointer are the four `fault`s of `Except fault`.
* `schedule ()` is embedded as the state in which the chosen thread has been
  switched to and `thread_schedule_tail` has run; interrupt levels are not part
  of the state (every operation below runs its critical section atomically).
-/

namespace Pintos

/-! ## Data model -/

/-- Ways in which a kernel operation does not return. -/
inductive fault where
  | assertion
  | div_by_zero
  | out_of_fuel
  | null_pointer
  deriving DecidableEq, Repr

/-- Modelled from the spec: `enum thread_status` of `threads/thread.h`
(RUNNING, READY, BLOCKED, DYING), which is not among the sources. -/
inductive thread_status where
  | THREAD_RUNNING
  | THREAD_READY
  | THREAD_BLOCKED
  | THREAD_DYING
  deriving DecidableEq, Repr

open thread_status

/-- Modelled from the spec: `PRI_MIN` of `threads/thread.h` (spec, Constants). -/
def PRI_MIN : Int := 0

/-- Modelled from the spec: `PRI_DEFAULT` of `threads/thread.h` (spec, Constants). -/
def PRI_DEFAULT : Int := 31

/-- Modelled from the spec: `PRI_MAX` of `threads/thread.h` (spec, Constants). -/
def PRI_MAX : Int := 63

/-- Modelled from the spec: `TID_ERROR` of `threads/thread.h`, the value
`thread_create` returns when no page is available. -/
def TID_ERROR : Int := -1

/-- The fields of `struct thread` that `thread.c` reads and writes.
`recent_cpu` holds the `v` of a `fixed_point_t`. -/
structure thread where
  tid : Int
  status : thread_status
  priority : Int
  original_priority : Int
  nice : Int
  recent_cpu : Int
  donor_list : List Nat
  donee : Option Nat
  donor_lock : Option Nat
  is_a_donor : Bool
  is_a_donee : Bool
  deriving DecidableEq, Repr

/-- A page as `memset (t, 0, sizeof *t)` leaves it. -/
def zero_thread : thread :=
  { tid := 0, status := THREAD_RUNNING, priority := 0, original_priority := 0,
    nice := 0, recent_cpu := 0, donor_list := [], donee := none,
    donor_lock := none, is_a_donor := false, is_a_donee := false }

/-- A `struct lock *` argument: the address of the lock and the `holder` field it
points at when the call is made (`struct lock` lives in `threads/synch.h`). -/
structure lock where
  addr : Nat
  holder : Option Nat
  deriving DecidableEq, Repr

/-- Kernel memory: the thread records that have been written, by page handle. -/
abbrev memory := List (Nat × thread)

/-- Read the record at handle `t`; a page never written reads as zeroed. -/
def deref : memory → Nat → thread
  | [], _ => zero_thread
  | (a, r) :: rest, t => if a = t then r else deref rest t

/-- Overwrite the record at handle `t` with `v`. -/
def write : memory → Nat → thread → memory
  | [], t, v => [(t, v)]
  | (a, r) :: rest, t, v => if a = t then (a, v) :: rest else (a, r) :: write rest t v

/-- Apply a field assignment to the record of thread `t`. -/
def store (m : memory) (t : Nat) (g : thread → thread) : memory :=
  write m t (g (deref m t))

/-- The static variables of `thread.c` together with the thread records. -/
structure kernel where
  threads : memory
  ready_list : List Nat
  all_list : List Nat
  current : Nat
  idle_thread : Option Nat
  initial_thread : Nat
  thread_mlfqs : Bool
  load_avg : Int
  thread_ticks : Nat
  next_tid : Int
  freed : List Nat
  deriving DecidableEq, Repr

/-- Modelled from the spec: `list_remove` of `lib/kernel/list.c`, which is not
among the sources. An intrusive list links an element at most once, so unlinking
the element leaves the list without it. -/
def list_remove (l : List Nat) (x : Nat) : List Nat :=
  l.filter (fun y => decide (y ≠ x))

/-- The running thread's record pointer with the checks of `thread_current`. -/
def thread_current (k : kernel) : Except fault Nat :=
  if (deref k.threads k.current).status = THREAD_RUNNING then .ok k.current
  else .error fault.assertion

/-! ## Fixed-point arithmetic (`fixed_point.c`) -/

/-- Reduction of a mathematical integer to a two's-complement 32-bit `int`. -/
def wrap32 (x : Int) : Int := (x + 2 ^ 31) % 2 ^ 32 - 2 ^ 31

/-- The constant `f = 1 << FRACTION_BITS`. -/
def f : Int := 2 ^ 14

/-- Convert fixed point to int; `round_nearest` is the C flag. -/
def fixed_to_int (x : Int) (round_nearest : Bool) : Int :=
  if round_nearest then
    if x ≥ 0 then Int.tdiv (wrap32 (x + Int.tdiv f 2)) f
    else Int.tdiv (wrap32 (x - Int.tdiv f 2)) f
  else Int.tdiv x f

/-- Convert int to fixed point. -/
def int_to_fixed (n : Int) : Int := wrap32 (n * f)

/-- Add two fixed-point values. -/
def fixed_add (x y : Int) : Int := wrap32 (x + y)

/-- Subtract two fixed-point values. -/
def fixed_sub (x y : Int) : Int := wrap32 (x - y)

/-- Multiply two fixed-point values through a 64-bit product. -/
def fixed_mult (x y : Int) : Int := wrap32 (Int.tdiv (x * y) f)

/-- Divide two fixed-point values through a 64-bit dividend; a zero divisor traps. -/
def fixed_div (x y : Int) : Except fault Int :=
  if y = 0 then .error fault.div_by_zero else .ok (wrap32 (Int.tdiv (x * f) y))

/-- Add a fixed-point value and an int. -/
def fixed_int_add (x n : Int) : Int := fixed_add x (int_to_fixed n)

/-- Subtract an int from a fixed-point value. -/
def fixed_int_sub (x n : Int) : Int := fixed_sub x (int_to_fixed n)

/-- Multiply a fixed-point value with an int. -/
def fixed_int_mult (x n : Int) : Int := fixed_mult x (int_to_fixed n)

/-- Divide a fixed-point value by an int. -/
def fixed_int_div (x n : Int) : Except fault Int := fixed_div x (int_to_fixed n)

/-- Recalculate the priority for thread `t`:
`PRI_MAX - (recent_cpu / 4) - (nice * 2)`, truncated. -/
def recalculate_priority (k : kernel) (t : Nat) : Except fault Int := do
  let new_priority := int_to_fixed PRI_MAX
  let temp ← fixed_int_div (deref k.threads t).recent_cpu 4
  let new_priority := fixed_sub new_priority temp
  let temp := int_to_fixed (deref k.threads t).nice
  let temp := fixed_int_mult temp 2
  let new_priority := fixed_sub new_priority temp
  pure (fixed_to_int new_priority false)

/-! ## Ready queue and dispatcher -/

/-- The `while` loop of `insert_thread_ordered`: `prev` is the element already
passed, the list argument starts at `curr`. -/
def insert_loop (th : memory) (t : Nat) : Nat → List Nat → List Nat
  | _, [] => [t]
  | prev, curr :: rest =>
    if (deref th prev).priority ≥ (deref th t).priority ∧ (deref th t).priority > (deref th curr).priority then
      t :: curr :: rest
    else curr :: insert_loop th t curr rest

/-- Insert `t` into `ready_list` by priority. -/
def insert_thread_ordered (k : kernel) (t : Nat) : kernel :=
  match k.ready_list with
  | [] => { k with ready_list := [t] }
  | first :: rest =>
    if (deref k.threads first).priority < (deref k.threads t).priority then
      { k with ready_list := t :: first :: rest }
    else { k with ready_list := first :: insert_loop k.threads t first rest }

/-- Transition a blocked thread `t` to the ready-to-run state. -/
def thread_unblock (k : kernel) (t : Nat) : Except fault kernel :=
  if (deref k.threads t).status = THREAD_BLOCKED then
    let k1 := insert_thread_ordered k t
    .ok { k1 with
      threads := store k1.threads t (fun r => { r with status := THREAD_READY }) }
  else .error fault.assertion

/-- Choose the next thread to be scheduled: the popped front of the run queue,
or `idle_thread` when the queue is empty. -/
def next_thread_to_run (k : kernel) : Option Nat × kernel :=
  match k.ready_list with
  | [] => (k.idle_thread, k)
  | t :: rest => (some t, { k with ready_list := rest })

/-- Complete a thread switch: mark the new thread running, start a new time
slice, and release the page of a dying predecessor. -/
def thread_schedule_tail (k : kernel) (prev : Option Nat) : Except fault kernel :=
  let cur := k.current
  let k1 : kernel :=
    { k with
      threads := store k.threads cur (fun r => { r with status := THREAD_RUNNING }),
      thread_ticks := 0 }
  match prev with
  | none => .ok k1
  | some p =>
    if (deref k1.threads p).status = THREAD_DYING ∧ p ≠ k1.initial_thread then
      if p ≠ cur then .ok { k1 with freed := p :: k1.freed }
      else .error fault.assertion
    else .ok k1

/-- Schedule a new thread; `switch_threads (cur, next)` hands `cur` to the
tail as `prev`. -/
def schedule (k : kernel) : Except fault kernel :=
  let cur := k.current
  let (next, k1) := next_thread_to_run k
  if (deref k.threads cur).status = THREAD_RUNNING then .error fault.assertion
  else
    match next with
    | none => .error fault.assertion
    | some n =>
      let prev := if cur ≠ n then some cur else none
      thread_schedule_tail { k1 with current := n } prev

/-- Put the current thread to sleep. -/
def thread_block (k : kernel) : Except fault kernel := do
  let cur ← thread_current k
  schedule { k with
    threads := store k.threads cur (fun r => { r with status := THREAD_BLOCKED }) }

/-- Yield the CPU. -/
def thread_yield (k : kernel) : Except fault kernel := do
  let cur ← thread_current k
  let k1 := if some cur ≠ k.idle_thread then insert_thread_ordered k cur else k
  schedule { k1 with
    threads := store k1.threads cur (fun r => { r with status := THREAD_READY }) }

/-- Update thread `t`'s priority to `new_priority`. -/
def update_priority (k : kernel) (t : Nat) (new_priority : Int) : kernel :=
  if (deref k.threads t).priority ≠ new_priority then
    let th1 := store k.threads t (fun r => { r with priority := new_priority })
    let th2 :=
      if (deref th1 t).priority > PRI_MAX then store th1 t (fun r => { r with priority := PRI_MAX })
      else if (deref th1 t).priority < PRI_MIN then store th1 t (fun r => { r with priority := PRI_MIN })
      else th1
    let k2 : kernel := { k with threads := th2 }
    if (deref k2.threads t).status = THREAD_READY then
      insert_thread_ordered { k2 with ready_list := list_remove k2.ready_list t } t
    else k2
  else k

/-! ## Priority donation -/

/-- The nested-donation `while` loop of `thread_donate_priority`; every
iteration of the loop body spends one unit of `fuel`. -/
def donate_walk : Nat → Nat → Nat → memory → Except fault memory
  | fuel, donor, nest_donor, th =>
    if (deref th nest_donor).is_a_donor then
      match fuel with
      | 0 => .error fault.out_of_fuel
      | fuel + 1 =>
        match (deref th nest_donor).donee with
        | none => .error fault.assertion
        | some nest_donee =>
          if (deref th nest_donee).is_a_donee then
            if (deref th donor).priority > (deref th nest_donee).priority then
              let th1 := store th nest_donee (fun r => { r with priority := (deref th donor).priority })
              if (deref th1 nest_donee).is_a_donor then donate_walk fuel donor nest_donee th1
              else if (deref th1 nest_donee).donee = none then .ok th1
              else .error fault.assertion
            else .ok th
          else .error fault.assertion
    else .ok th

/-- The running thread donates its priority to `donee`, the holder of
`donor_lock`, and to the threads `donee` is in turn waiting for. -/
def thread_donate_priority (fuel : Nat) (k : kernel) (donee : Nat) (donor_lock : lock) :
    Except fault kernel := do
  let donor ← thread_current k
  if (deref k.threads donor).donee ≠ none then .error fault.assertion
  else if (deref k.threads donor).is_a_donor ≠ false then .error fault.assertion
  else
    let th1 := store k.threads donor (fun r => { r with donee := some donee })
    let th2 := store th1 donee (fun r => { r with donor_list := r.donor_list ++ [donor] })
    let th3 := store th2 donor (fun r => { r with is_a_donor := true })
    let th4 := store th3 donor (fun r => { r with donor_lock := some donor_lock.addr })
    let th5 := store th4 donee (fun r => { r with priority := (deref th4 donor).priority })
    let th6 := store th5 donee (fun r => { r with is_a_donee := true })
    let th7 ← donate_walk fuel donor donee th6
    pure { k with threads := th7 }

/-- The `for` loop of `thread_reverse_priority_donation` over the donor list of
`donee`, visiting the elements that were linked when the loop started. -/
def reverse_loop (donor_lock : lock) (donee : Nat) : List Nat → memory → memory
  | [], th => th
  | t :: rest, th =>
    if (deref th t).donor_lock = some donor_lock.addr then
      let th1 := store th donee (fun r => { r with donor_list := list_remove r.donor_list t })
      let th2 := store th1 t (fun r => { r with is_a_donor := false })
      let th3 := store th2 t (fun r => { r with donee := none })
      reverse_loop donor_lock donee rest th3
    else reverse_loop donor_lock donee rest th

/-- The `for` loop of `get_max_priority_donor` with its two locals `max` and
`priority`. -/
def max_donor_loop (th : memory) : List Nat → Option Nat → Int → Option Nat
  | [], max, _ => max
  | t :: rest, max, priority =>
    if (deref th t).priority > priority then max_donor_loop th rest (some t) (deref th t).priority
    else max_donor_loop th rest max priority

/-- Find the thread in the donee's donor list that has the highest priority. -/
def get_max_priority_donor (k : kernel) (donee : Nat) : Except fault Nat :=
  if (deref k.threads donee).donor_list = [] then .error fault.assertion
  else
    match max_donor_loop k.threads (deref k.threads donee).donor_list none (-1) with
    | none => .error fault.assertion
    | some max => .ok max

/-- Reverse the current thread's donated priority. -/
def thread_reverse_priority_donation (k : kernel) (donor_lock : lock) : Except fault kernel := do
  let donee ← thread_current k
  if (deref k.threads donee).donor_list = [] then .error fault.assertion
  else if donor_lock.holder ≠ some donee then .error fault.assertion
  else
    let th1 := reverse_loop donor_lock donee (deref k.threads donee).donor_list k.threads
    let k1 : kernel := { k with threads := th1 }
    if (deref k1.threads donee).donor_list = [] then
      let th2 := store th1 donee (fun r => { r with priority := r.original_priority })
      let th3 := store th2 donee (fun r => { r with is_a_donee := false })
      pure { k1 with threads := th3 }
    else
      let max ← get_max_priority_donor k1 donee
      let new_priority := (deref k1.threads max).priority
      pure { k1 with threads := store th1 donee (fun r => { r with priority := new_priority }) }

/-- Set the current thread's priority to `new_priority`. -/
def thread_set_priority (k : kernel) (new_priority : Int) : Except fault kernel :=
  if k.thread_mlfqs then .ok k
  else do
    let cur ← thread_current k
    if (deref k.threads cur).is_a_donee then
      let k1 : kernel :=
        { k with threads := store k.threads cur (fun r => { r with original_priority := new_priority }) }
      if new_priority > (deref k1.threads cur).priority then pure (update_priority k1 cur new_priority)
      else pure k1
    else
      let temp_priority := (deref k.threads cur).priority
      let k1 : kernel :=
        { k with threads := store k.threads cur (fun r => { r with original_priority := new_priority }) }
      let k2 := update_priority k1 cur new_priority
      if new_priority < temp_priority then thread_yield k2 else pure k2

/-! ## Thread creation and initialisation -/

/-- Basic initialisation of `t` as a blocked thread. -/
def init_thread (k : kernel) (t : Nat) (priority : Int) : Except fault kernel :=
  if PRI_MIN ≤ priority ∧ priority ≤ PRI_MAX then
    .ok { k with
      threads := write k.threads t
        { zero_thread with status := THREAD_BLOCKED, priority := priority },
      all_list := k.all_list ++ [t] }
  else .error fault.assertion

/-- Return a tid to use for a new thread. -/
def allocate_tid (k : kernel) : Int × kernel :=
  (k.next_tid, { k with next_tid := k.next_tid + 1 })

/-- Initialise the threading system by transforming the running code, whose
stack page is `boot`, into a thread. `mlfqs` is the command-line option that is
fixed before the call; pages that hold no thread yet read as zeroed. -/
def thread_init (mlfqs : Bool) (boot : Nat) : Except fault kernel := do
  let k0 : kernel :=
    { threads := [], ready_list := [], all_list := [], current := boot,
      idle_thread := none, initial_thread := boot, thread_mlfqs := mlfqs, load_avg := 0,
      thread_ticks := 0, next_tid := 1, freed := [] }
  let k1 ← init_thread k0 boot PRI_DEFAULT
  let th1 := store k1.threads boot (fun r => { r with status := THREAD_RUNNING })
  let (tid, k2) := allocate_tid { k1 with threads := th1 }
  let th2 := store k2.threads boot (fun r =>
    { r with tid := tid, donor_list := [], is_a_donor := false, is_a_donee := false,
             original_priority := r.priority, donor_lock := none, nice := 0,
             recent_cpu := int_to_fixed 0 })
  pure { k2 with threads := th2, load_avg := int_to_fixed 0 }

/-- Create a new kernel thread with the given initial priority and add it to
the ready queue. `page` is what `palloc_get_page` returned: a page that holds no
thread, or `none`. The result pairs the new state with the returned tid. -/
def thread_create (k : kernel) (page : Option Nat) (priority : Int) : Except fault (kernel × Int) :=
  match page with
  | none => .ok (k, TID_ERROR)
  | some t => do
    let k1 ← init_thread k t priority
    let (tid, k2) := allocate_tid k1
    let cur ← thread_current k2
    let th := store k2.threads t (fun r =>
      { r with tid := tid, donor_list := [], is_a_donor := false, is_a_donee := false,
               donee := none, original_priority := priority,
               nice := (deref k2.threads cur).nice, recent_cpu := (deref k2.threads cur).recent_cpu })
    let k3 : kernel := { k2 with threads := th }
    let _ ← if k3.thread_mlfqs then recalculate_priority k3 t else pure 0
    let k4 ← thread_unblock k3 t
    let cur ← thread_current k4
    if (deref k4.threads t).priority > (deref k4.threads cur).priority then do
      let k5 ← thread_yield k4
      pure (k5, tid)
    else pure (k4, tid)

/-! ## MLFQS engine and tick handler -/

/-- Modelled from the spec: `TIMER_FREQ` of `devices/timer.h`, the number of
timer ticks per second (spec, External interfaces: typically 100). -/
def TIMER_FREQ : Int := 100

/-- The constant `TIME_SLICE`: timer ticks to give each thread. -/
def TIME_SLICE : Nat := 4

/-- The `for` loop of `thread_recalculate_all_priorities` over `all_list`. -/
def recalculate_all_priorities_loop : List Nat → kernel → Except fault kernel
  | [], k => .ok k
  | t :: rest, k => do
    let new_priority ← recalculate_priority k t
    recalculate_all_priorities_loop rest (update_priority k t new_priority)

/-- Recalculate the priority for all of the threads. -/
def thread_recalculate_all_priorities (k : kernel) : Except fault kernel :=
  recalculate_all_priorities_loop k.all_list k

/-- Recalculate the recent cpu for thread `t`:
`(2*load_avg)/(2*load_avg + 1) * recent_cpu + nice`. -/
def recalculate_recent_cpu (k : kernel) (t : Nat) : Except fault kernel := do
  let temp_one := fixed_int_mult k.load_avg 2
  let temp_two := fixed_int_add temp_one 1
  let temp_one ← fixed_div temp_one temp_two
  let temp_one := fixed_mult temp_one (deref k.threads t).recent_cpu
  pure { k with
    threads := (store k.threads t
      (fun r => { r with recent_cpu := fixed_int_add temp_one (deref k.threads t).nice })) }

/-- The `for` loop of `thread_recalculate_all_recent_cpu` over `all_list`. -/
def recalculate_all_recent_cpu_loop : List Nat → kernel → Except fault kernel
  | [], k => .ok k
  | t :: rest, k => do
    let k1 ← recalculate_recent_cpu k t
    recalculate_all_recent_cpu_loop rest k1

/-- Recalculate the recent cpu for all threads. -/
def thread_recalculate_all_recent_cpu (k : kernel) : Except fault kernel :=
  recalculate_all_recent_cpu_loop k.all_list k

/-- The size of the ready list, plus one when the running thread is not the
idle thread. -/
def get_num_ready_threads (k : kernel) : Except fault Int := do
  let count : Int := k.ready_list.length
  let cur ← thread_current k
  if some cur ≠ k.idle_thread ∧ (deref k.threads cur).status = THREAD_RUNNING then
    pure (count + 1)
  else pure count

/-- Recalculate the load average:
`(59/60)*load_avg + (1/60)*ready_threads`. -/
def thread_recalculate_load_avg (k : kernel) : Except fault kernel := do
  let ready_threads ← get_num_ready_threads k
  let temp_one ← fixed_div (int_to_fixed 59) (int_to_fixed 60)
  let temp_one := fixed_mult temp_one k.load_avg
  let temp_two := int_to_fixed ready_threads
  let temp_two ← fixed_div temp_two (int_to_fixed 60)
  pure { k with load_avg := fixed_add temp_one temp_two }

/-- Set the current thread's nice value. The result pairs the new state with
the flag that tells whether `thread_yield` was called. -/
def thread_set_nice (k : kernel) (nice : Int) : Except fault (kernel × Bool) := do
  let nice := if nice > 20 then 20 else if nice < -20 then -20 else nice
  let cur ← thread_current k
  let old_priority := (deref k.threads cur).priority
  let k1 : kernel := { k with threads := store k.threads cur (fun r => { r with nice := nice }) }
  let new_priority ← recalculate_priority k1 cur
  let k2 := update_priority k1 cur new_priority
  if new_priority < old_priority then do
    let k3 ← thread_yield k2
    pure (k3, true)
  else pure (k2, false)

/-- The function `thread_set_priority` once more, with the flag that tells
whether `thread_yield` was called next to the new state. -/
def thread_set_priority_traced (k : kernel) (new_priority : Int) :
    Except fault (kernel × Bool) :=
  if k.thread_mlfqs then .ok (k, false)
  else do
    let cur ← thread_current k
    if (deref k.threads cur).is_a_donee then
      let k1 : kernel :=
        { k with threads := store k.threads cur (fun r => { r with original_priority := new_priority }) }
      if new_priority > (deref k1.threads cur).priority then
        pure (update_priority k1 cur new_priority, false)
      else pure (k1, false)
    else
      let temp_priority := (deref k.threads cur).priority
      let k1 : kernel :=
        { k with threads := store k.threads cur (fun r => { r with original_priority := new_priority }) }
      let k2 := update_priority k1 cur new_priority
      if new_priority < temp_priority then do
        let k3 ← thread_yield k2
        pure (k3, true)
      else pure (k2, false)

/-- The timer interrupt handler's call at each tick. `timer_ticks` is what
`timer_ticks ()` returns during the call. The result pairs the new state with
the flag that tells whether `intr_yield_on_return` was called; the tick
statistics are not part of the state. -/
def thread_tick (k : kernel) (timer_ticks : Int) : Except fault (kernel × Bool) := do
  let t ← thread_current k
  let k1 ←
    if k.thread_mlfqs then do
      let ka : kernel :=
        { k with threads := (store k.threads t
            (fun r => { r with recent_cpu := fixed_int_add r.recent_cpu 1 })) }
      if Int.tmod timer_ticks TIMER_FREQ = 0 then do
        let kb ← thread_recalculate_load_avg ka
        let kc ← thread_recalculate_all_recent_cpu kb
        thread_recalculate_all_priorities kc
      else if Int.tmod timer_ticks 4 = 0 then thread_recalculate_all_priorities ka
      else pure ka
    else pure k
  let k2 : kernel := { k1 with thread_ticks := k1.thread_ticks + 1 }
  pure (k2, decide (k2.thread_ticks ≥ TIME_SLICE))

/-! ## Thread exit and the idle thread's start -/

/-- Deschedule the current thread and destroy it. -/
def thread_exit (k : kernel) : Except fault kernel := do
  let cur ← thread_current k
  let k1 : kernel := { k with all_list := list_remove k.all_list cur }
  schedule { k1 with
    threads := (store k1.threads cur (fun r => { r with status := THREAD_DYING })) }

/-- The idle thread's function up to its loop: `idle_thread = thread_current ()`.
The `sema_up` that follows is a `thread_unblock` of the waiting thread and the
loop body is `thread_block`; they are steps of their own. -/
def idle (k : kernel) : Except fault kernel := do
  let cur ← thread_current k
  pure { k with idle_thread := some cur }

/-! ## Alarms (`alarm.c`) -/

/-- The record `struct alarm` of `alarm.h` without its list element; the two tick
counts are `uint64_t`. -/
structure alarm where
  start_sleep_tick : Nat
  amount_ticks_to_sleep : Nat
  sleeping_thread : Nat
  deriving DecidableEq, Repr

/-- Conversion of a `uint64_t` to `int64_t`. -/
def to_int64 (x : Nat) : Int := ((x : Int) + 2 ^ 63) % 2 ^ 64 - 2 ^ 63

/-- Conversion of a 64-bit integer to `uint64_t`. -/
def to_uint64 (x : Int) : Nat := (x % 2 ^ 64).toNat

/-- Returns true if a thread's sleeping interval has elapsed. The comparisons
mix `uint64_t` and `int64_t` operands and are carried out in `uint64_t`. -/
def sleep_time_elapsed (t : alarm) (curr_tick : Nat) : Except fault Bool :=
  let start : Int := to_int64 t.start_sleep_tick
  if curr_tick < to_uint64 start then .error fault.assertion
  else
    let interval : Int := to_int64 t.amount_ticks_to_sleep
    if interval < 0 then .error fault.assertion
    else .ok (decide (to_uint64 ((curr_tick : Int) - start) ≥ to_uint64 interval))

/-- Wake a sleeping thread. The `list_remove` of the alarm's list element is
done by the caller's loop below, which drops the element it visits. -/
def wake_thread (k : kernel) (t : alarm) : Except fault kernel :=
  if (deref k.threads t.sleeping_thread).status = THREAD_BLOCKED then
    thread_unblock k t.sleeping_thread
  else .error fault.assertion

/-- The `for` loop of `alarm_check_sleeping_list` over the elements of a list
that `list_init` has set up, as linked when the loop started; it returns the
elements still linked and the new scheduler state. Unlinking the visited element leaves its own `next` pointer in
place, so the traversal goes on with the element that followed it. -/
def check_sleeping_loop (curr_tick : Nat) :
    List alarm → kernel → Except fault (List alarm × kernel)
  | [], k => .ok ([], k)
  | t :: rest, k => do
    let elapsed ← sleep_time_elapsed t curr_tick
    if elapsed then do
      let k1 ← wake_thread k t
      check_sleeping_loop curr_tick rest k1
    else do
      let r ← check_sleeping_loop curr_tick rest k
      pure (t :: r.1, r.2)

/-- Modelled from the spec: a `struct list` of alarms (`lib/kernel/list.h` is not
among the sources). `zeroed` is the structure as zero-filled static storage
holds it before any `list_init`: the `next` of its head and the `prev` of its
tail are null pointers. `linked l` is the structure after `list_init`, with the
elements `l` linked between head and tail. -/
inductive alarm_list where
  | zeroed
  | linked (elems : List alarm)
  deriving DecidableEq, Repr

/-- The static `sleeping_list` of `alarm.c` as the kernel starts with it: it is
declared without an initialiser, and no function calls `list_init` on it
(`thread_init` does so for `ready_list` and `all_list`, `init_thread` for every
`donor_list`). -/
def sleeping_list : alarm_list := alarm_list.zeroed

/-- Modelled from the spec: `list_push_back` of `lib/kernel/list.c`, which
inserts before `list_end (list)` after asserting that this is an interior or a
tail element; the tail of a zeroed list has a null `prev` and is neither. -/
def list_push_back (l : alarm_list) (a : alarm) : Except fault alarm_list :=
  match l with
  | alarm_list.zeroed => .error fault.assertion
  | alarm_list.linked elems => .ok (alarm_list.linked (elems ++ [a]))

/-- Check if any sleeping threads need to be woken. The static list is passed in
and returned next to the scheduler state. On the zeroed list `list_begin`
returns the null `head.next`, which is not `list_end`: the loop body runs on a
null element and `sleep_time_elapsed` reads the alarm through it. -/
def alarm_check_sleeping_list (sl : alarm_list) (k : kernel) (curr_tick : Nat) :
    Except fault (alarm_list × kernel) :=
  if curr_tick > 0 then
    match sl with
    | alarm_list.zeroed => .error fault.null_pointer
    | alarm_list.linked elems => do
      let r ← check_sleeping_loop curr_tick elems k
      pure (alarm_list.linked r.1, r.2)
  else .error fault.assertion

/-- Add the current thread to the sleeping list for `ticks` ticks: the alarm is
pushed onto the list, then the thread blocks. -/
def alarm_sleep_current_thread (sl : alarm_list) (k : kernel) (start ticks : Nat) :
    Except fault (alarm_list × kernel) :=
  if start > 0 then
    if ticks > 0 then do
      let t ← thread_current k
      let a : alarm :=
        { start_sleep_tick := start, amount_ticks_to_sleep := ticks, sleeping_thread := t }
      let sl1 ← list_push_back sl a
      let k1 ← thread_block k
      pure (sl1, k1)
    else .error fault.assertion
  else .error fault.assertion

/-! ## The nested walk with its trace -/

/-- The nested-donation `while` loop of `thread_donate_priority` once more, with
its trace next to the result: one entry for every iteration that reached a
`nest_donee`, holding that thread and whether the iteration raised its
priority. -/
def donate_walk_traced : Nat → Nat → Nat → memory → Except fault memory × List (Nat × Bool)
  | fuel, donor, nest_donor, th =>
    if (deref th nest_donor).is_a_donor then
      match fuel with
      | 0 => (.error fault.out_of_fuel, [])
      | fuel + 1 =>
        match (deref th nest_donor).donee with
        | none => (.error fault.assertion, [])
        | some nest_donee =>
          if (deref th nest_donee).is_a_donee then
            if (deref th donor).priority > (deref th nest_donee).priority then
              let th1 := store th nest_donee (fun r => { r with priority := (deref th donor).priority })
              if (deref th1 nest_donee).is_a_donor then
                ((donate_walk_traced fuel donor nest_donee th1).1,
                  (nest_donee, true) :: (donate_walk_traced fuel donor nest_donee th1).2)
              else if (deref th1 nest_donee).donee = none then (.ok th1, [(nest_donee, true)])
              else (.error fault.assertion, [(nest_donee, true)])
            else (.ok th, [(nest_donee, false)])
          else (.error fault.assertion, [(nest_donee, false)])
    else (.ok th, [])

/-! ## Specification vocabulary -/

/-- The list of handles is in descending order of the threads' current
effective priority (ties in any order). -/
def sorted_desc (th : memory) (l : List Nat) : Prop :=
  l.Pairwise (fun a b => (deref th a).priority ≥ (deref th b).priority)

instance (th : memory) (l : List Nat) : Decidable (sorted_desc th l) :=
  inferInstanceAs
    (Decidable (l.Pairwise (fun a b => (deref th a).priority ≥ (deref th b).priority)))

/-- The record with its `priority` blanked: what is left to compare when only
`priority` may have been written. -/
def forget_priority (r : thread) : thread := { r with priority := 0 }

/-- The record with its `status` blanked: what is left to compare when only
`status` may have been written. -/
def forget_status (r : thread) : thread := { r with status := THREAD_RUNNING }

/-- The bounds `update_priority` enforces on a new priority. -/
def clamp_priority (p : Int) : Int :=
  if p > PRI_MAX then PRI_MAX else if p < PRI_MIN then PRI_MIN else p

/-- The priority `update_priority` leaves in a record that held `old` when it
is asked for `new_priority`. -/
def settle (old new_priority : Int) : Int :=
  if old ≠ new_priority then clamp_priority new_priority else old

/-- The bounds `thread_set_nice` enforces on its argument. -/
def clamp_nice (nice : Int) : Int :=
  if nice > 20 then 20 else if nice < -20 then -20 else nice

/-- The value `recalculate_priority` computes from a thread's `recent_cpu` and
`nice`, in the machine arithmetic of `fixed_point.c`. -/
def mlfqs_priority (recent_cpu nice : Int) : Int :=
  fixed_to_int
    (fixed_sub
      (fixed_sub (int_to_fixed PRI_MAX) (wrap32 (Int.tdiv (recent_cpu * f) (int_to_fixed 4))))
      (fixed_int_mult (int_to_fixed nice) 2))
    false

/-- The spec's `ready_threads_count`: the size of the ready queue, plus one when
the running thread is not the idle thread. -/
def ready_threads_count (k : kernel) : Int :=
  (k.ready_list.length : Int) + (if some k.current ≠ k.idle_thread then 1 else 0)

/-- The value is representable in a signed 32-bit `int`. -/
def fits_int32 (y : Int) : Prop := -2 ^ 31 ≤ y ∧ y < 2 ^ 31

instance (y : Int) : Decidable (fits_int32 y) := inferInstanceAs (Decidable (_ ∧ _))

/-- The direct formula for adding an integer to a fixed-point value. -/
def direct_int_add (x n : Int) : Int := x + n * 2 ^ 14

/-- The direct formula for subtracting an integer from a fixed-point value. -/
def direct_int_sub (x n : Int) : Int := x - n * 2 ^ 14

/-- The direct formula for multiplying a fixed-point value by an integer. -/
def direct_int_mult (x n : Int) : Int := x * n

/-- The direct formula for dividing a fixed-point value by an integer,
truncating toward zero. -/
def direct_int_div (x n : Int) : Int := Int.tdiv x n

/-- The scheduler's bookkeeping between two operations: the ready queue has no
duplicates and holds live threads only, the running thread is live and is the
only live thread marked running, the idle thread is live and outside the ready
queue, every other thread is in the ready queue exactly when it is marked ready,
and every blocked thread is live. A thread is live when it is on `all_list`. -/
structure scheduler_inv (k : kernel) : Prop where
  ready_nodup : k.ready_list.Nodup
  ready_live : ∀ x ∈ k.ready_list, x ∈ k.all_list
  current_live : k.current ∈ k.all_list
  one_running : ∀ x ∈ k.all_list,
    ((deref k.threads x).status = THREAD_RUNNING ↔ x = k.current)
  idle_out : ∀ i, k.idle_thread = some i → i ∈ k.all_list ∧ i ∉ k.ready_list
  ready_iff : ∀ x, some x ≠ k.idle_thread →
    (x ∈ k.ready_list ↔ (deref k.threads x).status = THREAD_READY)
  blocked_live : ∀ x, (deref k.threads x).status = THREAD_BLOCKED → x ∈ k.all_list

/-- The same bookkeeping inside an operation, when the outgoing thread has left
`THREAD_RUNNING` and `schedule` has not run yet: no live thread is marked
running. -/
structure switching_inv (k : kernel) : Prop where
  ready_nodup : k.ready_list.Nodup
  ready_live : ∀ x ∈ k.ready_list, x ∈ k.all_list
  none_running : ∀ x ∈ k.all_list, (deref k.threads x).status ≠ THREAD_RUNNING
  idle_out : ∀ i, k.idle_thread = some i → i ∈ k.all_list ∧ i ∉ k.ready_list
  ready_iff : ∀ x, some x ≠ k.idle_thread →
    (x ∈ k.ready_list ↔ (deref k.threads x).status = THREAD_READY)
  blocked_live : ∀ x, (deref k.threads x).status = THREAD_BLOCKED → x ∈ k.all_list

/-- The states the scheduler reaches from `thread_init` through
`thread_create`, `thread_block`, `thread_unblock`, `thread_yield`, `thread_exit`
(each ending in a completed `schedule` when it calls it) and the first run of
`idle`. The steps are the calls the kernel makes: `thread_create` gets a page
that holds no live thread, `idle` runs once, the idle thread does not exit, and
`thread_unblock` is not applied to the idle thread, which blocks itself without
being put on any wait list. -/
inductive reachable : kernel → Prop
  | init (mlfqs : Bool) (boot : Nat) (k : kernel)
      (h : thread_init mlfqs boot = .ok k) : reachable k
  | create (k k' : kernel) (page : Option Nat) (priority tid : Int)
      (hk : reachable k) (hfree : ∀ t, page = some t → t ∉ k.all_list)
      (h : thread_create k page priority = .ok (k', tid)) : reachable k'
  | block (k k' : kernel) (hk : reachable k) (h : thread_block k = .ok k') : reachable k'
  | unblock (k k' : kernel) (t : Nat) (hk : reachable k) (hid : some t ≠ k.idle_thread)
      (h : thread_unblock k t = .ok k') : reachable k'
  | yield (k k' : kernel) (hk : reachable k) (h : thread_yield k = .ok k') : reachable k'
  | exit (k k' : kernel) (hk : reachable k) (hid : some k.current ≠ k.idle_thread)
      (h : thread_exit k = .ok k') : reachable k'
  | idle (k k' : kernel) (hk : reachable k) (hnone : k.idle_thread = none)
      (h : idle k = .ok k') : reachable k'

/-- The alarm's interval has elapsed at tick `now`. -/
def alarm_due (now : Nat) (a : alarm) : Prop :=
  now - a.start_sleep_tick ≥ a.amount_ticks_to_sleep

instance (now : Nat) (a : alarm) : Decidable (alarm_due now a) :=
  inferInstanceAs (Decidable (_ ≥ _))

/-- The donation graph: an edge from every thread to its donee. -/
def donee_link (th : memory) (x y : Nat) : Prop := (deref th x).donee = some y

instance (th : memory) (x y : Nat) : Decidable (donee_link th x y) :=
  inferInstanceAs (Decidable (_ = _))

/-- The donation graph has no cycle: no thread reaches itself along donee links. -/
def acyclic (th : memory) : Prop := ∀ x, ¬ Relation.TransGen (donee_link th) x x

/-- The threads on the donee chain that starts at `x`, following at most `n`
links. -/
def donee_chain (th : memory) : Nat → Nat → List Nat
  | 0, x => [x]
  | n + 1, x =>
    match (deref th x).donee with
    | none => [x]
    | some d => x :: donee_chain th n d

/-- The donee chain that starts at `x` ends within `n` links. -/
def chain_closed (th : memory) : Nat → Nat → Prop
  | 0, x => (deref th x).donee = none
  | n + 1, x =>
    match (deref th x).donee with
    | none => True
    | some d => chain_closed th n d

/-- The donation flags agree with the donee links: a donor has a donee, which
is marked as a donee, and a thread that is not a donor has none. -/
def links_consistent (th : memory) : Prop :=
  ∀ x, ((deref th x).is_a_donor = true →
      ∃ d, (deref th x).donee = some d ∧ (deref th d).is_a_donee = true) ∧
    ((deref th x).is_a_donor = false → (deref th x).donee = none)

/-- No donee link of `k'` is new: every one is a link of `k`. -/
def links_kept (k k' : kernel) : Prop :=
  ∀ x y, donee_link k'.threads x y → donee_link k.threads x y

/-- The states reached from `thread_init` through donations and their
reversals, and through the scheduling calls that bring several threads into
play. A donation is by the running thread to a thread whose donee chain does not
lead to the caller. -/
inductive donation_reachable : kernel → Prop
  | init (mlfqs : Bool) (boot : Nat) (k : kernel)
      (h : thread_init mlfqs boot = .ok k) : donation_reachable k
  | create (k k' : kernel) (page : Option Nat) (priority tid : Int)
      (hk : donation_reachable k)
      (h : thread_create k page priority = .ok (k', tid)) : donation_reachable k'
  | block (k k' : kernel) (hk : donation_reachable k)
      (h : thread_block k = .ok k') : donation_reachable k'
  | unblock (k k' : kernel) (t : Nat) (hk : donation_reachable k)
      (h : thread_unblock k t = .ok k') : donation_reachable k'
  | yield (k k' : kernel) (hk : donation_reachable k)
      (h : thread_yield k = .ok k') : donation_reachable k'
  | donate (k k' : kernel) (fuel donee : Nat) (donor_lock : lock)
      (hk : donation_reachable k)
      (hfar : ¬ Relation.ReflTransGen (donee_link k.threads) donee k.current)
      (h : thread_donate_priority fuel k donee donor_lock = .ok k') : donation_reachable k'
  | reverse (k k' : kernel) (donor_lock : lock) (hk : donation_reachable k)
      (h : thread_reverse_priority_donation k donor_lock = .ok k') : donation_reachable k'

/-- The linkage `reverse (lock)` is to leave, in the words of the specification:
in the table `th'` the caller's donor list is the one of `th` with exactly the
donors whose `donor_lock` is the lock removed and the others in their previous
order, so that no donor left waits on the lock; every removed donor has
`donee = NULL` and `is_a_donor = false`; and every thread whose `donor_lock` is
another lock has the `donee`, `donor_lock` and `is_a_donor` it had in `th`. -/
def donors_unlinked (th : memory) (caller : Nat) (lk : lock) (th' : memory) : Prop :=
  (deref th' caller).donor_list =
    (deref th caller).donor_list.filter
      (fun d => decide ((deref th d).donor_lock ≠ some lk.addr)) ∧
  (∀ d ∈ (deref th' caller).donor_list, (deref th' d).donor_lock ≠ some lk.addr) ∧
  (∀ d ∈ (deref th caller).donor_list, (deref th d).donor_lock = some lk.addr →
    (deref th' d).donee = none ∧ (deref th' d).is_a_donor = false) ∧
  (∀ d, (deref th d).donor_lock ≠ some lk.addr →
    (deref th' d).donee = (deref th d).donee ∧
    (deref th' d).donor_lock = (deref th d).donor_lock ∧
    (deref th' d).is_a_donor = (deref th d).is_a_donor)

/-! ## Concrete executions

Every state below is written out in full; the theorems at the end of the file
check each step of each execution against the embedded functions. Handle `0` is
the boot thread `main`; the round-robin scheduler is selected, except in the
states named `mlfqs_` and `idle_`, where the MLFQS scheduler is selected and
handle `1` is the idle thread. -/

/-- The static variables before `thread_init`, with the round-robin scheduler
selected: no thread record, empty lists, `next_tid = 1`. -/
def no_threads : kernel :=
  { threads := [], ready_list := [], all_list := [], current := 0, idle_thread := none,
    initial_thread := 0, thread_mlfqs := false, load_avg := 0, thread_ticks := 0,
    next_tid := 1, freed := [] }

/-- The state `thread_init` leaves: `main` runs at `PRI_DEFAULT`. -/
def booted : kernel :=
  { no_threads with
    threads :=
      [(0, { zero_thread with
           tid := 1, status := THREAD_RUNNING, priority := 31, original_priority := 31 })],
    ready_list := [], all_list := [0], current := 0, next_tid := 2 }

/-- After `main` called `thread_set_priority (20)`. -/
def main_at_20 : kernel :=
  { no_threads with
    threads :=
      [(0, { zero_thread with
           tid := 1, status := THREAD_RUNNING, priority := 20, original_priority := 20 })],
    ready_list := [], all_list := [0], current := 0, next_tid := 2 }

/-- Sleeper execution, step 1: `main` created thread 1 with priority 20. -/
def sleeper_1 : kernel :=
  { no_threads with
    threads :=
      [(0, { zero_thread with
           tid := 1, status := THREAD_RUNNING, priority := 31, original_priority := 31 }),
       (1, { zero_thread with
           tid := 2, status := THREAD_READY, priority := 20, original_priority := 20 })],
    ready_list := [1], all_list := [0, 1], current := 0, next_tid := 3 }

/-- Sleeper execution, step 2: `main` lowered itself to 10 and yielded to thread 1. -/
def sleeper_2 : kernel :=
  { no_threads with
    threads :=
      [(0, { zero_thread with
           tid := 1, status := THREAD_READY, priority := 10, original_priority := 10 }),
       (1, { zero_thread with
           tid := 2, status := THREAD_RUNNING, priority := 20, original_priority := 20 })],
    ready_list := [0], all_list := [0, 1], current := 1, next_tid := 3 }

/-- Sleeper execution, step 3: thread 1 (holding lock 7) blocked; `main` runs at 10. -/
def sleeper_3 : kernel :=
  { no_threads with
    threads :=
      [(0, { zero_thread with
           tid := 1, status := THREAD_RUNNING, priority := 10, original_priority := 10 }),
       (1, { zero_thread with
           tid := 2, status := THREAD_BLOCKED, priority := 20, original_priority := 20 })],
    ready_list := [], all_list := [0, 1], current := 0, next_tid := 3 }

/-- Sleeper execution, step 4: `main` donated to thread 1 for lock 7. -/
def sleeper_4 : kernel :=
  { no_threads with
    threads :=
      [(0, { zero_thread with
           tid := 1, status := THREAD_RUNNING, priority := 10, original_priority := 10,
           donee := some 1, donor_lock := some 7, is_a_donor := true }),
       (1, { zero_thread with
           tid := 2, status := THREAD_BLOCKED, priority := 10, original_priority := 20,
           donor_list := [0], is_a_donee := true })],
    ready_list := [], all_list := [0, 1], current := 0, next_tid := 3 }

/-- Preemption execution, step 2: `main` (at 20, holding lock 7) created thread 1 with
priority 30, which preempted it. -/
def preempt_2 : kernel :=
  { no_threads with
    threads :=
      [(0, { zero_thread with
           tid := 1, status := THREAD_READY, priority := 20, original_priority := 20 }),
       (1, { zero_thread with
           tid := 2, status := THREAD_RUNNING, priority := 30, original_priority := 30 })],
    ready_list := [0], all_list := [0, 1], current := 1, next_tid := 3 }

/-- Preemption execution, step 3: thread 1 created thread 2 with priority 40, which
preempted it; the ready queue holds thread 1 (30) before `main` (20). -/
def preempt_3 : kernel :=
  { no_threads with
    threads :=
      [(0, { zero_thread with
           tid := 1, status := THREAD_READY, priority := 20, original_priority := 20 }),
       (1, { zero_thread with
           tid := 2, status := THREAD_READY, priority := 30, original_priority := 30 }),
       (2, { zero_thread with
           tid := 3, status := THREAD_RUNNING, priority := 40, original_priority := 40 })],
    ready_list := [1, 0], all_list := [0, 1, 2], current := 2, next_tid := 4 }

/-- Preemption execution, step 4: thread 2 donated to `main` for lock 7. -/
def preempt_4 : kernel :=
  { no_threads with
    threads :=
      [(0, { zero_thread with
           tid := 1, status := THREAD_READY, priority := 40, original_priority := 20,
           donor_list := [2], is_a_donee := true }),
       (1, { zero_thread with
           tid := 2, status := THREAD_READY, priority := 30, original_priority := 30 }),
       (2, { zero_thread with
           tid := 3, status := THREAD_RUNNING, priority := 40, original_priority := 40,
           donee := some 0, donor_lock := some 7, is_a_donor := true })],
    ready_list := [1, 0], all_list := [0, 1, 2], current := 2, next_tid := 4 }

/-- Release execution, step 2: thread 1 (40) donated to `main` (31, holder of locks 8 and
9) for lock 8. -/
def release_2 : kernel :=
  { no_threads with
    threads :=
      [(0, { zero_thread with
           tid := 1, status := THREAD_READY, priority := 40, original_priority := 31,
           donor_list := [1], is_a_donee := true }),
       (1, { zero_thread with
           tid := 2, status := THREAD_RUNNING, priority := 40, original_priority := 40,
           donee := some 0, donor_lock := some 8, is_a_donor := true })],
    ready_list := [0], all_list := [0, 1], current := 1, next_tid := 3 }

/-- Release execution, step 3: thread 1 blocked; `main` runs at 40. -/
def release_3 : kernel :=
  { no_threads with
    threads :=
      [(0, { zero_thread with
           tid := 1, status := THREAD_RUNNING, priority := 40, original_priority := 31,
           donor_list := [1], is_a_donee := true }),
       (1, { zero_thread with
           tid := 2, status := THREAD_BLOCKED, priority := 40, original_priority := 40,
           donee := some 0, donor_lock := some 8, is_a_donor := true })],
    ready_list := [], all_list := [0, 1], current := 0, next_tid := 3 }

/-- Release execution, step 4: `main` created thread 2 with priority 50, which preempted it. -/
def release_4 : kernel :=
  { no_threads with
    threads :=
      [(0, { zero_thread with
           tid := 1, status := THREAD_READY, priority := 40, original_priority := 31,
           donor_list := [1], is_a_donee := true }),
       (1, { zero_thread with
           tid := 2, status := THREAD_BLOCKED, priority := 40, original_priority := 40,
           donee := some 0, donor_lock := some 8, is_a_donor := true }),
       (2, { zero_thread with
           tid := 3, status := THREAD_RUNNING, priority := 50, original_priority := 50 })],
    ready_list := [0], all_list := [0, 1, 2], current := 2, next_tid := 4 }

/-- Release execution, step 5: thread 2 donated to `main` for lock 9. -/
def release_5 : kernel :=
  { no_threads with
    threads :=
      [(0, { zero_thread with
           tid := 1, status := THREAD_READY, priority := 50, original_priority := 31,
           donor_list := [1, 2], is_a_donee := true }),
       (1, { zero_thread with
           tid := 2, status := THREAD_BLOCKED, priority := 40, original_priority := 40,
           donee := some 0, donor_lock := some 8, is_a_donor := true }),
       (2, { zero_thread with
           tid := 3, status := THREAD_RUNNING, priority := 50, original_priority := 50,
           donee := some 0, donor_lock := some 9, is_a_donor := true })],
    ready_list := [0], all_list := [0, 1, 2], current := 2, next_tid := 4 }

/-- Release execution, step 6: thread 2 blocked; `main` runs at 50 with donors 1 (40, lock 8)
and 2 (50, lock 9). -/
def release_6 : kernel :=
  { no_threads with
    threads :=
      [(0, { zero_thread with
           tid := 1, status := THREAD_RUNNING, priority := 50, original_priority := 31,
           donor_list := [1, 2], is_a_donee := true }),
       (1, { zero_thread with
           tid := 2, status := THREAD_BLOCKED, priority := 40, original_priority := 40,
           donee := some 0, donor_lock := some 8, is_a_donor := true }),
       (2, { zero_thread with
           tid := 3, status := THREAD_BLOCKED, priority := 50, original_priority := 50,
           donee := some 0, donor_lock := some 9, is_a_donor := true })],
    ready_list := [], all_list := [0, 1, 2], current := 0, next_tid := 4 }

/-- Release execution, step 7: `main`, a donee, called `thread_set_priority (45)`. -/
def release_7 : kernel :=
  { no_threads with
    threads :=
      [(0, { zero_thread with
           tid := 1, status := THREAD_RUNNING, priority := 50, original_priority := 45,
           donor_list := [1, 2], is_a_donee := true }),
       (1, { zero_thread with
           tid := 2, status := THREAD_BLOCKED, priority := 40, original_priority := 40,
           donee := some 0, donor_lock := some 8, is_a_donor := true }),
       (2, { zero_thread with
           tid := 3, status := THREAD_BLOCKED, priority := 50, original_priority := 50,
           donee := some 0, donor_lock := some 9, is_a_donor := true })],
    ready_list := [], all_list := [0, 1, 2], current := 0, next_tid := 4 }

/-- Release execution, step 8: `main` reversed the donation for lock 9. -/
def release_8 : kernel :=
  { no_threads with
    threads :=
      [(0, { zero_thread with
           tid := 1, status := THREAD_RUNNING, priority := 40, original_priority := 45,
           donor_list := [1], is_a_donee := true }),
       (1, { zero_thread with
           tid := 2, status := THREAD_BLOCKED, priority := 40, original_priority := 40,
           donee := some 0, donor_lock := some 8, is_a_donor := true }),
       (2, { zero_thread with
           tid := 3, status := THREAD_BLOCKED, priority := 50, original_priority := 50,
           donor_lock := some 9 })],
    ready_list := [], all_list := [0, 1, 2], current := 0, next_tid := 4 }

/-- After `main` called `thread_set_priority (100)` in the state `booted`. -/
def overrange_1 : kernel :=
  { no_threads with
    threads :=
      [(0, { zero_thread with
           tid := 1, status := THREAD_RUNNING, priority := 63, original_priority := 100 })],
    ready_list := [], all_list := [0], current := 0, next_tid := 2 }

/-- Restore and release executions, step 1: `main` (31, holding its locks) created
thread 1 with priority 40, which preempted it. -/
def restore_1 : kernel :=
  { no_threads with
    threads :=
      [(0, { zero_thread with
           tid := 1, status := THREAD_READY, priority := 31, original_priority := 31 }),
       (1, { zero_thread with
           tid := 2, status := THREAD_RUNNING, priority := 40, original_priority := 40 })],
    ready_list := [0], all_list := [0, 1], current := 1, next_tid := 3 }

/-- Restore execution, step 2: thread 1 donated to `main` for lock 7. -/
def restore_2 : kernel :=
  { no_threads with
    threads :=
      [(0, { zero_thread with
           tid := 1, status := THREAD_READY, priority := 40, original_priority := 31,
           donor_list := [1], is_a_donee := true }),
       (1, { zero_thread with
           tid := 2, status := THREAD_RUNNING, priority := 40, original_priority := 40,
           donee := some 0, donor_lock := some 7, is_a_donor := true })],
    ready_list := [0], all_list := [0, 1], current := 1, next_tid := 3 }

/-- Restore execution, step 3: thread 1 lowered itself to 0 and yielded; `main` runs
at the donated priority 40. -/
def restore_3 : kernel :=
  { no_threads with
    threads :=
      [(0, { zero_thread with
           tid := 1, status := THREAD_RUNNING, priority := 40, original_priority := 31,
           donor_list := [1], is_a_donee := true }),
       (1, { zero_thread with
           tid := 2, status := THREAD_READY, priority := 0, original_priority := 0,
           donee := some 0, donor_lock := some 7, is_a_donor := true })],
    ready_list := [1], all_list := [0, 1], current := 0, next_tid := 3 }

/-- Restore execution, step 4: `main`, a donee, called `thread_set_priority (100)`. -/
def restore_4 : kernel :=
  { no_threads with
    threads :=
      [(0, { zero_thread with
           tid := 1, status := THREAD_RUNNING, priority := 63, original_priority := 100,
           donor_list := [1], is_a_donee := true }),
       (1, { zero_thread with
           tid := 2, status := THREAD_READY, priority := 0, original_priority := 0,
           donee := some 0, donor_lock := some 7, is_a_donor := true })],
    ready_list := [1], all_list := [0, 1], current := 0, next_tid := 3 }

/-- Restore execution, step 5: `main` reversed the donation for lock 7. -/
def restore_5 : kernel :=
  { no_threads with
    threads :=
      [(0, { zero_thread with
           tid := 1, status := THREAD_RUNNING, priority := 100, original_priority := 100 }),
       (1, { zero_thread with
           tid := 2, status := THREAD_READY, priority := 0, original_priority := 0,
           donor_lock := some 7 })],
    ready_list := [1], all_list := [0, 1], current := 0, next_tid := 3 }

/-- Chain execution, step 1: `main` (at 20, holding lock 8) created thread 1 with priority
20. -/
def chain_1 : kernel :=
  { no_threads with
    threads :=
      [(0, { zero_thread with
           tid := 1, status := THREAD_RUNNING, priority := 20, original_priority := 20 }),
       (1, { zero_thread with
           tid := 2, status := THREAD_READY, priority := 20, original_priority := 20 })],
    ready_list := [1], all_list := [0, 1], current := 0, next_tid := 3 }

/-- Chain execution, step 2: `main` created thread 2 with priority 10. -/
def chain_2 : kernel :=
  { no_threads with
    threads :=
      [(0, { zero_thread with
           tid := 1, status := THREAD_RUNNING, priority := 20, original_priority := 20 }),
       (1, { zero_thread with
           tid := 2, status := THREAD_READY, priority := 20, original_priority := 20 }),
       (2, { zero_thread with
           tid := 3, status := THREAD_READY, priority := 10, original_priority := 10 })],
    ready_list := [1, 2], all_list := [0, 1, 2], current := 0, next_tid := 4 }

/-- Chain execution, step 3: `main` blocked; thread 1 runs (and takes lock 7). -/
def chain_3 : kernel :=
  { no_threads with
    threads :=
      [(0, { zero_thread with
           tid := 1, status := THREAD_BLOCKED, priority := 20, original_priority := 20 }),
       (1, { zero_thread with
           tid := 2, status := THREAD_RUNNING, priority := 20, original_priority := 20 }),
       (2, { zero_thread with
           tid := 3, status := THREAD_READY, priority := 10, original_priority := 10 })],
    ready_list := [2], all_list := [0, 1, 2], current := 1, next_tid := 4 }

/-- Chain execution, step 4: thread 1 donated to `main` for lock 8. -/
def chain_4 : kernel :=
  { no_threads with
    threads :=
      [(0, { zero_thread with
           tid := 1, status := THREAD_BLOCKED, priority := 20, original_priority := 20,
           donor_list := [1], is_a_donee := true }),
       (1, { zero_thread with
           tid := 2, status := THREAD_RUNNING, priority := 20, original_priority := 20,
           donee := some 0, donor_lock := some 8, is_a_donor := true }),
       (2, { zero_thread with
           tid := 3, status := THREAD_READY, priority := 10, original_priority := 10 })],
    ready_list := [2], all_list := [0, 1, 2], current := 1, next_tid := 4 }

/-- Chain execution, step 5: thread 1 blocked; thread 2 runs at priority 10. -/
def chain_5 : kernel :=
  { no_threads with
    threads :=
      [(0, { zero_thread with
           tid := 1, status := THREAD_BLOCKED, priority := 20, original_priority := 20,
           donor_list := [1], is_a_donee := true }),
       (1, { zero_thread with
           tid := 2, status := THREAD_BLOCKED, priority := 20, original_priority := 20,
           donee := some 0, donor_lock := some 8, is_a_donor := true }),
       (2, { zero_thread with
           tid := 3, status := THREAD_RUNNING, priority := 10, original_priority := 10 })],
    ready_list := [], all_list := [0, 1, 2], current := 2, next_tid := 4 }

/-- Chain execution, step 6: thread 2 donated to thread 1 for lock 7. -/
def chain_6 : kernel :=
  { no_threads with
    threads :=
      [(0, { zero_thread with
           tid := 1, status := THREAD_BLOCKED, priority := 20, original_priority := 20,
           donor_list := [1], is_a_donee := true }),
       (1, { zero_thread with
           tid := 2, status := THREAD_BLOCKED, priority := 10, original_priority := 20,
           donor_list := [2], donee := some 0, donor_lock := some 8, is_a_donor := true,
           is_a_donee := true }),
       (2, { zero_thread with
           tid := 3, status := THREAD_RUNNING, priority := 10, original_priority := 10,
           donee := some 1, donor_lock := some 7, is_a_donor := true })],
    ready_list := [], all_list := [0, 1, 2], current := 2, next_tid := 4 }

/-- Single-donation execution, step 2: `main` (at 20, holding lock 7) created thread 1
with priority 40, which
preempted it. -/
def single_2 : kernel :=
  { no_threads with
    threads :=
      [(0, { zero_thread with
           tid := 1, status := THREAD_READY, priority := 20, original_priority := 20 }),
       (1, { zero_thread with
           tid := 2, status := THREAD_RUNNING, priority := 40, original_priority := 40 })],
    ready_list := [0], all_list := [0, 1], current := 1, next_tid := 3 }

/-- Single-donation execution, step 3: thread 1 donated to `main` for lock 7. -/
def single_3 : kernel :=
  { no_threads with
    threads :=
      [(0, { zero_thread with
           tid := 1, status := THREAD_READY, priority := 40, original_priority := 20,
           donor_list := [1], is_a_donee := true }),
       (1, { zero_thread with
           tid := 2, status := THREAD_RUNNING, priority := 40, original_priority := 40,
           donee := some 0, donor_lock := some 7, is_a_donor := true })],
    ready_list := [0], all_list := [0, 1], current := 1, next_tid := 3 }

/-- Single-donation execution, step 4: thread 1 blocked; `main` runs. -/
def single_4 : kernel :=
  { no_threads with
    threads :=
      [(0, { zero_thread with
           tid := 1, status := THREAD_RUNNING, priority := 40, original_priority := 20,
           donor_list := [1], is_a_donee := true }),
       (1, { zero_thread with
           tid := 2, status := THREAD_BLOCKED, priority := 40, original_priority := 40,
           donee := some 0, donor_lock := some 7, is_a_donor := true })],
    ready_list := [], all_list := [0, 1], current := 0, next_tid := 3 }


/-- After `main` called `thread_set_priority (0)`: it yielded and, being the
only thread, runs again at `PRI_MIN`. -/
def main_at_0 : kernel :=
  { no_threads with
    threads :=
      [(0, { zero_thread with
           tid := 1, status := THREAD_RUNNING, priority := 0, original_priority := 0 })],
    ready_list := [], all_list := [0], current := 0, next_tid := 2 }

/-- After `main` called `thread_set_priority (-5)`: `original_priority` holds
the request, `priority` is clamped to `PRI_MIN`. -/
def main_below : kernel :=
  { no_threads with
    threads :=
      [(0, { zero_thread with
           tid := 1, status := THREAD_RUNNING, priority := 0, original_priority := -5 })],
    ready_list := [], all_list := [0], current := 0, next_tid := 2 }

/-- An MLFQS state: `main` runs with `recent_cpu = 400.0` and `nice = 0`, the
idle thread (handle 1) is blocked, `load_avg = 1.0`. -/
def mlfqs_400 : kernel :=
  { threads :=
      [(0, { zero_thread with
           tid := 1, status := THREAD_RUNNING, priority := 31, original_priority := 31,
           recent_cpu := 6553600 }),
       (1, { zero_thread with
           tid := 2, status := THREAD_BLOCKED, priority := 0, original_priority := 0 })],
    ready_list := [], all_list := [0, 1], current := 0, idle_thread := some 1,
    initial_thread := 0, thread_mlfqs := true, load_avg := 16384, thread_ticks := 0,
    next_tid := 3, freed := [] }

/-- The state `thread_recalculate_all_priorities` leaves from `mlfqs_400`. -/
def mlfqs_400_done : kernel :=
  { threads :=
      [(0, { zero_thread with
           tid := 1, status := THREAD_RUNNING, priority := 0, original_priority := 31,
           recent_cpu := 6553600 }),
       (1, { zero_thread with
           tid := 2, status := THREAD_BLOCKED, priority := 63, original_priority := 0 })],
    ready_list := [], all_list := [0, 1], current := 0, idle_thread := some 1,
    initial_thread := 0, thread_mlfqs := true, load_avg := 16384, thread_ticks := 0,
    next_tid := 3, freed := [] }

/-- An MLFQS state: `main` runs at `PRI_MIN` with `recent_cpu = 256.0` and
`nice = 0`, the idle thread (handle 1) is blocked. -/
def mlfqs_256 : kernel :=
  { threads :=
      [(0, { zero_thread with
           tid := 1, status := THREAD_RUNNING, priority := 0, original_priority := 31,
           recent_cpu := 4194304 }),
       (1, { zero_thread with
           tid := 2, status := THREAD_BLOCKED, priority := 0, original_priority := 0 })],
    ready_list := [], all_list := [0, 1], current := 0, idle_thread := some 1,
    initial_thread := 0, thread_mlfqs := true, load_avg := 0, thread_ticks := 0,
    next_tid := 3, freed := [] }

/-- The state `thread_set_nice (5)` leaves from `mlfqs_256`. -/
def mlfqs_256_nicer : kernel :=
  { threads :=
      [(0, { zero_thread with
           tid := 1, status := THREAD_RUNNING, priority := 0, original_priority := 31,
           nice := 5, recent_cpu := 4194304 }),
       (1, { zero_thread with
           tid := 2, status := THREAD_BLOCKED, priority := 0, original_priority := 0 })],
    ready_list := [], all_list := [0, 1], current := 0, idle_thread := some 1,
    initial_thread := 0, thread_mlfqs := true, load_avg := 0, thread_ticks := 0,
    next_tid := 3, freed := [] }

/-- An MLFQS state in which the idle thread (handle 1) runs: `main` is blocked
and the ready queue is empty. -/
def idle_running : kernel :=
  { threads :=
      [(0, { zero_thread with
           tid := 1, status := THREAD_BLOCKED, priority := 31, original_priority := 31 }),
       (1, { zero_thread with
           tid := 2, status := THREAD_RUNNING, priority := 0, original_priority := 0 })],
    ready_list := [], all_list := [0, 1], current := 1, idle_thread := some 1,
    initial_thread := 0, thread_mlfqs := true, load_avg := 0, thread_ticks := 0,
    next_tid := 3, freed := [] }

/-- The state `thread_tick` leaves from `idle_running` at tick 1. -/
def idle_ticked : kernel :=
  { threads :=
      [(0, { zero_thread with
           tid := 1, status := THREAD_BLOCKED, priority := 31, original_priority := 31 }),
       (1, { zero_thread with
           tid := 2, status := THREAD_RUNNING, priority := 0, original_priority := 0,
           recent_cpu := 16384 })],
    ready_list := [], all_list := [0, 1], current := 1, idle_thread := some 1,
    initial_thread := 0, thread_mlfqs := true, load_avg := 0, thread_ticks := 1,
    next_tid := 3, freed := [] }

/-- Start-up execution, step 1: `main` created the idle thread (handle 1) with
priority `PRI_MIN`, as `thread_start` does. -/
def start_1 : kernel :=
  { no_threads with
    threads :=
      [(0, { zero_thread with
           tid := 1, status := THREAD_RUNNING, priority := 31, original_priority := 31 }),
       (1, { zero_thread with
           tid := 2, status := THREAD_READY, priority := 0, original_priority := 0 })],
    ready_list := [1], all_list := [0, 1], current := 0, next_tid := 3 }

/-- Start-up execution, step 2: `main` blocked on the start-up semaphore; the
idle thread runs for the first time. -/
def start_2 : kernel :=
  { no_threads with
    threads :=
      [(0, { zero_thread with
           tid := 1, status := THREAD_BLOCKED, priority := 31, original_priority := 31 }),
       (1, { zero_thread with
           tid := 2, status := THREAD_RUNNING, priority := 0, original_priority := 0 })],
    ready_list := [], all_list := [0, 1], current := 1, next_tid := 3 }

/-- Start-up execution, step 3: `idle` recorded itself in `idle_thread`. -/
def start_3 : kernel :=
  { no_threads with
    threads :=
      [(0, { zero_thread with
           tid := 1, status := THREAD_BLOCKED, priority := 31, original_priority := 31 }),
       (1, { zero_thread with
           tid := 2, status := THREAD_RUNNING, priority := 0, original_priority := 0 })],
    ready_list := [], all_list := [0, 1], current := 1, idle_thread := some 1, next_tid := 3 }

/-- Start-up execution, step 4: the idle thread unblocked `main`. -/
def start_4 : kernel :=
  { no_threads with
    threads :=
      [(0, { zero_thread with
           tid := 1, status := THREAD_READY, priority := 31, original_priority := 31 }),
       (1, { zero_thread with
           tid := 2, status := THREAD_RUNNING, priority := 0, original_priority := 0 })],
    ready_list := [0], all_list := [0, 1], current := 1, idle_thread := some 1, next_tid := 3 }

/-- Start-up execution, step 5: the idle thread blocked; `main` runs. -/
def start_5 : kernel :=
  { no_threads with
    threads :=
      [(0, { zero_thread with
           tid := 1, status := THREAD_RUNNING, priority := 31, original_priority := 31 }),
       (1, { zero_thread with
           tid := 2, status := THREAD_BLOCKED, priority := 0, original_priority := 0 })],
    ready_list := [], all_list := [0, 1], current := 0, idle_thread := some 1, next_tid := 3 }

/-- Start-up execution, step 6: `main` blocked (it sleeps); the ready queue is
empty and the idle thread runs. -/
def start_6 : kernel :=
  { no_threads with
    threads :=
      [(0, { zero_thread with
           tid := 1, status := THREAD_BLOCKED, priority := 31, original_priority := 31 }),
       (1, { zero_thread with
           tid := 2, status := THREAD_RUNNING, priority := 0, original_priority := 0 })],
    ready_list := [], all_list := [0, 1], current := 1, idle_thread := some 1, next_tid := 3 }

/-- Start-up execution, step 7: a timer interrupt woke `main` while the idle
thread runs. -/
def start_7 : kernel :=
  { no_threads with
    threads :=
      [(0, { zero_thread with
           tid := 1, status := THREAD_READY, priority := 31, original_priority := 31 }),
       (1, { zero_thread with
           tid := 2, status := THREAD_RUNNING, priority := 0, original_priority := 0 })],
    ready_list := [0], all_list := [0, 1], current := 1, idle_thread := some 1, next_tid := 3 }

/-- Start-up execution, step 8: the idle thread's time slice expired and it
yielded: `main` runs, the idle thread is marked ready and is in no queue. -/
def start_8 : kernel :=
  { no_threads with
    threads :=
      [(0, { zero_thread with
           tid := 1, status := THREAD_RUNNING, priority := 31, original_priority := 31 }),
       (1, { zero_thread with
           tid := 2, status := THREAD_READY, priority := 0, original_priority := 0 })],
    ready_list := [], all_list := [0, 1], current := 0, idle_thread := some 1, next_tid := 3 }

/-- Deadlock execution: from `release_3` (thread 1 waits for lock 8 held by
`main`), `main` donated to thread 1 for lock 9; each is the donee of the other. -/
def cycle_1 : kernel :=
  { no_threads with
    threads :=
      [(0, { zero_thread with
           tid := 1, status := THREAD_RUNNING, priority := 40, original_priority := 31,
           donor_list := [1], donee := some 1, donor_lock := some 9, is_a_donor := true,
           is_a_donee := true }),
       (1, { zero_thread with
           tid := 2, status := THREAD_BLOCKED, priority := 40, original_priority := 40,
           donor_list := [0], donee := some 0, donor_lock := some 8, is_a_donor := true,
           is_a_donee := true })],
    ready_list := [], all_list := [0, 1], current := 0, next_tid := 3 }

/-- From `sleeper_1`, `main` went to sleep: it is blocked and thread 1 runs. -/
def asleep_1 : kernel :=
  { no_threads with
    threads :=
      [(0, { zero_thread with
           tid := 1, status := THREAD_BLOCKED, priority := 31, original_priority := 31 }),
       (1, { zero_thread with
           tid := 2, status := THREAD_RUNNING, priority := 20, original_priority := 20 })],
    ready_list := [], all_list := [0, 1], current := 1, next_tid := 3 }

/-- From `restore_1`, thread 1 exited: `main` runs and the page of thread 1 was
released. -/
def exit_1 : kernel :=
  { no_threads with
    threads :=
      [(0, { zero_thread with
           tid := 1, status := THREAD_RUNNING, priority := 31, original_priority := 31 }),
       (1, { zero_thread with
           tid := 2, status := THREAD_DYING, priority := 40, original_priority := 40 })],
    ready_list := [], all_list := [0], current := 0, next_tid := 3, freed := [1] }

/-- The records at the start of a nested walk: `main` (30) holds lock 8, thread 1
waits for it and holds lock 7, and thread 2 (50) has just linked itself to
thread 1 for lock 7. -/
def nest_walk : memory :=
  [(0, { zero_thread with
       tid := 1, status := THREAD_READY, priority := 30, original_priority := 20,
       donor_list := [1], is_a_donee := true }),
   (1, { zero_thread with
       tid := 2, status := THREAD_BLOCKED, priority := 50, original_priority := 30,
       donor_list := [2], donee := some 0, donor_lock := some 8, is_a_donor := true,
       is_a_donee := true }),
   (2, { zero_thread with
       tid := 3, status := THREAD_RUNNING, priority := 50, original_priority := 50,
       donee := some 1, donor_lock := some 7, is_a_donor := true })]

/-- The records the nested walk leaves from `nest_walk`: `main` is at 50. -/
def nest_done : memory :=
  [(0, { zero_thread with
       tid := 1, status := THREAD_READY, priority := 50, original_priority := 20,
       donor_list := [1], is_a_donee := true }),
   (1, { zero_thread with
       tid := 2, status := THREAD_BLOCKED, priority := 50, original_priority := 30,
       donor_list := [2], donee := some 0, donor_lock := some 8, is_a_donor := true,
       is_a_donee := true }),
   (2, { zero_thread with
       tid := 3, status := THREAD_RUNNING, priority := 50, original_priority := 50,
       donee := some 1, donor_lock := some 7, is_a_donor := true })]

/-- Nested single donation, step 1: `main` (30, raised to 40) holds lock 8;
thread 1 (40) holds lock 7, has donated to `main` for lock 8 and is blocked;
thread 2 (50) runs. -/
def wait_1 : kernel :=
  { no_threads with
    threads :=
      [(0, { zero_thread with
           tid := 1, status := THREAD_READY, priority := 40, original_priority := 30,
           donor_list := [1], is_a_donee := true }),
       (1, { zero_thread with
           tid := 2, status := THREAD_BLOCKED, priority := 40, original_priority := 40,
           donee := some 0, donor_lock := some 8, is_a_donor := true }),
       (2, { zero_thread with
           tid := 3, status := THREAD_RUNNING, priority := 50, original_priority := 50 })],
    ready_list := [0], all_list := [0, 1, 2], current := 2, next_tid := 4 }

/-- Nested single donation, step 2: thread 2 donated to thread 1 for lock 7; the
walk raised `main` to 50 as well. -/
def wait_2 : kernel :=
  { no_threads with
    threads :=
      [(0, { zero_thread with
           tid := 1, status := THREAD_READY, priority := 50, original_priority := 30,
           donor_list := [1], is_a_donee := true }),
       (1, { zero_thread with
           tid := 2, status := THREAD_BLOCKED, priority := 50, original_priority := 40,
           donor_list := [2], donee := some 0, donor_lock := some 8, is_a_donor := true,
           is_a_donee := true }),
       (2, { zero_thread with
           tid := 3, status := THREAD_RUNNING, priority := 50, original_priority := 50,
           donee := some 1, donor_lock := some 7, is_a_donor := true })],
    ready_list := [0], all_list := [0, 1, 2], current := 2, next_tid := 4 }

/-- Nested single donation, step 3: thread 2 blocked, `main` released lock 8
(unlinking thread 1) and woke thread 1, which runs at 50 with thread 2 as its
donor. -/
def wait_3 : kernel :=
  { no_threads with
    threads :=
      [(0, { zero_thread with
           tid := 1, status := THREAD_READY, priority := 30, original_priority := 30 }),
       (1, { zero_thread with
           tid := 2, status := THREAD_RUNNING, priority := 50, original_priority := 40,
           donor_list := [2], donor_lock := some 8, is_a_donee := true }),
       (2, { zero_thread with
           tid := 3, status := THREAD_BLOCKED, priority := 50, original_priority := 50,
           donee := some 1, donor_lock := some 7, is_a_donor := true })],
    ready_list := [0], all_list := [0, 1, 2], current := 1, next_tid := 4 }

/-- An MLFQS state with a crowded ready queue: `main` runs, the idle thread
(handle 1) is blocked, and the `2^17 - 1` threads with the handles 2 to `2^17`
are ready at priority 31; `load_avg = 0`. -/
def mlfqs_crowded : kernel :=
  { threads :=
      (0, { zero_thread with
           tid := 1, status := THREAD_RUNNING, priority := 31, original_priority := 31 }) ::
      (1, { zero_thread with
           tid := 2, status := THREAD_BLOCKED, priority := 0, original_priority := 0 }) ::
      (List.range' 2 131071).map (fun t =>
        (t, { zero_thread with
           tid := t + 1, status := THREAD_READY, priority := 31, original_priority := 31 })),
    ready_list := List.range' 2 131071, all_list := 0 :: 1 :: List.range' 2 131071,
    current := 0, idle_thread := some 1,
    initial_thread := 0, thread_mlfqs := true, load_avg := 0, thread_ticks := 0,
    next_tid := 131074, freed := [] }

/-- The state `thread_recalculate_load_avg` leaves from `mlfqs_crowded`. -/
def mlfqs_crowded_done : kernel := { mlfqs_crowded with load_avg := -35791394 }

/-- The state `mlfqs_400` with `load_avg = 131071.5`, the value at which
`2 * load_avg` leaves the range of `int` by `-1.0`. -/
def mlfqs_overloaded : kernel := { mlfqs_400 with load_avg := 2147475456 }

/-- The state `mlfqs_400` with `load_avg = 65535.5`, the least value at which
`2 * load_avg + 1.0` leaves the range of `int`. -/
def mlfqs_loaded : kernel := { mlfqs_400 with load_avg := 1073733632 }

/-- The state `recalculate_recent_cpu` leaves from `mlfqs_loaded` for `main`. -/
def mlfqs_loaded_done : kernel :=
  { mlfqs_loaded with
    threads :=
      [(0, { zero_thread with
           tid := 1, status := THREAD_RUNNING, priority := 31, original_priority := 31,
           recent_cpu := -6553200 }),
       (1, { zero_thread with
           tid := 2, status := THREAD_BLOCKED, priority := 0, original_priority := 0 })] }

/-! ## Memory lemmas -/

theorem deref_write (m : memory) (t : Nat) (v : thread) (x : Nat) :
    deref (write m t v) x = if x = t then v else deref m x := by
  induction m with
  | nil =>
    by_cases h : x = t
    · simp [write, deref, h]
    · have h2 : ¬ t = x := fun e => h e.symm
      simp [write, deref, h, h2]
  | cons p rest ih =>
    obtain ⟨a, r⟩ := p
    by_cases hat : a = t
    · by_cases hx : x = t
      · simp [write, deref, hat, hx]
      · have h2 : ¬ t = x := fun e => hx e.symm
        simp [write, deref, hat, hx, h2]
    · by_cases hx : x = t
      · subst hx
        simp [write, deref, hat, ih]
      · by_cases hax : a = x
        · simp [write, deref, hat, hx, hax]
        · simp [write, deref, hat, hx, hax, ih]

theorem deref_store (m : memory) (t : Nat) (g : thread → thread) (x : Nat) :
    deref (store m t g) x = if x = t then g (deref m t) else deref m x := by
  unfold store
  exact deref_write m t _ x

/-! ## Ready-queue insertion -/

/-- The loop of `insert_thread_ordered` puts `t` in front of the first element
whose priority is strictly below that of `t`. -/
theorem insert_loop_split (th : memory) (t : Nat) :
    ∀ (l : List Nat) (prev : Nat), (deref th prev).priority ≥ (deref th t).priority →
      ∃ pre post, l = pre ++ post ∧ insert_loop th t prev l = pre ++ t :: post ∧
        (∀ x ∈ pre, (deref th x).priority ≥ (deref th t).priority) ∧
        (∀ y, post.head? = some y → (deref th y).priority < (deref th t).priority) := by
  intro l
  induction l with
  | nil =>
    intro prev _
    exact ⟨[], [], rfl, rfl, by simp, by simp⟩
  | cons curr rest ih =>
    intro prev hprev
    by_cases hc : (deref th t).priority > (deref th curr).priority
    · refine ⟨[], curr :: rest, rfl, ?_, by simp, ?_⟩
      · simp [insert_loop, hprev, hc]
      · intro y hy
        simp at hy
        subst hy
        exact hc
    · have hge : (deref th curr).priority ≥ (deref th t).priority := not_lt.mp hc
      obtain ⟨pre, post, hl, hins, hpre, hpost⟩ := ih curr hge
      refine ⟨curr :: pre, post, by simp [hl], ?_, ?_, hpost⟩
      · simp [insert_loop, hc, hins]
      · intro x hx
        rcases List.mem_cons.mp hx with h | h
        · subst h; exact hge
        · exact hpre x h

/-- The same for the whole of `insert_thread_ordered`, which changes nothing but
the ready list. -/
theorem insert_thread_ordered_split (k : kernel) (t : Nat) :
    ∃ pre post, k.ready_list = pre ++ post ∧
      (insert_thread_ordered k t).ready_list = pre ++ t :: post ∧
      (∀ x ∈ pre, (deref k.threads x).priority ≥ (deref k.threads t).priority) ∧
      (∀ y, post.head? = some y → (deref k.threads y).priority < (deref k.threads t).priority) ∧
      (insert_thread_ordered k t).threads = k.threads ∧
      (insert_thread_ordered k t).current = k.current := by
  unfold insert_thread_ordered
  cases hrl : k.ready_list with
  | nil => exact ⟨[], [], rfl, rfl, by simp, by simp, rfl, rfl⟩
  | cons first rest =>
    by_cases hf : (deref k.threads first).priority < (deref k.threads t).priority
    · refine ⟨[], first :: rest, rfl, by simp [hf], by simp, ?_, by simp [hf], by simp [hf]⟩
      intro y hy
      simp at hy
      subst hy
      exact hf
    · have hge : (deref k.threads first).priority ≥ (deref k.threads t).priority := not_lt.mp hf
      obtain ⟨pre, post, hl, hins, hpre, hpost⟩ := insert_loop_split k.threads t rest first hge
      refine ⟨first :: pre, post, by simp [hl], by simp [hf, hins], ?_, hpost, by simp [hf], by simp [hf]⟩
      intro x hx
      rcases List.mem_cons.mp hx with h | h
      · subst h; exact hge
      · exact hpre x h

/-- In a descending list whose head is below `p`, every element is below `p`. -/
theorem sorted_tail_below (th : memory) (p : Int) :
    ∀ (post : List Nat), sorted_desc th post →
      (∀ y, post.head? = some y → (deref th y).priority < p) →
      ∀ x ∈ post, (deref th x).priority < p := by
  intro post hs hh x hx
  cases post with
  | nil => simp at hx
  | cons y rest =>
    have hy : (deref th y).priority < p := hh y rfl
    rcases List.mem_cons.mp hx with h | h
    · subst h; exact hy
    · have := (List.pairwise_cons.mp hs).1 x h
      exact lt_of_le_of_lt this hy

/-- Inserting at the boundary keeps a descending list descending. -/
theorem sorted_insert (th : memory) (t : Nat) (pre post : List Nat)
    (hs : sorted_desc th (pre ++ post))
    (hpre : ∀ x ∈ pre, (deref th x).priority ≥ (deref th t).priority)
    (hpost : ∀ x ∈ post, (deref th x).priority < (deref th t).priority) :
    sorted_desc th (pre ++ t :: post) := by
  unfold sorted_desc at *
  rw [List.pairwise_append] at hs ⊢
  obtain ⟨h1, h2, h3⟩ := hs
  refine ⟨h1, ?_, ?_⟩
  · rw [List.pairwise_cons]
    exact ⟨fun b hb => le_of_lt (hpost b hb), h2⟩
  · intro a ha b hb
    rcases List.mem_cons.mp hb with h | h
    · subst h; exact hpre a ha
    · exact h3 a ha b h

/-- C2: for every BLOCKED thread `t` and every ready queue sorted by priority
descending, `thread_unblock t` returns, and the new queue is the old one with `t`
put after every entry of priority at least that of `t` and before every entry of
strictly lower priority; the result is sorted, the other entries keep their
order, `t` becomes READY, no priority changes, no other record changes and the
running thread stays the same. -/
theorem thread_unblock_inserts_by_priority (k : kernel) (t : Nat)
    (hb : (deref k.threads t).status = THREAD_BLOCKED)
    (hs : sorted_desc k.threads k.ready_list) :
    ∃ k' pre post, thread_unblock k t = .ok k' ∧
      k.ready_list = pre ++ post ∧ k'.ready_list = pre ++ t :: post ∧
      (∀ x ∈ pre, (deref k.threads x).priority ≥ (deref k.threads t).priority) ∧
      (∀ x ∈ post, (deref k.threads x).priority < (deref k.threads t).priority) ∧
      sorted_desc k'.threads k'.ready_list ∧
      (deref k'.threads t).status = THREAD_READY ∧
      (∀ x, (deref k'.threads x).priority = (deref k.threads x).priority) ∧
      (∀ x, x ≠ t → deref k'.threads x = deref k.threads x) ∧
      k'.current = k.current := by
  obtain ⟨pre, post, hl, hins, hpre, hhead, hth, hcur⟩ := insert_thread_ordered_split k t
  have hpost : ∀ x ∈ post, (deref k.threads x).priority < (deref k.threads t).priority := by
    apply sorted_tail_below
    · have : sorted_desc k.threads (pre ++ post) := hl ▸ hs
      unfold sorted_desc at this ⊢
      exact (List.pairwise_append.mp this).2.1
    · exact hhead
  have hprio : ∀ x, (deref (store (insert_thread_ordered k t).threads t
      (fun r => { r with status := THREAD_READY })) x).priority = (deref k.threads x).priority := by
    intro x
    rw [deref_store, hth]
    by_cases hx : x = t
    · simp [hx]
    · simp [hx]
  refine ⟨{ insert_thread_ordered k t with
      threads := store (insert_thread_ordered k t).threads t
        (fun r => { r with status := THREAD_READY }) }, pre, post, ?_, hl, hins, hpre, hpost,
    ?_, ?_, hprio, ?_, hcur⟩
  · simp [thread_unblock, hb]
  · have h1 : sorted_desc k.threads (pre ++ t :: post) :=
      sorted_insert k.threads t pre post (hl ▸ hs) hpre hpost
    show sorted_desc _ (insert_thread_ordered k t).ready_list
    rw [hins]
    unfold sorted_desc at h1 ⊢
    refine h1.imp ?_
    intro a b hab
    rw [hprio a, hprio b]
    exact hab
  · dsimp only
    rw [deref_store]
    simp
  · intro x hx
    dsimp only
    rw [deref_store, hth]
    simp [hx]

/-! ## Priority donation -/

/-- Records that agree up to `priority` and on `priority` are equal. -/
theorem thread_eq_of_forget (a b : thread) (h : forget_priority a = forget_priority b)
    (hp : a.priority = b.priority) : a = b := by
  cases a
  cases b
  simp only [forget_priority, thread.mk.injEq] at h
  simp only at hp
  simp only [thread.mk.injEq]
  tauto

/-- Writing `priority` is invisible once `priority` is blanked. -/
theorem forget_priority_store (th : memory) (t : Nat) (p : Int) (x : Nat) :
    forget_priority (deref (store th t (fun r => { r with priority := p })) x)
      = forget_priority (deref th x) := by
  rw [deref_store]
  by_cases hx : x = t
  · simp [hx, forget_priority]
  · simp [hx]

/-- The nested walk writes nothing but `priority`, and leaves alone every thread
whose priority is not below the donor's. -/
theorem donate_walk_frame (donor : Nat) :
    ∀ (fuel nd : Nat) (th th' : memory), donate_walk fuel donor nd th = .ok th' →
      ∀ x, forget_priority (deref th' x) = forget_priority (deref th x) ∧
        ((deref th donor).priority ≤ (deref th x).priority →
          (deref th' x).priority = (deref th x).priority) := by
  intro fuel
  induction fuel with
  | zero =>
    intro nd th th' h x
    unfold donate_walk at h
    by_cases hd : (deref th nd).is_a_donor = true
    · simp [hd] at h
    · simp [hd] at h
      subst h
      exact ⟨rfl, fun _ => rfl⟩
  | succ fuel ih =>
    intro nd th th' h x
    unfold donate_walk at h
    by_cases hd : (deref th nd).is_a_donor = true
    · simp only [hd, if_true] at h
      cases hne : (deref th nd).donee with
      | none => simp [hne] at h
      | some ne =>
        simp only [hne] at h
        by_cases hfl : (deref th ne).is_a_donee = true
        · simp only [hfl, if_true] at h
          by_cases hgt : (deref th donor).priority > (deref th ne).priority
          · simp only [hgt, if_true] at h
            have hdn : donor ≠ ne := by
              intro e; rw [e] at hgt; exact lt_irrefl _ hgt
            have hp1 : (deref (store th ne
                (fun r => { r with priority := (deref th donor).priority })) donor).priority
                = (deref th donor).priority := by
              rw [deref_store]; simp [hdn]
            have hstep : ∀ thw, (∀ y, forget_priority (deref thw y) =
                  forget_priority (deref (store th ne
                    (fun r => { r with priority := (deref th donor).priority })) y) ∧
                ((deref (store th ne
                    (fun r => { r with priority := (deref th donor).priority })) donor).priority ≤
                  (deref (store th ne
                    (fun r => { r with priority := (deref th donor).priority })) y).priority →
                  (deref thw y).priority = (deref (store th ne
                    (fun r => { r with priority := (deref th donor).priority })) y).priority)) →
                forget_priority (deref thw x) = forget_priority (deref th x) ∧
                ((deref th donor).priority ≤ (deref th x).priority →
                  (deref thw x).priority = (deref th x).priority) := by
              intro thw hy
              obtain ⟨ha, hb⟩ := hy x
              refine ⟨by rw [ha, forget_priority_store], ?_⟩
              intro hle
              have hxn : x ≠ ne := by
                intro e; rw [e] at hle; exact absurd hgt (not_lt.mpr hle)
              have hx1 : deref (store th ne
                  (fun r => { r with priority := (deref th donor).priority })) x = deref th x := by
                rw [deref_store]; simp [hxn]
              rw [hp1, hx1] at hb
              exact hb hle
            by_cases hd2 : (deref (store th ne
                (fun r => { r with priority := (deref th donor).priority })) ne).is_a_donor = true
            · simp only [hd2, if_true] at h
              exact hstep th' (ih ne _ th' h)
            · simp only [hd2] at h
              by_cases hn2 : (deref (store th ne
                  (fun r => { r with priority := (deref th donor).priority })) ne).donee = none
              · simp [hn2] at h
                subst h
                exact hstep _ (fun y => ⟨rfl, fun _ => rfl⟩)
              · simp [hn2] at h
          · simp only [hgt, if_false] at h
            simp at h
            subst h
            exact ⟨rfl, fun _ => rfl⟩
        · simp [hfl] at h
    · simp [hd] at h
      subst h
      exact ⟨rfl, fun _ => rfl⟩

/-- The records just before the nested walk of a donation. -/
theorem donate_links (th : memory) (donor donee lockaddr x : Nat) :
    deref (store (store (store (store (store (store th donor
        (fun r => { r with donee := some donee })) donee
        (fun r => { r with donor_list := r.donor_list ++ [donor] })) donor
        (fun r => { r with is_a_donor := true })) donor
        (fun r => { r with donor_lock := some lockaddr })) donee
        (fun r => { r with priority := (deref (store (store (store (store th donor
          (fun r => { r with donee := some donee })) donee
          (fun r => { r with donor_list := r.donor_list ++ [donor] })) donor
          (fun r => { r with is_a_donor := true })) donor
          (fun r => { r with donor_lock := some lockaddr })) donor).priority })) donee
        (fun r => { r with is_a_donee := true })) x =
      { deref th x with
        donee := if x = donor then some donee else (deref th x).donee,
        donor_list := if x = donee then (deref th x).donor_list ++ [donor]
                      else (deref th x).donor_list,
        is_a_donor := if x = donor then true else (deref th x).is_a_donor,
        donor_lock := if x = donor then some lockaddr else (deref th x).donor_lock,
        priority := if x = donee then (deref th donor).priority else (deref th x).priority,
        is_a_donee := if x = donee then true else (deref th x).is_a_donee } := by
  simp only [deref_store]
  by_cases h1 : x = donor <;> by_cases h2 : x = donee <;> by_cases h3 : donor = donee <;>
    simp_all

/-- The records after one donor has been unlinked by the loop body. -/
theorem unlink_fields (th : memory) (donee t x : Nat) :
    (deref (store (store (store th donee
        (fun r => { r with donor_list := list_remove r.donor_list t })) t
        (fun r => { r with is_a_donor := false })) t
        (fun r => { r with donee := none })) x) =
      { deref th x with
        donor_list := if x = donee then list_remove (deref th x).donor_list t
                      else (deref th x).donor_list,
        is_a_donor := if x = t then false else (deref th x).is_a_donor,
        donee := if x = t then none else (deref th x).donee } := by
  simp only [deref_store]
  by_cases h1 : x = t <;> by_cases h2 : x = donee <;> by_cases h3 : t = donee <;>
    simp_all

/-- What one pass of the donor-list loop leaves in every record. -/
theorem reverse_loop_fields (lk : lock) (donee : Nat) :
    ∀ (l : List Nat) (th : memory) (x : Nat),
      (deref (reverse_loop lk donee l th) x).donor_lock = (deref th x).donor_lock ∧
      (deref (reverse_loop lk donee l th) x).priority = (deref th x).priority ∧
      (deref (reverse_loop lk donee l th) x).original_priority = (deref th x).original_priority ∧
      (deref (reverse_loop lk donee l th) x).status = (deref th x).status ∧
      (deref (reverse_loop lk donee l th) x).is_a_donee = (deref th x).is_a_donee ∧
      (deref (reverse_loop lk donee l th) x).donor_list =
        (if x = donee then
          (deref th x).donor_list.filter
            (fun d => !(decide (d ∈ l) && decide ((deref th d).donor_lock = some lk.addr)))
         else (deref th x).donor_list) ∧
      (deref (reverse_loop lk donee l th) x).is_a_donor =
        (if x ∈ l ∧ (deref th x).donor_lock = some lk.addr then false
         else (deref th x).is_a_donor) ∧
      (deref (reverse_loop lk donee l th) x).donee =
        (if x ∈ l ∧ (deref th x).donor_lock = some lk.addr then none
         else (deref th x).donee) := by
  intro l
  induction l with
  | nil =>
    intro th x
    simp [reverse_loop]
  | cons t rest ih =>
    intro th x
    by_cases hit : (deref th t).donor_lock = some lk.addr
    · have hs := unlink_fields th donee t
      simp only [reverse_loop, hit, if_true]
      generalize (store (store (store th donee
          (fun r => { r with donor_list := list_remove r.donor_list t })) t
          (fun r => { r with is_a_donor := false })) t
          (fun r => { r with donee := none })) = th3 at hs ⊢
      obtain ⟨h1, h2, h3, h4, h5, h6, h7, h8⟩ := ih th3 x
      have hlock : ∀ d, (deref th3 d).donor_lock = (deref th d).donor_lock := by
        intro d; rw [hs d]
      refine ⟨?_, ?_, ?_, ?_, ?_, ?_, ?_, ?_⟩
      · rw [h1, hs x]
      · rw [h2, hs x]
      · rw [h3, hs x]
      · rw [h4, hs x]
      · rw [h5, hs x]
      · rw [h6]
        by_cases hx : x = donee
        · simp only [hx, if_true, hlock]
          rw [hs donee]
          simp only [if_true]
          rw [list_remove, List.filter_filter]
          apply List.filter_congr
          intro d _
          by_cases hd : d = t
          · subst hd
            simp [hit]
          · simp [hd]
        · simp only [hx, if_false]
          rw [hs x]
          simp [hx]
      · rw [h7, hlock, hs x]
        by_cases hx : x = t
        · subst hx
          simp [hit]
        · simp [hx]
      · rw [h8, hlock, hs x]
        by_cases hx : x = t
        · subst hx
          simp [hit]
        · simp [hx]
    · obtain ⟨h1, h2, h3, h4, h5, h6, h7, h8⟩ := ih th x
      simp only [reverse_loop, hit, if_false]
      refine ⟨h1, h2, h3, h4, h5, ?_, ?_, ?_⟩
      · rw [h6]
        by_cases hx : x = donee
        · simp only [hx, if_true]
          apply List.filter_congr
          intro d _
          by_cases hd : d = t
          · subst hd
            simp [hit]
          · simp [hd]
        · simp [hx]
      · rw [h7]
        by_cases hx : x = t
        · subst hx
          simp [hit]
        · simp [hx]
      · rw [h8]
        by_cases hx : x = t
        · subst hx
          simp [hit]
        · simp [hx]

/-- Once `max` is set the scan of `get_max_priority_donor` keeps it set. -/
theorem max_donor_loop_some (th : memory) :
    ∀ (l : List Nat) (m : Nat) (pr : Int), ∃ r, max_donor_loop th l (some m) pr = some r := by
  intro l
  induction l with
  | nil => intro m pr; exact ⟨m, rfl⟩
  | cons t rest ih =>
    intro m pr
    unfold max_donor_loop
    split_ifs
    · exact ih t _
    · exact ih m pr

/-- The scan of `get_max_priority_donor` ends without a maximum exactly when no
donor's priority is above the starting value. -/
theorem max_donor_loop_none (th : memory) :
    ∀ (l : List Nat) (pr : Int),
      max_donor_loop th l none pr = none ↔ ∀ d ∈ l, (deref th d).priority ≤ pr := by
  intro l
  induction l with
  | nil => intro pr; simp [max_donor_loop]
  | cons t rest ih =>
    intro pr
    unfold max_donor_loop
    split_ifs with h
    · obtain ⟨r, hr⟩ := max_donor_loop_some th rest t (deref th t).priority
      rw [hr]
      constructor
      · intro e; cases e
      · intro e
        have := e t (by simp)
        omega
    · rw [ih pr]
      constructor
      · intro e d hd
        rcases List.mem_cons.mp hd with rfl | hd
        · omega
        · exact e d hd
      · intro e d hd
        exact e d (List.mem_cons_of_mem _ hd)

/-- On a non-empty donor list `get_max_priority_donor` returns a donor when some
donor has a priority of at least `PRI_MIN`, and fails its assertion
`max != NULL` when every donor is below. -/
theorem get_max_priority_donor_cases (k : kernel) (donee : Nat)
    (hne : (deref k.threads donee).donor_list ≠ []) :
    ((∃ d ∈ (deref k.threads donee).donor_list, PRI_MIN ≤ (deref k.threads d).priority) →
      ∃ m, get_max_priority_donor k donee = .ok m) ∧
    ((∀ d ∈ (deref k.threads donee).donor_list, (deref k.threads d).priority < PRI_MIN) →
      get_max_priority_donor k donee = .error fault.assertion) := by
  have hn := max_donor_loop_none k.threads (deref k.threads donee).donor_list (-1)
  unfold get_max_priority_donor
  rw [if_neg hne]
  constructor
  · rintro ⟨d, hd, hp⟩
    cases hm : max_donor_loop k.threads (deref k.threads donee).donor_list none (-1) with
    | none =>
      have := (hn.mp hm) d hd
      unfold PRI_MIN at hp
      omega
    | some m => exact ⟨m, rfl⟩
  · intro hall
    have : max_donor_loop k.threads (deref k.threads donee).donor_list none (-1) = none := by
      apply hn.mpr
      intro d hd
      have := hall d hd
      unfold PRI_MIN at this
      omega
    rw [this]


/-- C7: when the running thread has a non-empty donor list and holds the lock,
the loop of `thread_reverse_priority_donation` leaves the linkage the claim
describes, and so does the call whenever it returns: the caller's donor list is
the previous one with exactly the donors waiting on that lock removed, the
others in their previous order; every removed donor has `donee = NULL` and
`is_a_donor = false`; every thread waiting on a different lock keeps `donee`,
`donor_lock` and `is_a_donor`. The call returns when no donor is left or some
donor left has a priority of at least `PRI_MIN`; otherwise, after the loop, the
`ASSERT (max != NULL)` of `get_max_priority_donor` fails. -/
theorem reverse_unlinks_exactly_the_donors_of_the_lock (k : kernel) (lk : lock)
    (hrun : (deref k.threads k.current).status = THREAD_RUNNING)
    (hne : (deref k.threads k.current).donor_list ≠ [])
    (hh : lk.holder = some k.current) :
    donors_unlinked k.threads k.current lk
      (reverse_loop lk k.current (deref k.threads k.current).donor_list k.threads) ∧
    (∀ k', thread_reverse_priority_donation k lk = .ok k' →
      donors_unlinked k.threads k.current lk k'.threads) ∧
    (((deref k.threads k.current).donor_list.filter
          (fun d => decide ((deref k.threads d).donor_lock ≠ some lk.addr)) = [] ∨
        ∃ d ∈ (deref k.threads k.current).donor_list.filter
          (fun d => decide ((deref k.threads d).donor_lock ≠ some lk.addr)),
          PRI_MIN ≤ (deref k.threads d).priority) →
      ∃ k', thread_reverse_priority_donation k lk = .ok k') ∧
    ((deref k.threads k.current).donor_list.filter
          (fun d => decide ((deref k.threads d).donor_lock ≠ some lk.addr)) ≠ [] →
      (∀ d ∈ (deref k.threads k.current).donor_list.filter
          (fun d => decide ((deref k.threads d).donor_lock ≠ some lk.addr)),
          (deref k.threads d).priority < PRI_MIN) →
      thread_reverse_priority_donation k lk = .error fault.assertion) := by
  unfold donors_unlinked
  have hf := reverse_loop_fields lk k.current (deref k.threads k.current).donor_list k.threads
  generalize hth1 : reverse_loop lk k.current (deref k.threads k.current).donor_list k.threads
    = th1 at hf
  have hlist : (deref th1 k.current).donor_list =
      (deref k.threads k.current).donor_list.filter
        (fun d => decide ((deref k.threads d).donor_lock ≠ some lk.addr)) := by
    rw [(hf k.current).2.2.2.2.2.1]
    simp only [if_true]
    apply List.filter_congr
    intro d hd
    simp [hd]
  -- the state after the loop already has the stated linkage
  have key : ∀ th', (∀ x, (deref th' x).donor_list = (deref th1 x).donor_list ∧
        (deref th' x).donee = (deref th1 x).donee ∧
        (deref th' x).donor_lock = (deref th1 x).donor_lock ∧
        (deref th' x).is_a_donor = (deref th1 x).is_a_donor) →
      (deref th' k.current).donor_list =
        (deref k.threads k.current).donor_list.filter
          (fun d => decide ((deref k.threads d).donor_lock ≠ some lk.addr)) ∧
      (∀ d ∈ (deref th' k.current).donor_list, (deref th' d).donor_lock ≠ some lk.addr) ∧
      (∀ d ∈ (deref k.threads k.current).donor_list,
        (deref k.threads d).donor_lock = some lk.addr →
          (deref th' d).donee = none ∧ (deref th' d).is_a_donor = false) ∧
      (∀ d, (deref k.threads d).donor_lock ≠ some lk.addr →
          (deref th' d).donee = (deref k.threads d).donee ∧
          (deref th' d).donor_lock = (deref k.threads d).donor_lock ∧
          (deref th' d).is_a_donor = (deref k.threads d).is_a_donor) := by
    intro th' hsame
    refine ⟨by rw [(hsame k.current).1, hlist], ?_, ?_, ?_⟩
    · intro d hd
      rw [(hsame k.current).1, hlist] at hd
      have := (List.mem_filter.mp hd).2
      rw [(hsame d).2.2.1, (hf d).1]
      simpa using this
    · intro d hd hl
      rw [(hsame d).2.1, (hsame d).2.2.2, (hf d).2.2.2.2.2.2.2, (hf d).2.2.2.2.2.2.1]
      simp [hd, hl]
    · intro d hl
      rw [(hsame d).2.1, (hsame d).2.2.1, (hsame d).2.2.2, (hf d).2.2.2.2.2.2.2,
        (hf d).2.2.2.2.2.2.1, (hf d).1]
      simp [hl]
  -- the call, unfolded up to the scan for the highest remaining donor
  have hcall : thread_reverse_priority_donation k lk =
      if (deref th1 k.current).donor_list = [] then
        .ok { k with threads := (store (store th1 k.current
          (fun r => { r with priority := r.original_priority })) k.current
          (fun r => { r with is_a_donee := false })) }
      else
        (get_max_priority_donor { k with threads := th1 } k.current).bind
          (fun m => .ok { k with threads := (store th1 k.current
            (fun r => { r with priority := (deref th1 m).priority })) }) := by
    simp only [thread_reverse_priority_donation, thread_current, hrun, hne, hh, hth1, bind,
      Except.bind, pure, Except.pure, if_true, ne_eq, not_true_eq_false, if_false]
  have hprio : ∀ d, (deref th1 d).priority = (deref k.threads d).priority :=
    fun d => (hf d).2.1
  rw [hcall]
  refine ⟨key th1 (fun x => ⟨rfl, rfl, rfl, rfl⟩), ?_⟩
  by_cases hemp : (deref th1 k.current).donor_list = []
  · rw [if_pos hemp]
    refine ⟨?_, fun _ => ⟨_, rfl⟩, fun h => absurd (hlist ▸ hemp) h⟩
    intro k' hk'
    injection hk' with hk'
    subst hk'
    apply key
    intro x
    simp only [deref_store]
    by_cases hx : x = k.current <;> simp [hx]
  · rw [if_neg hemp]
    obtain ⟨g1, g2⟩ := get_max_priority_donor_cases { k with threads := th1 } k.current hemp
    refine ⟨?_, ?_, ?_⟩
    · intro k' hk'
      cases hm : get_max_priority_donor { k with threads := th1 } k.current with
      | error e => rw [hm] at hk'; cases hk'
      | ok m =>
        rw [hm] at hk'
        injection hk' with hk'
        subst hk'
        apply key
        intro x
        simp only [deref_store]
        by_cases hx : x = k.current <;> simp [hx]
    · rintro (h | ⟨d, hd, hp⟩)
      · exact absurd (hlist.trans h) hemp
      · obtain ⟨m, hm⟩ := g1 ⟨d, by rw [hlist]; exact hd, by rw [hprio]; exact hp⟩
        rw [hm]
        exact ⟨_, rfl⟩
    · intro _ hall
      rw [g2 (fun d hd => by rw [hprio]; exact hall d (by rw [← hlist]; exact hd))]
      rfl

/-- A donation that returns has run the nested walk on the linked records. -/
theorem donate_unfold (fuel : Nat) (k : kernel) (donee : Nat) (X : lock) (k1 : kernel)
    (h : thread_donate_priority fuel k donee X = .ok k1) :
    ∃ th6, (∀ x, deref th6 x =
      { deref k.threads x with
        donee := if x = k.current then some donee else (deref k.threads x).donee,
        donor_list := if x = donee then (deref k.threads x).donor_list ++ [k.current]
                      else (deref k.threads x).donor_list,
        is_a_donor := if x = k.current then true else (deref k.threads x).is_a_donor,
        donor_lock := if x = k.current then some X.addr else (deref k.threads x).donor_lock,
        priority := if x = donee then (deref k.threads k.current).priority
                    else (deref k.threads x).priority,
        is_a_donee := if x = donee then true else (deref k.threads x).is_a_donee }) ∧
      donate_walk fuel k.current donee th6 = .ok k1.threads := by
  unfold thread_donate_priority thread_current at h
  by_cases hrun : (deref k.threads k.current).status = THREAD_RUNNING
  · by_cases h1 : (deref k.threads k.current).donee = none
    · by_cases h2 : (deref k.threads k.current).is_a_donor = false
      · simp only [hrun, h1, h2, if_true, bind, Except.bind, ne_eq, not_true_eq_false,
          if_false] at h
        refine ⟨_, donate_links k.threads k.current donee X.addr, ?_⟩
        split at h
        · simp at h
        · rename_i th7 hw
          simp only [pure, Except.pure, Except.ok.injEq] at h
          rw [← h]
          exact hw
      · simp [hrun, h1, h2, bind, Except.bind] at h
    · simp [hrun, h1, bind, Except.bind] at h
  · simp [hrun, bind, Except.bind] at h

/-- The walk stops at once at a thread that is not a donor, whatever the fuel. -/
theorem donate_walk_not_donor (fuel donor nd : Nat) (th : memory)
    (h : (deref th nd).is_a_donor = false) : donate_walk fuel donor nd th = .ok th := by
  cases fuel <;> simp [donate_walk, h]

/-- A donation to another thread that is not itself a donor returns, whatever
the fuel. -/
theorem donate_returns_of_not_donor (fuel : Nat) (k : kernel) (donee : Nat) (X : lock)
    (hrun : (deref k.threads k.current).status = THREAD_RUNNING)
    (h1 : (deref k.threads k.current).donee = none)
    (h2 : (deref k.threads k.current).is_a_donor = false)
    (h3 : (deref k.threads donee).is_a_donor = false) (e : donee ≠ k.current) :
    ∃ k1, thread_donate_priority fuel k donee X = .ok k1 := by
  have hl := donate_links k.threads k.current donee X.addr donee
  have hnd : (deref (store (store (store (store (store (store k.threads k.current
        (fun r => { r with donee := some donee })) donee
        (fun r => { r with donor_list := r.donor_list ++ [k.current] })) k.current
        (fun r => { r with is_a_donor := true })) k.current
        (fun r => { r with donor_lock := some X.addr })) donee
        (fun r => { r with priority := (deref (store (store (store (store k.threads k.current
          (fun r => { r with donee := some donee })) donee
          (fun r => { r with donor_list := r.donor_list ++ [k.current] })) k.current
          (fun r => { r with is_a_donor := true })) k.current
          (fun r => { r with donor_lock := some X.addr })) k.current).priority })) donee
        (fun r => { r with is_a_donee := true })) donee).is_a_donor = false := by
    rw [hl]
    simp [e, h3]
  unfold thread_donate_priority thread_current
  simp only [hrun, h1, h2, if_true, bind, Except.bind, ne_eq, not_true_eq_false, if_false]
  rw [donate_walk_not_donor _ _ _ _ hnd]
  exact ⟨_, rfl⟩

/-- One iteration of the nested walk that raises `nest_donee` and goes on. -/
theorem donate_walk_step (fuel donor nd ne : Nat) (th : memory)
    (hd : (deref th nd).is_a_donor = true) (hne : (deref th nd).donee = some ne)
    (hfl : (deref th ne).is_a_donee = true)
    (hgt : (deref th donor).priority > (deref th ne).priority)
    (hd2 : (deref th ne).is_a_donor = true) :
    donate_walk (fuel + 1) donor nd th =
      donate_walk fuel donor ne
        (store th ne (fun r => { r with priority := (deref th donor).priority })) ∧
    donate_walk_traced (fuel + 1) donor nd th =
      ((donate_walk_traced fuel donor ne
          (store th ne (fun r => { r with priority := (deref th donor).priority }))).1,
        (ne, true) :: (donate_walk_traced fuel donor ne
          (store th ne (fun r => { r with priority := (deref th donor).priority }))).2) := by
  have hd3 : (deref (store th ne
      (fun r => { r with priority := (deref th donor).priority })) ne).is_a_donor = true := by
    rw [deref_store, if_pos rfl]; exact hd2
  constructor
  · rw [donate_walk]
    simp only [hd, if_true, hne, hfl, hgt, hd3]
  · rw [donate_walk_traced]
    simp only [hd, if_true, hne, hfl, hgt, hd3]

/-- An iteration of the nested walk that ends the walk, with or without raising
`nest_donee`, or that fails an assertion. -/
theorem donate_walk_stop (fuel donor nd : Nat) (th : memory) :
    (¬ (deref th nd).is_a_donor = true →
      donate_walk fuel donor nd th = .ok th ∧
      donate_walk_traced fuel donor nd th = (.ok th, [])) ∧
    ((deref th nd).is_a_donor = true → (deref th nd).donee = none →
      donate_walk (fuel + 1) donor nd th = .error fault.assertion ∧
      donate_walk_traced (fuel + 1) donor nd th = (.error fault.assertion, [])) ∧
    (∀ ne, (deref th nd).is_a_donor = true → (deref th nd).donee = some ne →
      ¬ (deref th ne).is_a_donee = true →
      donate_walk (fuel + 1) donor nd th = .error fault.assertion ∧
      donate_walk_traced (fuel + 1) donor nd th = (.error fault.assertion, [(ne, false)])) ∧
    (∀ ne, (deref th nd).is_a_donor = true → (deref th nd).donee = some ne →
      (deref th ne).is_a_donee = true →
      ¬ (deref th donor).priority > (deref th ne).priority →
      donate_walk (fuel + 1) donor nd th = .ok th ∧
      donate_walk_traced (fuel + 1) donor nd th = (.ok th, [(ne, false)])) ∧
    (∀ ne, (deref th nd).is_a_donor = true → (deref th nd).donee = some ne →
      (deref th ne).is_a_donee = true →
      (deref th donor).priority > (deref th ne).priority →
      ¬ (deref th ne).is_a_donor = true →
      ((deref th ne).donee = none →
        donate_walk (fuel + 1) donor nd th =
          .ok (store th ne (fun r => { r with priority := (deref th donor).priority })) ∧
        donate_walk_traced (fuel + 1) donor nd th =
          (.ok (store th ne (fun r => { r with priority := (deref th donor).priority })),
            [(ne, true)])) ∧
      (¬ (deref th ne).donee = none →
        donate_walk (fuel + 1) donor nd th = .error fault.assertion ∧
        donate_walk_traced (fuel + 1) donor nd th = (.error fault.assertion, [(ne, true)]))) := by
  refine ⟨?_, ?_, ?_, ?_, ?_⟩
  · intro hd
    constructor
    · unfold donate_walk; simp only [hd, if_false]; rfl
    · unfold donate_walk_traced; simp only [hd, if_false]; rfl
  · intro hd hne
    constructor
    · rw [donate_walk]; simp only [hd, if_true, hne]
    · rw [donate_walk_traced]; simp only [hd, if_true, hne]
  · intro ne hd hne hfl
    constructor
    · rw [donate_walk]; simp only [hd, if_true, hne, hfl, if_false]; rfl
    · rw [donate_walk_traced]; simp only [hd, if_true, hne, hfl, if_false]; rfl
  · intro ne hd hne hfl hgt
    constructor
    · rw [donate_walk]; simp only [hd, if_true, hne, hfl, hgt, if_false]
    · rw [donate_walk_traced]; simp only [hd, if_true, hne, hfl, hgt, if_false]
  · intro ne hd hne hfl hgt hd2
    have hd3 : ¬ (deref (store th ne
        (fun r => { r with priority := (deref th donor).priority })) ne).is_a_donor = true := by
      rw [deref_store, if_pos rfl]; exact hd2
    have hn3 : (deref (store th ne
        (fun r => { r with priority := (deref th donor).priority })) ne).donee
        = (deref th ne).donee := by
      rw [deref_store, if_pos rfl]
    constructor
    · intro hn
      constructor
      · rw [donate_walk]; simp only [hd, if_true, hne, hfl, hgt, hd3, if_false, hn3, hn, Bool.false_eq_true]
      · rw [donate_walk_traced]; simp only [hd, if_true, hne, hfl, hgt, hd3, if_false, hn3, hn, Bool.false_eq_true]
    · intro hn
      constructor
      · rw [donate_walk]; simp only [hd, if_true, hne, hfl, hgt, hd3, if_false, hn3, hn, Bool.false_eq_true]
      · rw [donate_walk_traced]; simp only [hd, if_true, hne, hfl, hgt, hd3, if_false, hn3, hn, Bool.false_eq_true]

/-- A handle that was never written reads as the zeroed record. -/
theorem deref_of_not_written (th : memory) (y : Nat) (h : y ∉ th.map Prod.fst) :
    deref th y = zero_thread := by
  induction th with
  | nil => rfl
  | cons p rest ih =>
    obtain ⟨a, r⟩ := p
    simp only [List.map_cons, List.mem_cons, not_or] at h
    unfold deref
    rw [if_neg (fun e => h.1 e.symm)]
    exact ih h.2

/-- Fewer elements satisfy a predicate that holds at most where another one
holds and fails at an element where the other one holds. -/
theorem countP_lt_of_imp (p q : Nat → Bool) :
    ∀ (l : List Nat), (∀ x ∈ l, p x = true → q x = true) →
      ∀ a ∈ l, q a = true → p a = false → l.countP p < l.countP q := by
  intro l
  induction l with
  | nil => intro _ a ha; cases ha
  | cons b rest ih =>
    intro himp a ha hq hp
    have hle : rest.countP p ≤ rest.countP q :=
      List.countP_mono_left (fun x hx => himp x (List.mem_cons_of_mem _ hx))
    rw [List.countP_cons, List.countP_cons]
    rcases List.mem_cons.mp ha with rfl | har
    · simp only [hq, hp, if_true]
      simp
      omega
    · have hlt := ih (fun x hx => himp x (List.mem_cons_of_mem _ hx)) a har hq hp
      have hb := himp b (List.mem_cons_self _ _)
      by_cases hpb : p b = true
      · simp [hpb, hb hpb]; omega
      · simp only [hpb]
        by_cases hqb : q b = true
        · simp [hqb]; omega
        · simp [hqb]; omega

/-- The nested walk needs no more iterations than there are marked donees below
the caller's priority, plus one: with that much fuel it ends on its own, by
returning or by failing one of its assertions, and when the donation flags agree
with the links it returns. -/
theorem donate_walk_fuel (donor : Nat) (S : List Nat) :
    ∀ (fuel nd : Nat) (th : memory),
      (∀ x, (deref th x).is_a_donee = true → x ∈ S) →
      S.countP (fun x => decide ((deref th x).priority < (deref th donor).priority)) < fuel →
      ((∃ th', donate_walk fuel donor nd th = .ok th') ∨
        donate_walk fuel donor nd th = .error fault.assertion) ∧
      (links_consistent th → ∃ th', donate_walk fuel donor nd th = .ok th') := by
  intro fuel
  induction fuel with
  | zero => intro nd th _ h; exact absurd h (Nat.not_lt_zero _)
  | succ fuel ih =>
    intro nd th hS hc
    obtain ⟨s1, s2, s3, s4, s5⟩ := donate_walk_stop fuel donor nd th
    by_cases hd : (deref th nd).is_a_donor = true
    · cases hne : (deref th nd).donee with
      | none =>
        refine ⟨Or.inr (s2 hd hne).1, ?_⟩
        intro hl
        obtain ⟨d, hd1, _⟩ := (hl nd).1 hd
        rw [hne] at hd1
        cases hd1
      | some ne =>
        by_cases hfl : (deref th ne).is_a_donee = true
        · by_cases hgt : (deref th donor).priority > (deref th ne).priority
          · by_cases hd2 : (deref th ne).is_a_donor = true
            · rw [(donate_walk_step fuel donor nd ne th hd hne hfl hgt hd2).1]
              have hdn : donor ≠ ne := by
                intro e
                rw [e] at hgt
                exact lt_irrefl _ hgt
              have hrec : ∀ x, deref (store th ne
                  (fun r => { r with priority := (deref th donor).priority })) x =
                  if x = ne then { deref th ne with priority := (deref th donor).priority }
                  else deref th x := fun x => deref_store _ _ _ x
              have hS1 : ∀ x, (deref (store th ne
                  (fun r => { r with priority := (deref th donor).priority })) x).is_a_donee
                    = true → x ∈ S := by
                intro x hx
                rw [hrec] at hx
                by_cases e : x = ne
                · rw [e]; exact hS ne hfl
                · rw [if_neg e] at hx; exact hS x hx
              have hP : (deref (store th ne
                  (fun r => { r with priority := (deref th donor).priority })) donor).priority
                    = (deref th donor).priority := by
                rw [hrec, if_neg hdn]
              have hlt : S.countP (fun x => decide ((deref (store th ne
                    (fun r => { r with priority := (deref th donor).priority })) x).priority <
                  (deref (store th ne
                    (fun r => { r with priority := (deref th donor).priority })) donor).priority))
                  < S.countP (fun x => decide ((deref th x).priority < (deref th donor).priority)) := by
                apply countP_lt_of_imp _ _ S _ ne (hS ne hfl)
                · simpa using hgt
                · rw [hP, hrec, if_pos rfl]
                  simp
                · intro x _ hx
                  rw [hP, hrec] at hx
                  by_cases e : x = ne
                  · rw [if_pos e] at hx
                    simp at hx
                  · rw [if_neg e] at hx
                    exact hx
              obtain ⟨i1, i2⟩ := ih ne _ hS1 (by omega)
              refine ⟨i1, fun hl => i2 ?_⟩
              intro x
              rw [hrec]
              by_cases e : x = ne
              · rw [if_pos e]
                obtain ⟨l1, l2⟩ := hl ne
                refine ⟨fun h => ?_, fun h => l2 h⟩
                obtain ⟨d, hd1, hd3⟩ := l1 h
                refine ⟨d, hd1, ?_⟩
                rw [hrec]
                by_cases e2 : d = ne
                · rw [if_pos e2]; exact hfl
                · rw [if_neg e2]; exact hd3
              · rw [if_neg e]
                obtain ⟨l1, l2⟩ := hl x
                refine ⟨fun h => ?_, l2⟩
                obtain ⟨d, hd1, hd3⟩ := l1 h
                refine ⟨d, hd1, ?_⟩
                rw [hrec]
                by_cases e2 : d = ne
                · rw [if_pos e2]; exact hfl
                · rw [if_neg e2]; exact hd3
            · by_cases hn2 : (deref th ne).donee = none
              · rw [((s5 ne hd hne hfl hgt hd2).1 hn2).1]
                exact ⟨Or.inl ⟨_, rfl⟩, fun _ => ⟨_, rfl⟩⟩
              · refine ⟨Or.inr ((s5 ne hd hne hfl hgt hd2).2 hn2).1, ?_⟩
                intro hl
                exact absurd ((hl ne).2 (by simpa using hd2)) hn2
          · rw [(s4 ne hd hne hfl hgt).1]
            exact ⟨Or.inl ⟨_, rfl⟩, fun _ => ⟨_, rfl⟩⟩
        · refine ⟨Or.inr (s3 ne hd hne hfl).1, ?_⟩
          intro hl
          obtain ⟨d, hd1, hd3⟩ := (hl nd).1 hd
          rw [hne] at hd1
          injection hd1 with hd1
          rw [← hd1] at hd3
          exact absurd hd3 hfl
    · rw [((donate_walk_stop (fuel + 1) donor nd th).1 hd).1]
      exact ⟨Or.inl ⟨_, rfl⟩, fun _ => ⟨_, rfl⟩⟩

/-- A donation by a running thread that is not yet a donor ends on its own when
the fuel exceeds the number of thread records, by returning or by failing an
assertion of the nested walk, and it returns when the donation flags agree with
the links. -/
theorem donate_returns (fuel : Nat) (k : kernel) (donee : Nat) (X : lock)
    (hrun : (deref k.threads k.current).status = THREAD_RUNNING)
    (h1 : (deref k.threads k.current).donee = none)
    (h2 : (deref k.threads k.current).is_a_donor = false)
    (hfuel : k.threads.length < fuel) :
    ((∃ k1, thread_donate_priority fuel k donee X = .ok k1) ∨
      thread_donate_priority fuel k donee X = .error fault.assertion) ∧
    (links_consistent k.threads → ∃ k1, thread_donate_priority fuel k donee X = .ok k1) := by
  have hl := donate_links k.threads k.current donee X.addr
  generalize hth6 : store (store (store (store (store (store k.threads k.current
        (fun r => { r with donee := some donee })) donee
        (fun r => { r with donor_list := r.donor_list ++ [k.current] })) k.current
        (fun r => { r with is_a_donor := true })) k.current
        (fun r => { r with donor_lock := some X.addr })) donee
        (fun r => { r with priority := (deref (store (store (store (store k.threads k.current
          (fun r => { r with donee := some donee })) donee
          (fun r => { r with donor_list := r.donor_list ++ [k.current] })) k.current
          (fun r => { r with is_a_donor := true })) k.current
          (fun r => { r with donor_lock := some X.addr })) k.current).priority })) donee
        (fun r => { r with is_a_donee := true }) = th6 at hl
  have hcall : thread_donate_priority fuel k donee X =
      (donate_walk fuel k.current donee th6).bind (fun th7 => .ok { k with threads := th7 }) := by
    unfold thread_donate_priority thread_current
    simp only [hrun, h1, h2, if_true, bind, Except.bind, ne_eq, not_true_eq_false, if_false,
      pure, Except.pure, hth6]
  have hS : ∀ x, (deref th6 x).is_a_donee = true → x ∈ donee :: k.threads.map Prod.fst := by
    intro x hx
    by_cases e : x = donee
    · rw [e]; exact List.mem_cons_self _ _
    · apply List.mem_cons_of_mem
      by_contra hmem
      rw [hl x] at hx
      simp only [if_neg e] at hx
      rw [deref_of_not_written _ _ hmem] at hx
      cases hx
  have hP : (deref th6 k.current).priority = (deref k.threads k.current).priority := by
    rw [hl]
    by_cases e : k.current = donee
    · simp [e]
    · simp [e]
  have hcount : (donee :: k.threads.map Prod.fst).countP
      (fun x => decide ((deref th6 x).priority < (deref th6 k.current).priority)) < fuel := by
    rw [List.countP_cons]
    have h0 : decide ((deref th6 donee).priority < (deref th6 k.current).priority) = false := by
      rw [hP, hl]
      simp
    rw [h0]
    have := List.countP_le_length (fun x => decide ((deref th6 x).priority <
      (deref th6 k.current).priority)) (l := k.threads.map Prod.fst)
    rw [List.length_map] at this
    simp only [Bool.false_eq_true, if_false]
    omega
  obtain ⟨w1, w2⟩ := donate_walk_fuel k.current (donee :: k.threads.map Prod.fst) fuel donee th6
    hS hcount
  rw [hcall]
  constructor
  · rcases w1 with ⟨th7, h7⟩ | h7
    · rw [h7]; exact Or.inl ⟨_, rfl⟩
    · rw [h7]; exact Or.inr rfl
  · intro hcons
    have hc6 : links_consistent th6 := by
      intro x
      obtain ⟨l1, l2⟩ := hcons x
      constructor
      · intro hx
        by_cases e : x = k.current
        · refine ⟨donee, by rw [hl]; simp [e], by rw [hl]; simp⟩
        · rw [hl] at hx
          simp only [if_neg e] at hx
          obtain ⟨d, hd1, hd3⟩ := l1 hx
          refine ⟨d, by rw [hl]; simp [e, hd1], ?_⟩
          rw [hl]
          by_cases e2 : d = donee
          · simp [e2]
          · simp [e2, hd3]
      · intro hx
        by_cases e : x = k.current
        · rw [hl] at hx
          simp [e] at hx
        · rw [hl] at hx ⊢
          simp only [if_neg e] at hx ⊢
          exact l2 hx
    obtain ⟨th7, h7⟩ := w2 hc6
    rw [h7]
    exact ⟨_, rfl⟩

/-- C8: single-donation round trip. Let `L` have an empty donor list,
`is_a_donee = false` and `priority = original_priority`, and let the running
thread `H` (not yet a donor) have a higher priority. The donation
`thread_donate_priority (L, X)` returns at once when `L` is not itself waiting
for a lock; when `L` is waiting, the walk over the threads `L` waits for ends on
its own (given more fuel than there are thread records), by returning or by
failing one of its assertions, and the call returns when the donation flags
agree with the donee links. Whenever it returns,
`L.priority = H.priority`, `L.is_a_donee` and `H.donee = L`. If `L` is later the
running thread and holds the lock, with its donor list and `original_priority`
and the `donor_lock` of `H` as the donation left them, the reversal returns with
`L.priority = L.original_priority` (the priority `L` had before the donation),
`L.is_a_donee = false`, an empty donor list (both as before the donation),
`H.donee = NULL` and `H.is_a_donor = false`. -/
theorem single_donation_round_trip (fuel : Nat) (k : kernel) (L : Nat) (X : lock)
    (hrun : (deref k.threads k.current).status = THREAD_RUNNING)
    (hno_donee : (deref k.threads k.current).donee = none)
    (hno_donor : (deref k.threads k.current).is_a_donor = false)
    (hl_list : (deref k.threads L).donor_list = [])
    (hl_flag : (deref k.threads L).is_a_donee = false)
    (hl_orig : (deref k.threads L).priority = (deref k.threads L).original_priority)
    (hgt : (deref k.threads k.current).priority > (deref k.threads L).priority) :
    ((deref k.threads L).is_a_donor = false →
      ∃ k1, thread_donate_priority fuel k L X = .ok k1) ∧
    (k.threads.length < fuel →
      ((∃ k1, thread_donate_priority fuel k L X = .ok k1) ∨
        thread_donate_priority fuel k L X = .error fault.assertion) ∧
      (links_consistent k.threads → ∃ k1, thread_donate_priority fuel k L X = .ok k1)) ∧
    ∀ k1, thread_donate_priority fuel k L X = .ok k1 →
      (deref k1.threads L).priority = (deref k.threads k.current).priority ∧
      (deref k1.threads L).is_a_donee = true ∧
      (deref k1.threads k.current).donee = some L ∧
      ∀ k2, (deref k2.threads L).donor_list = (deref k1.threads L).donor_list →
        (deref k2.threads L).original_priority = (deref k1.threads L).original_priority →
        (deref k2.threads k.current).donor_lock = (deref k1.threads k.current).donor_lock →
        k2.current = L → (deref k2.threads L).status = THREAD_RUNNING → X.holder = some L →
        ∃ k3, thread_reverse_priority_donation k2 X = .ok k3 ∧
          (deref k3.threads L).priority = (deref k.threads L).original_priority ∧
          (deref k3.threads L).priority = (deref k.threads L).priority ∧
          (deref k3.threads L).is_a_donee = false ∧
          (deref k3.threads L).donor_list = [] ∧
          (deref k3.threads k.current).donee = none ∧
          (deref k3.threads k.current).is_a_donor = false ∧
          (deref k3.threads L).is_a_donee = (deref k.threads L).is_a_donee ∧
          (deref k3.threads L).donor_list = (deref k.threads L).donor_list := by
  have hLH : L ≠ k.current := by
    intro e; rw [e] at hgt; exact lt_irrefl _ hgt
  refine ⟨fun h3 => donate_returns_of_not_donor fuel k L X hrun hno_donee hno_donor h3 hLH,
    fun hfuel => donate_returns fuel k L X hrun hno_donee hno_donor hfuel, ?_⟩
  intro k1 hk1
  obtain ⟨th6, hth6, hwalk⟩ := donate_unfold fuel k L X k1 hk1
  have hfr := donate_walk_frame k.current fuel L th6 k1.threads hwalk
  have h6H : (deref th6 k.current).priority = (deref k.threads k.current).priority := by
    rw [hth6]; simp [Ne.symm hLH]
  have h6L : (deref th6 L).priority = (deref k.threads k.current).priority := by
    rw [hth6]; simp
  -- the records of L and of the donor after the donation
  have hL1 : deref k1.threads L =
      { deref k.threads L with priority := (deref k.threads k.current).priority,
                               donor_list := [k.current], is_a_donee := true } := by
    obtain ⟨ha, hb⟩ := hfr L
    have hp := hb (by rw [h6H, h6L])
    rw [h6L] at hp
    apply thread_eq_of_forget
    · rw [ha, hth6]
      simp [forget_priority, hLH, hl_list]
    · exact hp
  have hH1 : deref k1.threads k.current =
      { deref k.threads k.current with donee := some L, is_a_donor := true,
                                       donor_lock := some X.addr } := by
    obtain ⟨ha, hb⟩ := hfr k.current
    have hp := hb (le_refl _)
    rw [h6H] at hp
    apply thread_eq_of_forget
    · rw [ha, hth6]
      simp [forget_priority, Ne.symm hLH]
    · exact hp
  refine ⟨by rw [hL1], by rw [hL1], by rw [hH1], ?_⟩
  intro k2 sL3 sL2 sH5 hcur hrun2 hhold
  rw [hL1] at sL3 sL2
  rw [hH1] at sH5
  simp only at sL3 sL2 sH5
  have hf := reverse_loop_fields X L [k.current] k2.threads
  have hempty : (deref (reverse_loop X L [k.current] k2.threads) L).donor_list = [] := by
    rw [(hf L).2.2.2.2.2.1]
    simp [sL3, sH5]
  refine ⟨{ k2 with threads := (store (store (reverse_loop X L [k.current] k2.threads) L
        (fun r => { r with priority := r.original_priority })) L
        (fun r => { r with is_a_donee := false })) }, ?_, ?_⟩
  · simp [thread_reverse_priority_donation, thread_current, hcur, hrun2, sL3, hhold, hempty,
      bind, Except.bind, pure, Except.pure]
  · simp only [deref_store]
    simp only [if_true, Ne.symm hLH, if_false]
    refine ⟨by rw [(hf L).2.2.1, sL2], by rw [(hf L).2.2.1, sL2, hl_orig], trivial, hempty,
      ?_, ?_, hl_flag.symm, by rw [hempty, hl_list]⟩
    · rw [(hf k.current).2.2.2.2.2.2.2]; simp [sH5]
    · rw [(hf k.current).2.2.2.2.2.2.1]; simp [sH5]

/-! ## Dispatcher and `thread_set_priority` -/

/-- Writing `status` is invisible once `status` is blanked. -/
theorem forget_status_store (th : memory) (t : Nat) (s : thread_status) (x : Nat) :
    forget_status (deref (store th t (fun r => { r with status := s })) x)
      = forget_status (deref th x) := by
  rw [deref_store]
  by_cases hx : x = t
  · simp [hx, forget_status]
  · simp [hx]

/-- Queue insertion writes no thread record. -/
theorem insert_thread_ordered_threads (k : kernel) (t : Nat) :
    (insert_thread_ordered k t).threads = k.threads := by
  unfold insert_thread_ordered
  split
  · rfl
  · split <;> rfl

/-- Queue insertion does not change the running thread. -/
theorem insert_thread_ordered_current (k : kernel) (t : Nat) :
    (insert_thread_ordered k t).current = k.current := by
  unfold insert_thread_ordered
  split
  · rfl
  · split <;> rfl

/-- After an insertion the ready queue is not empty. -/
theorem insert_thread_ordered_nonempty (k : kernel) (t : Nat) :
    (insert_thread_ordered k t).ready_list ≠ [] := by
  unfold insert_thread_ordered
  split
  · simp
  · split <;> simp

/-- The dispatcher returns whenever the outgoing thread is no longer marked
running and there is a thread to switch to; it writes no field but `status`. -/
theorem schedule_returns (k : kernel)
    (hst : (deref k.threads k.current).status ≠ THREAD_RUNNING)
    (hnext : k.ready_list ≠ [] ∨ k.idle_thread ≠ none) :
    ∃ k', schedule k = .ok k' ∧
      ∀ x, forget_status (deref k'.threads x) = forget_status (deref k.threads x) := by
  unfold schedule next_thread_to_run
  cases hrl : k.ready_list with
  | nil =>
    cases hid : k.idle_thread with
    | none => simp [hrl, hid] at hnext
    | some n =>
      simp only [hst, if_false]
      unfold thread_schedule_tail
      by_cases hc : k.current = n
      · simp only [hc, ne_eq, not_true_eq_false, if_false]
        exact ⟨_, rfl, fun x => forget_status_store _ _ _ _⟩
      · simp only [ne_eq, hc, not_false_eq_true, if_true]
        split_ifs <;> exact ⟨_, rfl, fun x => forget_status_store _ _ _ _⟩
  | cons n rest =>
    simp only [hst, if_false]
    unfold thread_schedule_tail
    by_cases hc : k.current = n
    · simp only [hc, ne_eq, not_true_eq_false, if_false]
      exact ⟨_, rfl, fun x => forget_status_store _ _ _ _⟩
    · simp only [ne_eq, hc, not_false_eq_true, if_true]
      split_ifs <;> exact ⟨_, rfl, fun x => forget_status_store _ _ _ _⟩

/-- A yield by the running thread returns and writes no field but `status`. -/
theorem thread_yield_returns (k : kernel)
    (hrun : (deref k.threads k.current).status = THREAD_RUNNING) :
    ∃ k', thread_yield k = .ok k' ∧
      ∀ x, forget_status (deref k'.threads x) = forget_status (deref k.threads x) := by
  unfold thread_yield thread_current
  simp only [hrun, if_true, bind, Except.bind]
  by_cases hid : some k.current ≠ k.idle_thread
  · rw [if_pos hid]
    obtain ⟨k', hk', hf⟩ := schedule_returns
      { insert_thread_ordered k k.current with
        threads := (store (insert_thread_ordered k k.current).threads k.current
          (fun r => { r with status := THREAD_READY })) }
      (by simp [deref_store, insert_thread_ordered_current])
      (Or.inl (insert_thread_ordered_nonempty k k.current))
    refine ⟨k', hk', ?_⟩
    intro x
    rw [hf x, forget_status_store, insert_thread_ordered_threads]
  · rw [if_neg hid]
    have hid2 : k.idle_thread = some k.current := by
      by_contra hcon
      exact hid (fun e => hcon e.symm)
    obtain ⟨k', hk', hf⟩ := schedule_returns
      { k with threads := (store k.threads k.current
          (fun r => { r with status := THREAD_READY })) }
      (by simp [deref_store])
      (Or.inr (by simp [hid2]))
    refine ⟨k', hk', ?_⟩
    intro x
    rw [hf x, forget_status_store]

/-- What `update_priority` leaves in the records when the new priority is in range. -/
theorem update_priority_in_range (k : kernel) (t : Nat) (p : Int)
    (hlo : PRI_MIN ≤ p) (hhi : p ≤ PRI_MAX) (x : Nat) :
    deref (update_priority k t p).threads x =
      if x = t then { deref k.threads t with priority := p } else deref k.threads x := by
  unfold update_priority
  by_cases hne : (deref k.threads t).priority ≠ p
  · have h1 : ¬ p > PRI_MAX := not_lt.mpr hhi
    have h2 : ¬ p < PRI_MIN := not_lt.mpr hlo
    simp only [hne, if_true, deref_store, h1, h2, if_false]
    split_ifs <;> simp_all [insert_thread_ordered_threads, deref_store]
  · have : (deref k.threads t).priority = p := not_not.mp hne
    simp only [hne, if_false]
    by_cases hx : x = t
    · subst hx
      simp only [if_true]
      rw [← this]
    · simp [hx]

/-- `update_priority` does not change the running thread. -/
theorem update_priority_current (k : kernel) (t : Nat) (p : Int) :
    (update_priority k t p).current = k.current := by
  unfold update_priority
  dsimp only
  split_ifs <;> first | rfl | rw [insert_thread_ordered_current]

/-- Records that agree up to `status` have the same priority fields. -/
theorem forget_status_priority (a b : thread) (h : forget_status a = forget_status b) :
    a.priority = b.priority ∧ a.original_priority = b.original_priority := by
  cases a
  cases b
  simp only [forget_status, thread.mk.injEq] at h
  simp only
  tauto

/-- C10: in round-robin mode, for every `p` in `[PRI_MIN, PRI_MAX]`,
`thread_set_priority p` by the running thread returns and sets
`original_priority = p`; a donee gets effective priority `p` when `p` exceeds its
effective priority and keeps it otherwise; a thread that is not a donee gets
effective priority `p`; no other thread's `priority` or `original_priority`
changes. -/
theorem set_priority_in_range (k : kernel) (p : Int)
    (hmode : k.thread_mlfqs = false)
    (hrun : (deref k.threads k.current).status = THREAD_RUNNING)
    (hlo : PRI_MIN ≤ p) (hhi : p ≤ PRI_MAX) :
    ∃ k', thread_set_priority k p = .ok k' ∧
      (deref k'.threads k.current).original_priority = p ∧
      ((deref k.threads k.current).is_a_donee = true →
        (deref k'.threads k.current).priority =
          if p > (deref k.threads k.current).priority then p
          else (deref k.threads k.current).priority) ∧
      ((deref k.threads k.current).is_a_donee = false →
        (deref k'.threads k.current).priority = p) ∧
      ∀ x, x ≠ k.current →
        (deref k'.threads x).priority = (deref k.threads x).priority ∧
        (deref k'.threads x).original_priority = (deref k.threads x).original_priority := by
  have hk1 : ∀ x, deref (store k.threads k.current
      (fun r => { r with original_priority := p })) x =
      if x = k.current then { deref k.threads k.current with original_priority := p }
      else deref k.threads x := fun x => deref_store _ _ _ x
  have hrec : ∀ x, deref (update_priority { k with threads := (store k.threads k.current
        (fun r => { r with original_priority := p })) } k.current p).threads x =
      if x = k.current then
        { deref k.threads k.current with original_priority := p, priority := p }
      else deref k.threads x := by
    intro x
    rw [update_priority_in_range _ _ _ hlo hhi]
    by_cases hx : x = k.current
    · simp [hx, deref_store]
    · simp [hx, deref_store]
  unfold thread_set_priority
  rw [if_neg (by simp [hmode])]
  unfold thread_current
  rw [if_pos hrun]
  simp only [bind, Except.bind]
  by_cases hd : (deref k.threads k.current).is_a_donee = true
  · rw [if_pos hd]
    have hnf : ¬ (deref k.threads k.current).is_a_donee = false := by simp [hd]
    by_cases hgt : p > (deref k.threads k.current).priority
    · have hgt1 : p > (deref (store k.threads k.current
          (fun r => { r with original_priority := p })) k.current).priority := by
        rw [hk1]; simpa using hgt
      rw [if_pos hgt1]
      refine ⟨_, rfl, ?_, ?_, fun hf => absurd hf hnf, ?_⟩
      · rw [hrec]; simp
      · intro _
        rw [hrec]; simp [hgt]
      · intro x hx
        rw [hrec]; simp [hx]
    · have hgt1 : ¬ p > (deref (store k.threads k.current
          (fun r => { r with original_priority := p })) k.current).priority := by
        rw [hk1]; simpa using hgt
      rw [if_neg hgt1]
      refine ⟨_, rfl, ?_, ?_, fun hf => absurd hf hnf, ?_⟩
      · dsimp only
        rw [hk1]; simp
      · intro _
        dsimp only
        rw [hk1]; simp [hgt]
      · intro x hx
        dsimp only
        rw [hk1]; simp [hx]
  · rw [if_neg hd]
    by_cases hlt : p < (deref k.threads k.current).priority
    · rw [if_pos hlt]
      obtain ⟨k', hk', hf⟩ := thread_yield_returns
        (update_priority { k with threads := (store k.threads k.current
          (fun r => { r with original_priority := p })) } k.current p)
        (by rw [update_priority_current, hrec]; simpa using hrun)
      refine ⟨k', hk', ?_, fun hf2 => absurd hf2 hd, ?_, ?_⟩
      · rw [(forget_status_priority _ _ (hf k.current)).2, hrec]
        simp
      · intro _
        rw [(forget_status_priority _ _ (hf k.current)).1, hrec]
        simp
      · intro x hx
        rw [(forget_status_priority _ _ (hf x)).1, (forget_status_priority _ _ (hf x)).2, hrec]
        simp [hx]
    · rw [if_neg hlt]
      refine ⟨_, rfl, ?_, fun hf2 => absurd hf2 hd, ?_, ?_⟩
      · rw [hrec]; simp
      · intro _
        rw [hrec]; simp
      · intro x hx
        rw [hrec]; simp [hx]

/-! ## Witnesses of the general theorems -/

/-- Witness of C2: in the chain execution `main` (20) is blocked while thread 1
runs and the ready queue holds thread 2 (10); unblocking `main` puts it in front
of thread 2 and leaves thread 1 running. -/
theorem thread_unblock_inserts_by_priority_witness :
    ∃ k', thread_unblock chain_3 0 = .ok k' ∧ k'.ready_list = [0, 2] ∧
      sorted_desc k'.threads k'.ready_list ∧
      (deref k'.threads 0).status = THREAD_READY ∧ k'.current = 1 := by
  obtain ⟨k', _, _, h1, _, _, _, _, h6, h7, _, _, h10⟩ :=
    thread_unblock_inserts_by_priority chain_3 0 (by decide) (by decide)
  have hl : (thread_unblock chain_3 0).toOption.map kernel.ready_list = some [0, 2] := rfl
  rw [h1] at hl
  exact ⟨k', h1, by simpa [Except.toOption] using hl, h6, h7, h10⟩

/-- Witness of C7: in the release execution `main` holds lock 9 and has the
donors 1 (lock 8) and 2 (lock 9); reversing lock 9 leaves exactly donor 1. -/
theorem reverse_unlinks_exactly_the_donors_of_the_lock_witness :
    ∃ k', thread_reverse_priority_donation release_6 ⟨9, some 0⟩ = .ok k' ∧
      (deref k'.threads 0).donor_list = [1] ∧
      (deref k'.threads 2).donee = none ∧ (deref k'.threads 2).is_a_donor = false ∧
      (deref k'.threads 1).donee = some 0 ∧ (deref k'.threads 1).is_a_donor = true := by
  obtain ⟨_, g1, g2, _⟩ :=
    reverse_unlinks_exactly_the_donors_of_the_lock release_6 ⟨9, some 0⟩
      (by decide) (by decide) rfl
  obtain ⟨k', h1⟩ := g2 (Or.inr ⟨1, by decide, by decide⟩)
  obtain ⟨h2, _, h4, h5⟩ := g1 k' h1
  have h42 := h4 2 (by decide) (by decide)
  have h51 := h5 1 (by decide)
  exact ⟨k', h1, h2, h42.1, h42.2, h51.1, h51.2.2⟩

/-- The donation flags of `wait_1` agree with its one link, from thread 1 to
`main`. -/
theorem wait_1_consistent : links_consistent wait_1.threads := by
  intro x
  by_cases h0 : x = 0
  · subst h0; exact ⟨fun h => (by cases h), fun _ => rfl⟩
  · by_cases h1 : x = 1
    · subst h1; exact ⟨fun _ => ⟨0, rfl, rfl⟩, fun h => (by cases h)⟩
    · by_cases h2 : x = 2
      · subst h2; exact ⟨fun h => (by cases h), fun _ => rfl⟩
      · have hz : deref wait_1.threads x = zero_thread :=
          deref_of_not_written _ _ (by
            simp only [wait_1, List.map_cons, List.map_nil, List.mem_cons, List.mem_singleton]
            simp [h0, h1, h2])
        rw [hz]
        exact ⟨fun h => (by cases h), fun _ => rfl⟩

/-- Witness of C8 (L = 20, H = 40): thread 1 (40) donates to `main` (20) for
lock 7 and blocks; `main` then releases the lock and is back at 20. With `L`
waiting for a lock: thread 2 (50) donates to thread 1 (40), which waits for
`main`; the call returns, and when thread 1 runs again and releases lock 7 it is
back at 40. -/
theorem single_donation_round_trip_witness :
    ((deref single_3.threads 0).priority = 40 ∧
    (deref single_3.threads 0).is_a_donee = true ∧
    (deref single_3.threads 1).donee = some 0 ∧
    ∃ k3, thread_reverse_priority_donation single_4 ⟨7, some 0⟩ = .ok k3 ∧
      (deref k3.threads 0).priority = 20 ∧
      (deref k3.threads 0).is_a_donee = false ∧
      (deref k3.threads 0).donor_list = [] ∧
      (deref k3.threads 1).donee = none ∧
      (deref k3.threads 1).is_a_donor = false) ∧
    (deref wait_1.threads 1).is_a_donor = true ∧
    (∃ k1, thread_donate_priority 4 wait_1 1 ⟨7, some 1⟩ = .ok k1 ∧ k1 = wait_2) ∧
    ∃ k3, thread_reverse_priority_donation wait_3 ⟨7, some 1⟩ = .ok k3 ∧
      (deref k3.threads 1).priority = 40 ∧
      (deref k3.threads 1).is_a_donee = false ∧
      (deref k3.threads 1).donor_list = [] ∧
      (deref k3.threads 2).donee = none ∧
      (deref k3.threads 2).is_a_donor = false := by
  have h := (single_donation_round_trip 0 single_2 0 ⟨7, some 0⟩
    (by decide) (by decide) (by decide) (by decide) (by decide) (by decide) (by decide)).2.2
      single_3 rfl
  obtain ⟨a, b, c, d⟩ := h
  obtain ⟨k3, e1, e2, _, e3, e4, e5, e6, _⟩ :=
    d single_4 (by decide) (by decide) (by decide) rfl (by decide) rfl
  have g := single_donation_round_trip 4 wait_1 1 ⟨7, some 1⟩
    (by decide) (by decide) (by decide) (by decide) (by decide) (by decide) (by decide)
  obtain ⟨k1, hk1⟩ := (g.2.1 (by decide)).2 wait_1_consistent
  have hk2 : thread_donate_priority 4 wait_1 1 ⟨7, some 1⟩ = .ok wait_2 := rfl
  obtain ⟨_, _, _, d2⟩ := g.2.2 wait_2 hk2
  obtain ⟨k4, f1, f2, _, f3, f4, f5, f6, _⟩ :=
    d2 wait_3 (by decide) (by decide) (by decide) rfl (by decide) rfl
  refine ⟨⟨a, b, c, k3, e1, e2, e3, e4, e5, e6⟩, rfl, ⟨k1, hk1, ?_⟩, k4, f1, f2, f3, f4, f5, f6⟩
  rw [hk2] at hk1
  injection hk1 with hk1
  exact hk1.symm

/-- Witness of C10: `main` at 31, not a donee, sets its priority to 10. -/
theorem set_priority_in_range_witness :
    ∃ k', thread_set_priority booted 10 = .ok k' ∧
      (deref k'.threads 0).original_priority = 10 ∧ (deref k'.threads 0).priority = 10 := by
  obtain ⟨k', h1, h2, _, h4, _⟩ :=
    set_priority_in_range booted 10 rfl (by decide) (by decide) (by decide)
  exact ⟨k', h1, h2, h4 (by decide)⟩

/-! ## Executions on which the code departs from the specification -/

/-- C1 (code departs): the donee's priority after `donate` is not
`max (donee before, caller)`. Thread 1 (priority 20, holder of lock 7) sleeps;
`main`, running at priority 10 and not a donor, donates to it: thread 1 ends at
priority 10, not 20. Each conjunct checks one call of the execution. -/
theorem donation_from_lower_priority_overwrites_donee :
    thread_init false 0 = .ok booted ∧
    thread_create booted (some 1) 20 = .ok (sleeper_1, 2) ∧
    thread_set_priority sleeper_1 10 = .ok sleeper_2 ∧
    thread_block sleeper_2 = .ok sleeper_3 ∧
    sleeper_3.current = 0 ∧
    (deref sleeper_3.threads 0).priority = 10 ∧
    (deref sleeper_3.threads 0).donee = none ∧
    (deref sleeper_3.threads 0).is_a_donor = false ∧
    (deref sleeper_3.threads 1).priority = 20 ∧
    (∀ fuel, thread_donate_priority fuel sleeper_3 1 ⟨7, some 1⟩ = .ok sleeper_4) ∧
    (deref sleeper_4.threads 1).priority = 10 ∧
    (deref sleeper_4.threads 1).priority ≠
      max (deref sleeper_3.threads 1).priority (deref sleeper_3.threads 0).priority :=
  ⟨rfl, rfl, rfl, rfl, rfl, rfl, rfl, rfl, rfl, fun fuel => by cases fuel <;> rfl, rfl,
    by decide⟩

/-- C3 (code departs): the ready queue does not stay sorted. `main` (20, holder
of lock 7) is preempted by thread 1 (30), which is preempted by thread 2 (40);
the queue is thread 1, `main`. Thread 2 donates to `main`: its priority becomes
40 in place, and the queue now reads 30, 40. -/
theorem donation_to_ready_thread_unsorts_queue :
    thread_init false 0 = .ok booted ∧
    thread_set_priority booted 20 = .ok main_at_20 ∧
    thread_create main_at_20 (some 1) 30 = .ok (preempt_2, 2) ∧
    thread_create preempt_2 (some 2) 40 = .ok (preempt_3, 3) ∧
    sorted_desc preempt_3.threads preempt_3.ready_list ∧
    (deref preempt_3.threads 0).status = THREAD_READY ∧
    (∀ fuel, thread_donate_priority fuel preempt_3 0 ⟨7, some 0⟩ = .ok preempt_4) ∧
    preempt_4.ready_list = [1, 0] ∧
    preempt_4.ready_list.map (fun t => (deref preempt_4.threads t).priority) = [30, 40] ∧
    ¬ sorted_desc preempt_4.threads preempt_4.ready_list :=
  ⟨rfl, rfl, rfl, rfl, by decide, rfl, fun fuel => by cases fuel <;> rfl, rfl, rfl,
    by decide⟩

/-- C4 (code departs): after `reverse` the caller's priority is not
`max (original_priority, remaining donors)`. `main` holds locks 8 and 9; thread 1
(40) donates for lock 8 and thread 2 (50) for lock 9, each raising `main`. `main`
sets its own priority to 45 (`original_priority = 45`, effective priority stays
50) and releases lock 9: donor 1 remains and `main` ends at 40, not at 45. -/
theorem reverse_drops_below_original_priority :
    thread_init false 0 = .ok booted ∧
    thread_create booted (some 1) 40 = .ok (restore_1, 2) ∧
    (∀ fuel, thread_donate_priority fuel restore_1 0 ⟨8, some 0⟩ = .ok release_2) ∧
    thread_block release_2 = .ok release_3 ∧
    thread_create release_3 (some 2) 50 = .ok (release_4, 3) ∧
    (∀ fuel, thread_donate_priority fuel release_4 0 ⟨9, some 0⟩ = .ok release_5) ∧
    thread_block release_5 = .ok release_6 ∧
    thread_set_priority release_6 45 = .ok release_7 ∧
    thread_reverse_priority_donation release_7 ⟨9, some 0⟩ = .ok release_8 ∧
    (deref release_8.threads 0).original_priority = 45 ∧
    (deref release_8.threads 0).donor_list = [1] ∧
    (deref release_8.threads 1).priority = 40 ∧
    (deref release_8.threads 0).priority = 40 ∧
    (deref release_8.threads 0).priority ≠
      max (deref release_8.threads 0).original_priority (deref release_8.threads 1).priority :=
  ⟨rfl, rfl, fun fuel => by cases fuel <;> rfl, rfl, rfl, fun fuel => by cases fuel <;> rfl,
    rfl, rfl, rfl, rfl, rfl, rfl, rfl, by decide⟩

/-- C5 (code departs): `priority ≥ original_priority` is not an invariant. From
the initial state, `thread_set_priority (100)` stores `original_priority = 100`
while `update_priority` clamps `priority` to 63. -/
theorem set_priority_above_range_breaks_original_bound :
    thread_init false 0 = .ok booted ∧
    thread_set_priority booted 100 = .ok overrange_1 ∧
    (deref overrange_1.threads 0).priority = 63 ∧
    (deref overrange_1.threads 0).original_priority = 100 ∧
    ¬ (deref overrange_1.threads 0).priority ≥ (deref overrange_1.threads 0).original_priority :=
  ⟨rfl, rfl, rfl, rfl, by decide⟩

/-- C6 (code departs): the effective priority leaves `[PRI_MIN, PRI_MAX]`.
`main` holds lock 7; thread 1 (40) preempts it, donates to it and then gives up
the processor by lowering its own priority. `main`, now a donee, calls
`thread_set_priority (100)`: `original_priority = 100`, `priority` clamped to 63.
`main` releases lock 7: its donor list empties and `priority` is restored from
`original_priority`, to 100. -/
theorem reverse_restores_unclamped_priority :
    thread_init false 0 = .ok booted ∧
    thread_create booted (some 1) 40 = .ok (restore_1, 2) ∧
    (∀ fuel, thread_donate_priority fuel restore_1 0 ⟨7, some 0⟩ = .ok restore_2) ∧
    thread_set_priority restore_2 0 = .ok restore_3 ∧
    thread_set_priority restore_3 100 = .ok restore_4 ∧
    (deref restore_4.threads 0).priority = 63 ∧
    thread_reverse_priority_donation restore_4 ⟨7, some 0⟩ = .ok restore_5 ∧
    (deref restore_5.threads 0).priority = 100 ∧
    ¬ (PRI_MIN ≤ (deref restore_5.threads 0).priority ∧
        (deref restore_5.threads 0).priority ≤ PRI_MAX) :=
  ⟨rfl, rfl, fun fuel => by cases fuel <;> rfl, rfl, rfl, rfl, rfl, rfl, by decide⟩

/-- C9 (code departs): a donation lowers a thread on the chain. Thread 1 (20,
holder of lock 7) waits on lock 8 held by `main` (20), so the chain from thread 1
is thread 1, `main`, with non-decreasing priorities. Thread 2 (priority 10)
donates to thread 1: thread 1 drops from 20 to 10, `main` keeps 20. -/
theorem nested_donation_lowers_head_of_chain :
    thread_init false 0 = .ok booted ∧
    thread_set_priority booted 20 = .ok main_at_20 ∧
    thread_create main_at_20 (some 1) 20 = .ok (chain_1, 2) ∧
    thread_create chain_1 (some 2) 10 = .ok (chain_2, 3) ∧
    thread_block chain_2 = .ok chain_3 ∧
    thread_donate_priority 0 chain_3 0 ⟨8, some 0⟩ = .ok chain_4 ∧
    thread_block chain_4 = .ok chain_5 ∧
    chain_5.current = 2 ∧
    (deref chain_5.threads 2).priority = 10 ∧
    (deref chain_5.threads 1).donee = some 0 ∧
    (deref chain_5.threads 0).donee = none ∧
    (deref chain_5.threads 1).priority = 20 ∧
    (deref chain_5.threads 0).priority ≥ (deref chain_5.threads 1).priority ∧
    (∀ fuel, thread_donate_priority (fuel + 1) chain_5 1 ⟨7, some 1⟩ = .ok chain_6) ∧
    (deref chain_6.threads 1).priority = 10 ∧
    (deref chain_6.threads 0).priority = 20 ∧
    (deref chain_6.threads 1).priority < (deref chain_5.threads 1).priority :=
  ⟨rfl, rfl, rfl, rfl, rfl, rfl, rfl, rfl, rfl, rfl, rfl, rfl, by decide,
    fun fuel => by cases fuel <;> rfl, rfl, rfl, by decide⟩

/-! ## Fixed-point conversions -/

/-- A value in the range of a 32-bit `int` is not changed by `wrap32`. -/
theorem wrap32_of_fits (x : Int) (h1 : -2147483648 ≤ x) (h2 : x < 2147483648) :
    wrap32 x = x := by
  unfold wrap32
  norm_num
  omega

/-- Truncating division of a non-negative dividend is floor division. -/
theorem tdiv_of_nonneg (a b : Int) (ha : 0 ≤ a) (hb : 0 ≤ b) : Int.tdiv a b = a / b :=
  Int.tdiv_eq_ediv ha hb

/-- Truncating division of a non-positive dividend, by floor division. -/
theorem tdiv_of_nonpos (a b : Int) (ha : a ≤ 0) (hb : 0 ≤ b) : Int.tdiv a b = -((-a) / b) := by
  have h : Int.tdiv (-(-a)) b = -(Int.tdiv (-a) b) := Int.neg_tdiv (-a) b
  rw [neg_neg] at h
  rw [h, Int.tdiv_eq_ediv (by omega) hb]

/-- The scaling factor is 16384. -/
theorem f_eq : f = 16384 := by unfold f; norm_num

/-- `int_to_fixed` does not overflow on an integer of 17.14. -/
theorem int_to_fixed_of_fits (n : Int) (h1 : -131072 ≤ n) (h2 : n < 131072) :
    int_to_fixed n = n * 16384 := by
  unfold int_to_fixed
  rw [f_eq]
  exact wrap32_of_fits _ (by omega) (by omega)

/-- Truncating conversion by floor division, by sign. -/
theorem fixed_to_int_trunc (x : Int) :
    (0 ≤ x → fixed_to_int x false = x / 16384) ∧
    (x ≤ 0 → fixed_to_int x false = -((-x) / 16384)) := by
  unfold fixed_to_int
  simp only [Bool.false_eq_true, if_false, f_eq]
  exact ⟨fun h => tdiv_of_nonneg x 16384 h (by norm_num),
         fun h => tdiv_of_nonpos x 16384 h (by norm_num)⟩

/-- Rounding conversion by floor division, by sign, when adding `f / 2` does not
overflow. -/
theorem fixed_to_int_nearest (x : Int) (h1 : -2147475455 ≤ x) (h2 : x ≤ 2147475455) :
    (0 ≤ x → fixed_to_int x true = (x + 8192) / 16384) ∧
    (x < 0 → fixed_to_int x true = -((8192 - x) / 16384)) := by
  unfold fixed_to_int
  simp only [if_true, f_eq]
  have h8 : Int.tdiv 16384 2 = 8192 := by decide
  rw [h8]
  constructor
  · intro h
    have : x ≥ 0 := h
    rw [if_pos this, wrap32_of_fits _ (by omega) (by omega), tdiv_of_nonneg _ _ (by omega) (by norm_num)]
  · intro h
    have : ¬ x ≥ 0 := by omega
    rw [if_neg this, wrap32_of_fits _ (by omega) (by omega), tdiv_of_nonpos _ _ (by omega) (by norm_num)]
    congr 2
    omega

/-- Truncating division by a positive divisor, by sign of the dividend. -/
theorem tdiv_cases (a b : Int) (hb : 0 < b) :
    (0 ≤ a ∧ Int.tdiv a b = a / b) ∨ (a < 0 ∧ Int.tdiv a b = -((-a) / b)) := by
  rcases le_or_lt 0 a with h | h
  · exact Or.inl ⟨h, tdiv_of_nonneg a b h (le_of_lt hb)⟩
  · exact Or.inr ⟨h, tdiv_of_nonpos a b (le_of_lt h) (le_of_lt hb)⟩

/-- The rounded value is within half a unit, and a tie goes away from zero. -/
theorem nearest_int_bounds (x : Int) (h1 : -2147475455 ≤ x) (h2 : x ≤ 2147475455) :
    -8192 ≤ 16384 * fixed_to_int x true - x ∧ 16384 * fixed_to_int x true - x ≤ 8192 ∧
    (16384 * fixed_to_int x true - x = 8192 → 0 < x) ∧
    (16384 * fixed_to_int x true - x = -8192 → x < 0) := by
  rcases le_or_lt 0 x with h | h
  · rw [(fixed_to_int_nearest x h1 h2).1 h]; omega
  · rw [(fixed_to_int_nearest x h1 h2).2 h]; omega

/-- The truncated value lies between zero and the exact value. -/
theorem trunc_int_bounds (x : Int) :
    (0 ≤ x → 0 ≤ fixed_to_int x false ∧ 16384 * fixed_to_int x false ≤ x ∧
      x < 16384 * fixed_to_int x false + 16384) ∧
    (x ≤ 0 → fixed_to_int x false ≤ 0 ∧ x ≤ 16384 * fixed_to_int x false ∧
      16384 * fixed_to_int x false - 16384 < x) := by
  constructor
  · intro h; rw [(fixed_to_int_trunc x).1 h]; omega
  · intro h; rw [(fixed_to_int_trunc x).2 h]; omega

/-- C19 (amended): for every integer `n` with `-2^17 ≤ n < 2^17` the truncating
round trip `fixed_to_int (int_to_fixed n, 0)` gives `n`; the rounding round trip
`fixed_to_int (int_to_fixed n, 1)` gives `n` for `-2^17 < n < 2^17`. -/
theorem round_trip_int_fixed (n : Int) (h1 : -2 ^ 17 ≤ n) (h2 : n < 2 ^ 17) :
    fixed_to_int (int_to_fixed n) false = n ∧
    (-2 ^ 17 < n → fixed_to_int (int_to_fixed n) true = n) := by
  have h1' : -131072 ≤ n := by norm_num at h1; exact h1
  have h2' : n < 131072 := by norm_num at h2; exact h2
  rw [int_to_fixed_of_fits n h1' h2']
  constructor
  · rcases le_or_lt 0 n with h | h
    · rw [(fixed_to_int_trunc _).1 (by omega)]; omega
    · rw [(fixed_to_int_trunc _).2 (by omega)]; omega
  · intro h3
    have h3' : -131072 < n := by norm_num at h3; exact h3
    rcases le_or_lt 0 n with h | h
    · rw [(fixed_to_int_nearest _ (by omega) (by omega)).1 (by omega)]; omega
    · rw [(fixed_to_int_nearest _ (by omega) (by omega)).2 (by omega)]; omega

/-- C20: for every fixed-point `x` with `|x.v| ≤ 2^31 - 1 - 2^13`,
`fixed_to_int (x, 1)` is within one half of the rational `x.v / 2^14`, a value
exactly one half away is the one of larger magnitude (ties go away from zero),
and negating `x` negates the result; `fixed_to_int (x, 0)` has magnitude at most
that of `x.v / 2^14`, is less than one away from it and has its sign, which is
truncation toward zero. -/
theorem fixed_to_int_rounds (x : Int) (hx : |x| ≤ 2 ^ 31 - 1 - 2 ^ 13) :
    |(fixed_to_int x true : ℚ) - (x : ℚ) / 2 ^ 14| ≤ 1 / 2 ∧
    (|(fixed_to_int x true : ℚ) - (x : ℚ) / 2 ^ 14| = 1 / 2 →
      |(x : ℚ) / 2 ^ 14| < |(fixed_to_int x true : ℚ)|) ∧
    fixed_to_int (-x) true = -fixed_to_int x true ∧
    |(fixed_to_int x false : ℚ)| ≤ |(x : ℚ) / 2 ^ 14| ∧
    |(x : ℚ) / 2 ^ 14 - (fixed_to_int x false : ℚ)| < 1 ∧
    (0 ≤ x → 0 ≤ fixed_to_int x false) ∧ (x ≤ 0 → fixed_to_int x false ≤ 0) := by
  have hx' : |x| ≤ 2147475455 := by norm_num at hx; exact hx
  obtain ⟨h1, h2⟩ := abs_le.mp hx'
  obtain ⟨n1, n2, n3, n4⟩ := nearest_int_bounds x h1 h2
  obtain ⟨t1, t2⟩ := trunc_int_bounds x
  have q1 : (-8192 : ℚ) ≤ 16384 * (fixed_to_int x true : ℚ) - x := by exact_mod_cast n1
  have q2 : 16384 * (fixed_to_int x true : ℚ) - x ≤ 8192 := by exact_mod_cast n2
  have e : (x : ℚ) / 2 ^ 14 = (x : ℚ) / 16384 := by norm_num
  rw [e]
  refine ⟨?_, ?_, ?_, ?_, ?_, fun h => (t1 h).1, fun h => (t2 h).1⟩
  · rw [abs_le]; constructor <;> linarith
  · intro heq
    rcases le_or_lt 0 x with h | h
    · have hr : (fixed_to_int x true : ℚ) - (x : ℚ) / 16384 = 1 / 2 ∨
          (fixed_to_int x true : ℚ) - (x : ℚ) / 16384 = -(1 / 2) := by
        rcases abs_eq (by norm_num : (0 : ℚ) ≤ 1 / 2) |>.mp heq with h' | h'
        · exact Or.inl h'
        · exact Or.inr h'
      rcases hr with hr | hr
      · have hxq : (0 : ℚ) ≤ x := by exact_mod_cast h
        rw [abs_of_nonneg (by positivity), abs_of_nonneg (by linarith [div_nonneg hxq (by norm_num : (0:ℚ) ≤ 16384)])]
        linarith
      · exfalso
        have : 16384 * (fixed_to_int x true : ℚ) - x = -8192 := by linarith
        have hi : 16384 * fixed_to_int x true - x = -8192 := by exact_mod_cast this
        have := n4 hi
        omega
    · have hr : (fixed_to_int x true : ℚ) - (x : ℚ) / 16384 = 1 / 2 ∨
          (fixed_to_int x true : ℚ) - (x : ℚ) / 16384 = -(1 / 2) := by
        rcases abs_eq (by norm_num : (0 : ℚ) ≤ 1 / 2) |>.mp heq with h' | h'
        · exact Or.inl h'
        · exact Or.inr h'
      rcases hr with hr | hr
      · exfalso
        have : 16384 * (fixed_to_int x true : ℚ) - x = 8192 := by linarith
        have hi : 16384 * fixed_to_int x true - x = 8192 := by exact_mod_cast this
        have := n3 hi
        omega
      · have hxq : (x : ℚ) < 0 := by exact_mod_cast h
        have hneg : (x : ℚ) / 16384 < 0 := div_neg_of_neg_of_pos hxq (by norm_num)
        rw [abs_of_neg hneg, abs_of_neg (by linarith)]
        linarith
  · rcases lt_trichotomy x 0 with h | h | h
    · rw [(fixed_to_int_nearest x h1 h2).2 h,
        (fixed_to_int_nearest (-x) (by omega) (by omega)).1 (by omega)]
      simp only [neg_neg]
      congr 1
      omega
    · subst h; decide
    · rw [(fixed_to_int_nearest x h1 h2).1 (by omega),
        (fixed_to_int_nearest (-x) (by omega) (by omega)).2 (by omega)]
      congr 2
      omega
  · rcases le_or_lt 0 x with h | h
    · obtain ⟨a, b, c⟩ := t1 h
      have qa : (0 : ℚ) ≤ fixed_to_int x false := by exact_mod_cast a
      have qb : 16384 * (fixed_to_int x false : ℚ) ≤ x := by exact_mod_cast b
      have hxq : (0 : ℚ) ≤ x := by exact_mod_cast h
      rw [abs_of_nonneg qa, abs_of_nonneg (div_nonneg hxq (by norm_num))]
      linarith
    · obtain ⟨a, b, c⟩ := t2 (le_of_lt h)
      have qa : (fixed_to_int x false : ℚ) ≤ 0 := by exact_mod_cast a
      have qb : (x : ℚ) ≤ 16384 * (fixed_to_int x false : ℚ) := by exact_mod_cast b
      have hxq : (x : ℚ) ≤ 0 := by exact_mod_cast (le_of_lt h)
      rw [abs_of_nonpos qa, abs_of_nonpos (div_nonpos_of_nonpos_of_nonneg hxq (by norm_num))]
      linarith
  · rcases le_or_lt 0 x with h | h
    · obtain ⟨a, b, c⟩ := t1 h
      have qb : 16384 * (fixed_to_int x false : ℚ) ≤ x := by exact_mod_cast b
      have qc : (x : ℚ) < 16384 * (fixed_to_int x false : ℚ) + 16384 := by exact_mod_cast c
      rw [abs_lt]; constructor <;> linarith
    · obtain ⟨a, b, c⟩ := t2 (le_of_lt h)
      have qb : (x : ℚ) ≤ 16384 * (fixed_to_int x false : ℚ) := by exact_mod_cast b
      have qc : 16384 * (fixed_to_int x false : ℚ) - 16384 < x := by exact_mod_cast c
      rw [abs_lt]; constructor <;> linarith

/-! ## MLFQS priority recomputation -/

/-- Without overflow `recalculate_priority` computes
`(63 * 2^14 - recent_cpu / 4 - 2 * nice * 2^14) / 2^14`, both divisions truncating. -/
theorem mlfqs_priority_exact (rc nice : Int)
    (h1 : -2147483648 ≤ rc) (h2 : rc < 2147483648) (h3 : -20 ≤ nice) (h4 : nice ≤ 20) :
    mlfqs_priority rc nice =
      Int.tdiv (63 * 16384 - Int.tdiv rc 4 - 2 * nice * 16384) 16384 := by
  unfold mlfqs_priority fixed_to_int fixed_sub fixed_int_mult fixed_mult
  simp only [Bool.false_eq_true, if_false, f_eq]
  have e63 : int_to_fixed PRI_MAX = 63 * 16384 := by decide
  have e4 : int_to_fixed 4 = 65536 := by decide
  have e2 : int_to_fixed 2 = 32768 := by decide
  have en : int_to_fixed nice = nice * 16384 := int_to_fixed_of_fits nice (by omega) (by omega)
  have ediv : Int.tdiv (rc * 16384) 65536 = Int.tdiv rc 4 := by
    rcases tdiv_cases rc 4 (by norm_num) with ⟨h, e⟩ | ⟨h, e⟩
    · rw [e, tdiv_of_nonneg _ _ (by omega) (by norm_num)]; omega
    · rw [e, tdiv_of_nonpos _ _ (by omega) (by norm_num)]; omega
  have emul : Int.tdiv (nice * 16384 * 32768) 16384 = 2 * nice * 16384 := by
    have : nice * 16384 * 32768 = (2 * nice * 16384) * 16384 := by ring
    rw [this, Int.mul_tdiv_cancel _ (by norm_num)]
  have hq : -536870912 ≤ Int.tdiv rc 4 ∧ Int.tdiv rc 4 ≤ 536870912 := by
    rcases tdiv_cases rc 4 (by norm_num) with ⟨h, e⟩ | ⟨h, e⟩ <;> rw [e] <;> omega
  rw [e63, e4, e2, en, ediv, emul, wrap32_of_fits (Int.tdiv rc 4) (by omega) (by omega),
    wrap32_of_fits (2 * nice * 16384) (by omega) (by omega),
    wrap32_of_fits (63 * 16384 - Int.tdiv rc 4) (by omega) (by omega),
    wrap32_of_fits (63 * 16384 - Int.tdiv rc 4 - 2 * nice * 16384) (by omega) (by omega)]

/-- `recalculate_priority` always returns: its divisor is the constant 4.0. -/
theorem recalculate_priority_eq (k : kernel) (t : Nat) :
    recalculate_priority k t =
      .ok (mlfqs_priority (deref k.threads t).recent_cpu (deref k.threads t).nice) := by
  have h4 : int_to_fixed 4 ≠ 0 := by decide
  unfold recalculate_priority mlfqs_priority fixed_int_div fixed_div
  simp only [h4, if_false, bind, Except.bind, pure, Except.pure]

/-- What `update_priority` leaves in the records. -/
theorem update_priority_records (k : kernel) (t : Nat) (p : Int) (x : Nat) :
    deref (update_priority k t p).threads x =
      if x = t then { deref k.threads t with priority := settle (deref k.threads t).priority p }
      else deref k.threads x := by
  unfold update_priority settle clamp_priority
  by_cases hne : (deref k.threads t).priority ≠ p
  · simp only [hne, if_true, deref_store]
    split_ifs <;> simp_all [insert_thread_ordered_threads, deref_store]
  · have : (deref k.threads t).priority = p := not_not.mp hne
    simp only [hne, if_false]
    by_cases hx : x = t
    · subst hx
      simp
    · simp [hx]

/-- Queue insertion changes nothing but the ready list. -/
theorem insert_thread_ordered_frame (k : kernel) (t : Nat) :
    (insert_thread_ordered k t).all_list = k.all_list ∧
    (insert_thread_ordered k t).load_avg = k.load_avg ∧
    (insert_thread_ordered k t).idle_thread = k.idle_thread ∧
    (insert_thread_ordered k t).thread_mlfqs = k.thread_mlfqs ∧
    (insert_thread_ordered k t).thread_ticks = k.thread_ticks := by
  unfold insert_thread_ordered
  split
  · exact ⟨rfl, rfl, rfl, rfl, rfl⟩
  · split <;> exact ⟨rfl, rfl, rfl, rfl, rfl⟩

/-- `update_priority` changes nothing but thread records and the ready list. -/
theorem update_priority_frame (k : kernel) (t : Nat) (p : Int) :
    (update_priority k t p).all_list = k.all_list ∧
    (update_priority k t p).load_avg = k.load_avg ∧
    (update_priority k t p).idle_thread = k.idle_thread ∧
    (update_priority k t p).thread_mlfqs = k.thread_mlfqs ∧
    (update_priority k t p).thread_ticks = k.thread_ticks := by
  unfold update_priority
  dsimp only
  split_ifs <;> first | exact ⟨rfl, rfl, rfl, rfl, rfl⟩ | exact insert_thread_ordered_frame _ _

/-- Settling twice on the same request is settling once. -/
theorem settle_settle (old p : Int) : settle (settle old p) p = settle old p := by
  unfold settle
  split_ifs <;> rfl

/-- The loop of `thread_recalculate_all_priorities` returns; it writes the
settled MLFQS priority into every thread of the list and no other field. -/
theorem recalculate_all_priorities_loop_spec :
    ∀ (l : List Nat) (k : kernel),
      ∃ k', recalculate_all_priorities_loop l k = .ok k' ∧
        (∀ x, forget_priority (deref k'.threads x) = forget_priority (deref k.threads x)) ∧
        (∀ x, (deref k'.threads x).priority =
          if x ∈ l then
            settle (deref k.threads x).priority
              (mlfqs_priority (deref k.threads x).recent_cpu (deref k.threads x).nice)
          else (deref k.threads x).priority) ∧
        k'.current = k.current ∧ k'.all_list = k.all_list ∧ k'.load_avg = k.load_avg ∧
        k'.idle_thread = k.idle_thread ∧ k'.thread_mlfqs = k.thread_mlfqs ∧
        k'.thread_ticks = k.thread_ticks := by
  intro l
  induction l with
  | nil =>
    intro k
    exact ⟨k, rfl, fun _ => rfl, fun x => by simp, rfl, rfl, rfl, rfl, rfl, rfl⟩
  | cons t rest ih =>
    intro k
    have hrec := update_priority_records k t
      (mlfqs_priority (deref k.threads t).recent_cpu (deref k.threads t).nice)
    obtain ⟨f1, f2, f3, f4, f5⟩ := update_priority_frame k t
      (mlfqs_priority (deref k.threads t).recent_cpu (deref k.threads t).nice)
    have hcur := update_priority_current k t
      (mlfqs_priority (deref k.threads t).recent_cpu (deref k.threads t).nice)
    obtain ⟨k', hk', g1, g2, g3, g4, g5, g6, g7, g8⟩ := ih (update_priority k t
      (mlfqs_priority (deref k.threads t).recent_cpu (deref k.threads t).nice))
    have hforget : ∀ x, forget_priority (deref (update_priority k t
        (mlfqs_priority (deref k.threads t).recent_cpu (deref k.threads t).nice)).threads x)
        = forget_priority (deref k.threads x) := by
      intro x
      rw [hrec x]
      by_cases hx : x = t
      · simp [hx, forget_priority]
      · simp [hx]
    have hfield : ∀ x, (deref (update_priority k t
        (mlfqs_priority (deref k.threads t).recent_cpu (deref k.threads t).nice)).threads x).recent_cpu
          = (deref k.threads x).recent_cpu ∧
        (deref (update_priority k t
        (mlfqs_priority (deref k.threads t).recent_cpu (deref k.threads t).nice)).threads x).nice
          = (deref k.threads x).nice := by
      intro x
      have := congrArg (fun r => (r.recent_cpu, r.nice)) (hforget x)
      simp only [forget_priority, Prod.mk.injEq] at this
      exact this
    refine ⟨k', ?_, ?_, ?_, by rw [g3, hcur], by rw [g4, f1], by rw [g5, f2], by rw [g6, f3],
      by rw [g7, f4], by rw [g8, f5]⟩
    · unfold recalculate_all_priorities_loop
      rw [recalculate_priority_eq]
      exact hk'
    · intro x
      rw [g1 x, hforget x]
    · intro x
      rw [g2 x, (hfield x).1, (hfield x).2, hrec x]
      by_cases hx : x = t
      · subst hx
        by_cases hm : x ∈ rest
        · simp [hm, settle_settle]
        · simp [hm]
      · by_cases hm : x ∈ rest
        · simp [hx, hm]
        · simp [hx, hm]

/-- With the old priority in range, settling is clamping. -/
theorem settle_of_in_range (old p : Int) (h1 : PRI_MIN ≤ old) (h2 : old ≤ PRI_MAX) :
    settle old p = clamp_priority p := by
  unfold settle clamp_priority
  by_cases h : old ≠ p
  · simp [h]
  · have e : old = p := not_not.mp h
    subst e
    have a : ¬ old > PRI_MAX := not_lt.mpr h2
    have b : ¬ old < PRI_MIN := not_lt.mpr h1
    simp [a, b]

/-- A clamped priority is in range. -/
theorem clamp_priority_range (p : Int) :
    PRI_MIN ≤ clamp_priority p ∧ clamp_priority p ≤ PRI_MAX := by
  unfold clamp_priority PRI_MIN PRI_MAX
  split_ifs <;> omega

/-- C14: for every thread of `all_list` with `nice` in `[-20, 20]`, `recent_cpu`
a 32-bit value and a priority in range before the call,
`thread_recalculate_all_priorities` returns and stores
`clamp (trunc ((63 * 2^14 - recent_cpu.v / 4 - 2 * nice * 2^14) / 2^14), 0, 63)`,
both divisions truncating toward zero; `recent_cpu` and `nice` are not changed. -/
theorem recalculation_stores_clamped_formula (k : kernel) (t : Nat)
    (hmem : t ∈ k.all_list)
    (hrc1 : -2 ^ 31 ≤ (deref k.threads t).recent_cpu)
    (hrc2 : (deref k.threads t).recent_cpu < 2 ^ 31)
    (hn1 : -20 ≤ (deref k.threads t).nice) (hn2 : (deref k.threads t).nice ≤ 20)
    (hp1 : PRI_MIN ≤ (deref k.threads t).priority)
    (hp2 : (deref k.threads t).priority ≤ PRI_MAX) :
    ∃ k', thread_recalculate_all_priorities k = .ok k' ∧
      (deref k'.threads t).priority =
        clamp_priority (Int.tdiv (63 * 2 ^ 14 - Int.tdiv (deref k.threads t).recent_cpu 4
          - 2 * (deref k.threads t).nice * 2 ^ 14) (2 ^ 14)) ∧
      (deref k'.threads t).recent_cpu = (deref k.threads t).recent_cpu ∧
      (deref k'.threads t).nice = (deref k.threads t).nice := by
  obtain ⟨k', hk', g1, g2, _⟩ := recalculate_all_priorities_loop_spec k.all_list k
  refine ⟨k', hk', ?_, ?_, ?_⟩
  · rw [g2 t, if_pos hmem, settle_of_in_range _ _ hp1 hp2,
      mlfqs_priority_exact _ _ (by norm_num at hrc1; exact hrc1) (by norm_num at hrc2; exact hrc2)
        hn1 hn2]
    norm_num
  · have := congrArg thread.recent_cpu (g1 t)
    simpa [forget_priority] using this
  · have := congrArg thread.nice (g1 t)
    simpa [forget_priority] using this

/-- The truncated MLFQS value lies within one unit of the scaled exact value. -/
theorem mlfqs_formula_error (rc nice : Int) :
    -65535 ≤ 65536 * Int.tdiv (63 * 16384 - Int.tdiv rc 4 - 2 * nice * 16384) 16384
        - (65536 * 63 - rc - 131072 * nice) ∧
    65536 * Int.tdiv (63 * 16384 - Int.tdiv rc 4 - 2 * nice * 16384) 16384
        - (65536 * 63 - rc - 131072 * nice) ≤ 65535 := by
  rcases tdiv_cases rc 4 (by norm_num) with ⟨h, e⟩ | ⟨h, e⟩ <;>
  rcases tdiv_cases (63 * 16384 - Int.tdiv rc 4 - 2 * nice * 16384) 16384 (by norm_num)
    with ⟨h', e'⟩ | ⟨h', e'⟩ <;>
  rw [e'] <;> rw [e] at h' ⊢ <;> omega

/-- C15 (amended): after `thread_recalculate_all_priorities` the stored
priority of every thread of `all_list` lies in `[PRI_MIN, PRI_MAX]`, and it
differs from the exact rational `PRI_MAX - recent_cpu / 4 - nice * 2` by at most
1 whenever that exact value lies in `[PRI_MIN - 1, PRI_MAX + 1]`. -/
theorem recalculation_within_one_of_exact (k : kernel) (t : Nat)
    (hmem : t ∈ k.all_list)
    (hrc1 : -2 ^ 31 ≤ (deref k.threads t).recent_cpu)
    (hrc2 : (deref k.threads t).recent_cpu < 2 ^ 31)
    (hn1 : -20 ≤ (deref k.threads t).nice) (hn2 : (deref k.threads t).nice ≤ 20)
    (hp1 : PRI_MIN ≤ (deref k.threads t).priority)
    (hp2 : (deref k.threads t).priority ≤ PRI_MAX) :
    ∃ k', thread_recalculate_all_priorities k = .ok k' ∧
      PRI_MIN ≤ (deref k'.threads t).priority ∧ (deref k'.threads t).priority ≤ PRI_MAX ∧
      ((PRI_MIN : ℚ) - 1 ≤ (PRI_MAX : ℚ) - ((deref k.threads t).recent_cpu : ℚ) / 2 ^ 14 / 4
          - ((deref k.threads t).nice : ℚ) * 2 →
        (PRI_MAX : ℚ) - ((deref k.threads t).recent_cpu : ℚ) / 2 ^ 14 / 4
          - ((deref k.threads t).nice : ℚ) * 2 ≤ (PRI_MAX : ℚ) + 1 →
        |((deref k'.threads t).priority : ℚ) -
          ((PRI_MAX : ℚ) - ((deref k.threads t).recent_cpu : ℚ) / 2 ^ 14 / 4
            - ((deref k.threads t).nice : ℚ) * 2)| ≤ 1) := by
  obtain ⟨k', hk', g1, g2, _⟩ := recalculate_all_priorities_loop_spec k.all_list k
  have hst : (deref k'.threads t).priority = clamp_priority
      (Int.tdiv (63 * 16384 - Int.tdiv (deref k.threads t).recent_cpu 4
        - 2 * (deref k.threads t).nice * 16384) 16384) := by
    rw [g2 t, if_pos hmem, settle_of_in_range _ _ hp1 hp2,
      mlfqs_priority_exact _ _ (by norm_num at hrc1; exact hrc1) (by norm_num at hrc2; exact hrc2)
        hn1 hn2]
  obtain ⟨r1, r2⟩ := clamp_priority_range
    (Int.tdiv (63 * 16384 - Int.tdiv (deref k.threads t).recent_cpu 4
        - 2 * (deref k.threads t).nice * 16384) 16384)
  refine ⟨k', hk', by rw [hst]; exact r1, by rw [hst]; exact r2, ?_⟩
  intro hlo hhi
  obtain ⟨e1, e2⟩ := mlfqs_formula_error (deref k.threads t).recent_cpu (deref k.threads t).nice
  generalize (deref k.threads t).recent_cpu = rc at *
  generalize (deref k.threads t).nice = nice at *
  generalize Int.tdiv (63 * 16384 - Int.tdiv rc 4 - 2 * nice * 16384) 16384 = raw at *
  have q1 : (-65535 : ℚ) ≤ 65536 * (raw : ℚ) - (65536 * 63 - rc - 131072 * nice) := by
    exact_mod_cast e1
  have q2 : 65536 * (raw : ℚ) - (65536 * 63 - rc - 131072 * nice) ≤ 65535 := by
    exact_mod_cast e2
  have hmax : (PRI_MAX : ℚ) = 63 := by simp [PRI_MAX]
  have hmin : (PRI_MIN : ℚ) = 0 := by simp [PRI_MIN]
  rw [hmax] at hlo hhi ⊢
  rw [hmin] at hlo
  rw [hst]
  have e : (rc : ℚ) / 2 ^ 14 / 4 = (rc : ℚ) / 65536 := by
    rw [div_div]; norm_num
  rw [e] at hlo hhi ⊢
  unfold clamp_priority PRI_MAX PRI_MIN
  rw [abs_le]
  split_ifs with c1 c2
  · have c : (64 : ℚ) ≤ raw := by exact_mod_cast (show (64 : Int) ≤ raw by omega)
    push_cast
    constructor <;> linarith
  · have c : (raw : ℚ) ≤ -1 := by exact_mod_cast (show raw ≤ (-1 : Int) by omega)
    push_cast
    constructor <;> linarith
  · constructor <;> linarith

/-! ## Load average and recent CPU -/

/-- For a running thread `get_num_ready_threads` returns the spec's count. -/
theorem get_num_ready_threads_eq (k : kernel)
    (hrun : (deref k.threads k.current).status = THREAD_RUNNING) :
    get_num_ready_threads k = .ok (ready_threads_count k) := by
  unfold get_num_ready_threads thread_current ready_threads_count
  simp only [hrun, if_true, bind, Except.bind, and_true]
  split_ifs <;> simp [pure, Except.pure]

/-- C17 (amended): for every `load_avg ≥ 0` and ready-thread count `n` with
`0 ≤ n < 2^17` (the integers that `int_to_fixed` represents), `thread_recalculate_load_avg` returns and stores
`load_avg'.v = (16110 * load_avg.v) / 2^14 + (n * 2^14) / 60` with truncating
division; as rationals `0 ≤ load_avg' ≤ (59/60) * load_avg + n / 60`, and the
shortfall from that exact value is less than `(load_avg + 2) / 2^14`. -/
theorem load_avg_recalculation (k : kernel)
    (hrun : (deref k.threads k.current).status = THREAD_RUNNING)
    (hla0 : 0 ≤ k.load_avg) (hla1 : k.load_avg < 2 ^ 31)
    (hn : ready_threads_count k < 2 ^ 17) :
    ∃ k', thread_recalculate_load_avg k = .ok k' ∧
      k'.load_avg = Int.tdiv (16110 * k.load_avg) (2 ^ 14)
        + Int.tdiv (ready_threads_count k * 2 ^ 14) 60 ∧
      0 ≤ (k'.load_avg : ℚ) / 2 ^ 14 ∧
      (k'.load_avg : ℚ) / 2 ^ 14 ≤
        59 / 60 * ((k.load_avg : ℚ) / 2 ^ 14) + (ready_threads_count k : ℚ) / 60 ∧
      59 / 60 * ((k.load_avg : ℚ) / 2 ^ 14) + (ready_threads_count k : ℚ) / 60
          - (k'.load_avg : ℚ) / 2 ^ 14
        < ((k.load_avg : ℚ) / 2 ^ 14 + 2) / 2 ^ 14 := by
  have hn0 : 0 ≤ ready_threads_count k := by
    unfold ready_threads_count
    split_ifs <;> omega
  have hla1' : k.load_avg < 2147483648 := by norm_num at hla1; exact hla1
  have hn' : ready_threads_count k < 131072 := by norm_num at hn; exact hn
  have e59 : fixed_div (int_to_fixed 59) 983040 = .ok 16110 := by rfl
  have e60 : int_to_fixed 60 = 983040 := by decide
  have en : int_to_fixed (ready_threads_count k) = ready_threads_count k * 16384 :=
    int_to_fixed_of_fits _ (by omega) hn'
  have ediv : fixed_div (ready_threads_count k * 16384) 983040 =
      .ok (Int.tdiv (ready_threads_count k * 16384) 60) := by
    unfold fixed_div
    rw [if_neg (by norm_num), f_eq]
    congr 1
    rw [tdiv_of_nonneg _ _ (by omega) (by norm_num), tdiv_of_nonneg _ _ (by omega) (by norm_num)]
    rw [wrap32_of_fits _ (by omega) (by omega)]
    omega
  have emul : fixed_mult 16110 k.load_avg = Int.tdiv (16110 * k.load_avg) 16384 := by
    unfold fixed_mult
    rw [f_eq, tdiv_of_nonneg _ _ (by omega) (by norm_num)]
    exact wrap32_of_fits _ (by omega) (by omega)
  have q1 : Int.tdiv (16110 * k.load_avg) 16384 = (16110 * k.load_avg) / 16384 :=
    tdiv_of_nonneg _ _ (by omega) (by norm_num)
  have q2 : Int.tdiv (ready_threads_count k * 16384) 60 = (ready_threads_count k * 16384) / 60 :=
    tdiv_of_nonneg _ _ (by omega) (by norm_num)
  have eadd : fixed_add (Int.tdiv (16110 * k.load_avg) 16384)
      (Int.tdiv (ready_threads_count k * 16384) 60) =
      Int.tdiv (16110 * k.load_avg) 16384 + Int.tdiv (ready_threads_count k * 16384) 60 := by
    unfold fixed_add
    rw [q1, q2]
    exact wrap32_of_fits _ (by omega) (by omega)
  refine ⟨{ k with load_avg := (Int.tdiv (16110 * k.load_avg) 16384
      + Int.tdiv (ready_threads_count k * 16384) 60) }, ?_, ?_, ?_, ?_, ?_⟩
  · unfold thread_recalculate_load_avg
    rw [get_num_ready_threads_eq k hrun]
    simp only [bind, Except.bind, e60, e59, en, ediv, emul, eadd, pure, Except.pure]
  · norm_num
  all_goals
    dsimp only
    rw [q1, q2]
    generalize hA : (16110 * k.load_avg) / 16384 = A
    generalize hB : (ready_threads_count k * 16384) / 60 = B
    have a1 : 16384 * A ≤ 16110 * k.load_avg := by omega
    have a2 : 16110 * k.load_avg < 16384 * A + 16384 := by omega
    have b1 : 60 * B ≤ ready_threads_count k * 16384 := by omega
    have b2 : ready_threads_count k * 16384 < 60 * B + 60 := by omega
    have a0 : 0 ≤ A := by omega
    have b0 : 0 ≤ B := by omega
    have qa1 : 16384 * (A : ℚ) ≤ 16110 * (k.load_avg : ℚ) := by exact_mod_cast a1
    have qa2 : 16110 * (k.load_avg : ℚ) < 16384 * (A : ℚ) + 16384 := by exact_mod_cast a2
    have qb1 : 60 * (B : ℚ) ≤ (ready_threads_count k : ℚ) * 16384 := by exact_mod_cast b1
    have qb2 : (ready_threads_count k : ℚ) * 16384 < 60 * (B : ℚ) + 60 := by exact_mod_cast b2
    have qa0 : (0 : ℚ) ≤ A := by exact_mod_cast a0
    have qb0 : (0 : ℚ) ≤ B := by exact_mod_cast b0
    have ql : (0 : ℚ) ≤ k.load_avg := by exact_mod_cast hla0
    push_cast
    norm_num
    first
      | positivity
      | linarith

/-- The decay coefficient `2*load_avg / (2*load_avg + 1)` as fixed point. -/
theorem decay_coefficient (la : Int) (h0 : 0 ≤ la) (h1 : 2 * la + 16384 < 2147483648) :
    fixed_int_mult la 2 = 2 * la ∧
    fixed_int_add (fixed_int_mult la 2) 1 = 2 * la + 16384 ∧
    fixed_div (2 * la) (2 * la + 16384) = .ok (Int.tdiv (2 * la * 16384) (2 * la + 16384)) ∧
    0 ≤ Int.tdiv (2 * la * 16384) (2 * la + 16384) ∧
    Int.tdiv (2 * la * 16384) (2 * la + 16384) < 16384 := by
  have e2 : int_to_fixed 2 = 32768 := by decide
  have e1 : int_to_fixed 1 = 16384 := by decide
  have m : fixed_int_mult la 2 = 2 * la := by
    unfold fixed_int_mult fixed_mult
    rw [e2, f_eq, tdiv_of_nonneg _ _ (by omega) (by norm_num), wrap32_of_fits _ (by omega) (by omega)]
    omega
  have a : fixed_int_add (2 * la) 1 = 2 * la + 16384 := by
    unfold fixed_int_add fixed_add
    rw [e1]
    exact wrap32_of_fits _ (by omega) (by omega)
  have hq : Int.tdiv (2 * la * 16384) (2 * la + 16384) = (2 * la * 16384) / (2 * la + 16384) :=
    tdiv_of_nonneg _ _ (by omega) (by omega)
  have c0 : 0 ≤ (2 * la * 16384) / (2 * la + 16384) :=
    Int.ediv_nonneg (by omega) (by omega)
  have c1 : (2 * la * 16384) / (2 * la + 16384) < 16384 :=
    Int.ediv_lt_of_lt_mul (by omega) (by nlinarith)
  refine ⟨m, by rw [m, a], ?_, by rw [hq]; exact c0, by rw [hq]; exact c1⟩
  unfold fixed_div
  rw [if_neg (by omega), f_eq, hq, wrap32_of_fits _ (by omega) (by omega)]

/-- A product with a coefficient in `[0, 1)` truncates to a value between zero
and the other factor. -/
theorem decay_bounds (c rc : Int) (hc0 : 0 ≤ c) (hc1 : c < 16384) (hrc : 0 ≤ rc) :
    0 ≤ Int.tdiv (c * rc) 16384 ∧ Int.tdiv (c * rc) 16384 ≤ rc := by
  have hp : 0 ≤ c * rc := mul_nonneg hc0 hrc
  rw [tdiv_of_nonneg _ _ hp (by norm_num)]
  constructor
  · exact Int.ediv_nonneg hp (by norm_num)
  · have : c * rc ≤ rc * 16384 := by nlinarith
    exact Int.ediv_le_of_le_mul (by norm_num) this

/-- C18 (amended): for every `load_avg ≥ 0` with `2 * load_avg + 1` representable
(`2 * load_avg.v + 2^14 < 2^31`, that is `load_avg < 65535.5`) the
divisor `2 * load_avg + 1` is at least 1.0, so `recalculate_recent_cpu` returns
(no division by zero); the coefficient is `c = (2 * load_avg * 2^14) / (2 *
load_avg + 2^14)` with `0 ≤ c < 1.0`, and the thread gets `recent_cpu' =
fixed_mult (c, recent_cpu) + nice` as fixed point; for `nice = 0` and
`recent_cpu ≥ 0` this gives `0 ≤ recent_cpu' ≤ recent_cpu`. -/
theorem recent_cpu_recalculation (k : kernel) (t : Nat)
    (hla0 : 0 ≤ k.load_avg) (hla1 : 2 * k.load_avg + 2 ^ 14 < 2 ^ 31) :
    2 ^ 14 ≤ fixed_int_add (fixed_int_mult k.load_avg 2) 1 ∧
    ∃ k' c, recalculate_recent_cpu k t = .ok k' ∧
      fixed_div (fixed_int_mult k.load_avg 2) (fixed_int_add (fixed_int_mult k.load_avg 2) 1)
        = .ok c ∧
      c = Int.tdiv (2 * k.load_avg * 2 ^ 14) (2 * k.load_avg + 2 ^ 14) ∧
      0 ≤ c ∧ c < 2 ^ 14 ∧
      (deref k'.threads t).recent_cpu =
        fixed_int_add (fixed_mult c (deref k.threads t).recent_cpu) (deref k.threads t).nice ∧
      ((deref k.threads t).nice = 0 → 0 ≤ (deref k.threads t).recent_cpu →
        (deref k.threads t).recent_cpu < 2 ^ 31 →
        0 ≤ (deref k'.threads t).recent_cpu ∧
        (deref k'.threads t).recent_cpu ≤ (deref k.threads t).recent_cpu) := by
  have hla1' : 2 * k.load_avg + 16384 < 2147483648 := by norm_num at hla1; exact hla1
  obtain ⟨m, a, d, c0, c1⟩ := decay_coefficient k.load_avg hla0 hla1'
  refine ⟨by rw [a]; norm_num; omega, ?_⟩
  refine ⟨{ k with threads := (store k.threads t (fun r => { r with recent_cpu :=
      (fixed_int_add (fixed_mult (Int.tdiv (2 * k.load_avg * 16384) (2 * k.load_avg + 16384))
        (deref k.threads t).recent_cpu) (deref k.threads t).nice) })) },
    Int.tdiv (2 * k.load_avg * 16384) (2 * k.load_avg + 16384), ?_, ?_, by norm_num,
    c0, by norm_num; exact c1, ?_, ?_⟩
  · unfold recalculate_recent_cpu
    rw [m] at a
    simp only [m, a, d, bind, Except.bind, pure, Except.pure]
  · rw [a, m]; exact d
  · dsimp only
    rw [deref_store]
    simp
  · intro hn h0 h1
    dsimp only
    rw [deref_store]
    simp only [if_true, hn]
    have e0 : int_to_fixed 0 = 0 := by decide
    obtain ⟨b0, b1⟩ := decay_bounds _ _ c0 c1 h0
    have h1' : (deref k.threads t).recent_cpu < 2147483648 := by norm_num at h1; exact h1
    have : fixed_int_add (fixed_mult (Int.tdiv (2 * k.load_avg * 16384) (2 * k.load_avg + 16384))
        (deref k.threads t).recent_cpu) 0 =
        Int.tdiv (Int.tdiv (2 * k.load_avg * 16384) (2 * k.load_avg + 16384)
          * (deref k.threads t).recent_cpu) 16384 := by
      unfold fixed_int_add fixed_add fixed_mult
      rw [e0, f_eq, wrap32_of_fits (Int.tdiv (Int.tdiv (2 * k.load_avg * 16384)
        (2 * k.load_avg + 16384) * (deref k.threads t).recent_cpu) 16384) (by omega) (by omega),
        add_zero, wrap32_of_fits _ (by omega) (by omega)]
    rw [this]
    exact ⟨b0, b1⟩

/-! ## Yields of `thread_set_priority` and `thread_set_nice`, and the tick handler -/

/-- `update_priority` leaves the ready list alone when the thread is not ready. -/
theorem update_priority_not_ready (k : kernel) (t : Nat) (p : Int)
    (hst : (deref k.threads t).status ≠ THREAD_READY) :
    (update_priority k t p).ready_list = k.ready_list := by
  unfold update_priority
  dsimp only
  split_ifs <;> first | rfl | (exfalso; simp_all [deref_store])

/-- A clamped priority is below the request only when the request exceeds
`PRI_MAX`, and above it only when the request is below `PRI_MIN`. -/
theorem clamp_priority_cases (p : Int) :
    (PRI_MIN ≤ p → clamp_priority p ≤ p) ∧ (p ≤ PRI_MAX → p ≤ clamp_priority p) := by
  unfold clamp_priority PRI_MIN PRI_MAX
  split_ifs <;> constructor <;> intros <;> omega

/-- Settling on a request at or above `PRI_MIN` never ends above the request,
unless the record already held that value. -/
theorem settle_le (old p : Int) (h : PRI_MIN ≤ p) : settle old p ≤ p := by
  unfold settle
  split_ifs with hne
  · exact (clamp_priority_cases p).1 h
  · exact le_of_eq (not_not.mp hne)

/-- C11 (amended): `thread_set_priority p` by the running thread returns, and
it yields exactly when MLFQS mode is off, the thread is not a donee and `p` is
lower than its effective priority before the call; so it never yields in the
donee branch nor in MLFQS mode, where it changes nothing; and a call with
`p ≥ PRI_MIN` that does not lower the effective priority does not yield. The
traced function returns the state `thread_set_priority` returns. -/
theorem set_priority_yields_iff (k : kernel) (p : Int)
    (hrun : (deref k.threads k.current).status = THREAD_RUNNING) :
    ∃ k' y, thread_set_priority_traced k p = .ok (k', y) ∧
      thread_set_priority k p = .ok k' ∧
      (y = true ↔ (k.thread_mlfqs = false ∧ (deref k.threads k.current).is_a_donee = false ∧
        p < (deref k.threads k.current).priority)) ∧
      (k.thread_mlfqs = true → k' = k) ∧
      (PRI_MIN ≤ p →
        (deref k.threads k.current).priority ≤ (deref k'.threads k.current).priority →
        y = false) := by
  unfold thread_set_priority_traced thread_set_priority
  by_cases hm : k.thread_mlfqs = true
  · rw [if_pos hm, if_pos hm]
    exact ⟨k, false, rfl, rfl, by simp [hm], fun _ => rfl, fun _ _ => rfl⟩
  · rw [if_neg hm, if_neg hm]
    have hm' : k.thread_mlfqs = false := by simpa using hm
    unfold thread_current
    rw [if_pos hrun]
    simp only [bind, Except.bind]
    by_cases hd : (deref k.threads k.current).is_a_donee = true
    · rw [if_pos hd, if_pos hd]
      split_ifs
      · exact ⟨_, false, rfl, rfl, by simp [hd], fun h => absurd h hm, fun _ _ => rfl⟩
      · exact ⟨_, false, rfl, rfl, by simp [hd], fun h => absurd h hm, fun _ _ => rfl⟩
    · rw [if_neg hd, if_neg hd]
      have hd' : (deref k.threads k.current).is_a_donee = false := by simpa using hd
      by_cases hlt : p < (deref k.threads k.current).priority
      · rw [if_pos hlt, if_pos hlt]
        have hrec := update_priority_records { k with threads := (store k.threads k.current
          (fun r => { r with original_priority := p })) } k.current p k.current
        obtain ⟨k', hk', hf⟩ := thread_yield_returns
          (update_priority { k with threads := (store k.threads k.current
            (fun r => { r with original_priority := p })) } k.current p)
          (by rw [update_priority_current, hrec]; simpa [deref_store] using hrun)
        rw [hk']
        refine ⟨k', true, rfl, rfl, by simp [hm', hd', hlt], fun h => absurd h hm, ?_⟩
        intro hp hle
        exfalso
        rw [(forget_status_priority _ _ (hf k.current)).1, hrec] at hle
        simp only [if_true, deref_store] at hle
        have := settle_le (deref k.threads k.current).priority p hp
        omega
      · rw [if_neg hlt, if_neg hlt]
        exact ⟨_, false, rfl, rfl, by simp [hlt], fun h => absurd h hm, fun _ _ => rfl⟩

/-- A record whose `original_priority` is already `p` is not changed by writing `p`. -/
theorem store_original_same (th : memory) (t : Nat) (p : Int)
    (h : (deref th t).original_priority = p) (x : Nat) :
    deref (store th t (fun r => { r with original_priority := p })) x = deref th x := by
  rw [deref_store]
  by_cases hx : x = t
  · subst hx
    rw [if_pos rfl, ← h]
  · rw [if_neg hx]

/-- A `thread_set_priority` that finds its request already in place changes no
record and does not yield. -/
theorem set_priority_in_place (k : kernel) (p : Int)
    (hm : k.thread_mlfqs = false)
    (hrun : (deref k.threads k.current).status = THREAD_RUNNING)
    (horig : (deref k.threads k.current).original_priority = p)
    (hd : (deref k.threads k.current).is_a_donee = true →
      p > (deref k.threads k.current).priority →
      settle (deref k.threads k.current).priority p = (deref k.threads k.current).priority)
    (hn : (deref k.threads k.current).is_a_donee = false →
      settle (deref k.threads k.current).priority p = (deref k.threads k.current).priority ∧
      ¬ p < (deref k.threads k.current).priority) :
    ∃ k', thread_set_priority_traced k p = .ok (k', false) ∧
      (∀ x, deref k'.threads x = deref k.threads x) ∧
      k'.ready_list = k.ready_list ∧ k'.current = k.current := by
  have hk1 := store_original_same k.threads k.current p horig
  have hst : (deref ({ k with threads := (store k.threads k.current
      (fun r => { r with original_priority := p })) } : kernel).threads k.current).status
      ≠ THREAD_READY := by
    dsimp only
    rw [hk1, hrun]
    decide
  have hupd : settle (deref k.threads k.current).priority p = (deref k.threads k.current).priority →
      ∀ x, deref (update_priority { k with threads := (store k.threads k.current
        (fun r => { r with original_priority := p })) } k.current p).threads x
        = deref k.threads x := by
    intro hs x
    rw [update_priority_records]
    dsimp only
    rw [hk1, hk1, hs]
    by_cases hx : x = k.current
    · rw [if_pos hx, hx]
    · rw [if_neg hx]
  unfold thread_set_priority_traced
  rw [if_neg (by simp [hm])]
  unfold thread_current
  rw [if_pos hrun]
  simp only [bind, Except.bind]
  by_cases hdon : (deref k.threads k.current).is_a_donee = true
  · rw [if_pos hdon]
    by_cases hgt : p > (deref k.threads k.current).priority
    · have hgt1 : p > (deref (store k.threads k.current
          (fun r => { r with original_priority := p })) k.current).priority := by
        rw [hk1]; exact hgt
      rw [if_pos hgt1]
      exact ⟨_, rfl, hupd (hd hdon hgt), update_priority_not_ready _ _ _ hst,
        update_priority_current _ _ _⟩
    · have hgt1 : ¬ p > (deref (store k.threads k.current
          (fun r => { r with original_priority := p })) k.current).priority := by
        rw [hk1]; exact hgt
      rw [if_neg hgt1]
      exact ⟨_, rfl, hk1, rfl, rfl⟩
  · rw [if_neg hdon]
    have hdon' : (deref k.threads k.current).is_a_donee = false := by simpa using hdon
    obtain ⟨hs, hlt⟩ := hn hdon'
    rw [if_neg hlt]
    exact ⟨_, rfl, hupd hs, update_priority_not_ready _ _ _ hst, update_priority_current _ _ _⟩

/-- The record `thread_set_priority` leaves for the running thread, up to `status`. -/
theorem set_priority_record (k : kernel) (p : Int)
    (hm : k.thread_mlfqs = false)
    (hrun : (deref k.threads k.current).status = THREAD_RUNNING) :
    ∃ k' y, thread_set_priority_traced k p = .ok (k', y) ∧
      forget_status (deref k'.threads k.current) =
        forget_status { deref k.threads k.current with
          original_priority := p,
          priority :=
            if (deref k.threads k.current).is_a_donee = true ∧
                ¬ p > (deref k.threads k.current).priority
            then (deref k.threads k.current).priority
            else settle (deref k.threads k.current).priority p } ∧
      (y = false → k'.current = k.current ∧ k'.thread_mlfqs = k.thread_mlfqs ∧
        (deref k'.threads k.current).status = THREAD_RUNNING) := by
  have hk1 : ∀ x, deref (store k.threads k.current
      (fun r => { r with original_priority := p })) x =
      if x = k.current then { deref k.threads k.current with original_priority := p }
      else deref k.threads x := fun x => deref_store _ _ _ x
  have hrec := update_priority_records { k with threads := (store k.threads k.current
    (fun r => { r with original_priority := p })) } k.current p k.current
  dsimp only at hrec
  rw [if_pos rfl, hk1, if_pos rfl] at hrec
  unfold thread_set_priority_traced
  rw [if_neg (by simp [hm])]
  unfold thread_current
  rw [if_pos hrun]
  simp only [bind, Except.bind]
  by_cases hdon : (deref k.threads k.current).is_a_donee = true
  · rw [if_pos hdon]
    by_cases hgt : p > (deref k.threads k.current).priority
    · have hgt1 : p > (deref (store k.threads k.current
          (fun r => { r with original_priority := p })) k.current).priority := by
        rw [hk1]; simpa using hgt
      rw [if_pos hgt1]
      refine ⟨_, false, rfl, ?_, fun _ => ⟨update_priority_current _ _ _,
        (update_priority_frame _ _ _).2.2.2.1, ?_⟩⟩
      · rw [hrec, if_neg (by simp [hgt])]
      · rw [hrec]; exact hrun
    · have hgt1 : ¬ p > (deref (store k.threads k.current
          (fun r => { r with original_priority := p })) k.current).priority := by
        rw [hk1]; simpa using hgt
      rw [if_neg hgt1]
      refine ⟨_, false, rfl, ?_, fun _ => ⟨rfl, rfl, ?_⟩⟩
      · dsimp only
        rw [hk1, if_pos rfl, if_pos ⟨hdon, hgt⟩]
      · dsimp only
        rw [hk1, if_pos rfl]; exact hrun
  · rw [if_neg hdon]
    by_cases hlt : p < (deref k.threads k.current).priority
    · rw [if_pos hlt]
      obtain ⟨k', hk', hf⟩ := thread_yield_returns
        (update_priority { k with threads := (store k.threads k.current
          (fun r => { r with original_priority := p })) } k.current p)
        (by rw [update_priority_current, hrec]; simpa using hrun)
      rw [hk']
      refine ⟨k', true, rfl, ?_, fun h => absurd h (by decide)⟩
      rw [hf, hrec, if_neg (by simp [hdon])]
    · rw [if_neg hlt]
      refine ⟨_, false, rfl, ?_, fun _ => ⟨update_priority_current _ _ _,
        (update_priority_frame _ _ _).2.2.2.1, ?_⟩⟩
      · rw [hrec, if_neg (by simp [hdon])]
      · rw [hrec]; exact hrun

/-- C12 (amended): for every state and every `p ≥ PRI_MIN`, after a first
`thread_set_priority p` a second one by the same thread returns without a yield
and changes no thread record (so not the effective priority, `original_priority`
or the donation flags), nor the ready queue, nor the running thread: at once
when the first call did not yield, and in every later state in which the thread
runs again with its record as the first call left it. -/
theorem set_priority_twice (k : kernel) (p : Int)
    (hrun : (deref k.threads k.current).status = THREAD_RUNNING)
    (hp : PRI_MIN ≤ p) :
    ∃ k1 y1, thread_set_priority_traced k p = .ok (k1, y1) ∧
      (y1 = false →
        ∃ k3, thread_set_priority_traced k1 p = .ok (k3, false) ∧
          (∀ x, deref k3.threads x = deref k1.threads x) ∧
          k3.ready_list = k1.ready_list ∧ k3.current = k1.current) ∧
      ∀ k2 : kernel, k2.current = k.current → k2.thread_mlfqs = k.thread_mlfqs →
        (deref k2.threads k.current).status = THREAD_RUNNING →
        forget_status (deref k2.threads k.current) = forget_status (deref k1.threads k.current) →
        ∃ k3, thread_set_priority_traced k2 p = .ok (k3, false) ∧
          (∀ x, deref k3.threads x = deref k2.threads x) ∧
          k3.ready_list = k2.ready_list ∧ k3.current = k2.current := by
  by_cases hm : k.thread_mlfqs = true
  · have hnoop : ∀ k2 : kernel, k2.thread_mlfqs = k.thread_mlfqs →
        ∃ k3, thread_set_priority_traced k2 p = .ok (k3, false) ∧
          (∀ x, deref k3.threads x = deref k2.threads x) ∧
          k3.ready_list = k2.ready_list ∧ k3.current = k2.current := by
      intro k2 hm2
      exact ⟨k2, by unfold thread_set_priority_traced; rw [if_pos (hm2.trans hm)], fun _ => rfl,
        rfl, rfl⟩
    exact ⟨k, false, by unfold thread_set_priority_traced; rw [if_pos hm],
      fun _ => hnoop k rfl, fun k2 _ hm2 _ _ => hnoop k2 hm2⟩
  · have hm' : k.thread_mlfqs = false := by simpa using hm
    obtain ⟨k1, y1, h1, hr, hstay⟩ := set_priority_record k p hm' hrun
    have hlater : ∀ k2 : kernel, k2.current = k.current → k2.thread_mlfqs = k.thread_mlfqs →
        (deref k2.threads k.current).status = THREAD_RUNNING →
        forget_status (deref k2.threads k.current) = forget_status (deref k1.threads k.current) →
        ∃ k3, thread_set_priority_traced k2 p = .ok (k3, false) ∧
          (∀ x, deref k3.threads x = deref k2.threads x) ∧
          k3.ready_list = k2.ready_list ∧ k3.current = k2.current := by
      intro k2 hc hm2 hrun2 hsame
      have hfields := congrArg
        (fun r : thread => (r.priority, r.original_priority, r.is_a_donee)) (hsame.trans hr)
      simp only [forget_status, Prod.mk.injEq] at hfields
      obtain ⟨e1, e2, e3⟩ := hfields
      apply set_priority_in_place k2 p (hm2.trans hm') (by rw [hc]; exact hrun2)
      · rw [hc]; exact e2
      · intro hd hgt
        rw [hc] at hd hgt ⊢
        rw [e3] at hd
        rw [e1] at hgt ⊢
        by_cases hg : p > (deref k.threads k.current).priority
        · rw [if_neg (by simp [hg])] at hgt ⊢
          exact settle_settle _ _
        · rw [if_pos ⟨hd, hg⟩] at hgt
          exact absurd hgt hg
      · intro hd
        rw [hc] at hd ⊢
        rw [e3] at hd
        rw [e1, if_neg (by simp [hd])]
        exact ⟨settle_settle _ _, not_lt.mpr (settle_le _ _ hp)⟩
    refine ⟨k1, y1, h1, ?_, hlater⟩
    intro hy
    obtain ⟨c1, c2, c3⟩ := hstay hy
    exact hlater k1 c1 c2 c3 rfl

/-- C13 (amended): for every integer `n`, `thread_set_nice n` by the running
thread returns, stores `nice = clamp (n, -20, 20)`, and leaves the priority
`update_priority` settles on for the MLFQS priority computed from that `nice`:
its clamp to `[PRI_MIN, PRI_MAX]` when the priority before the call was in that
range (in general: its clamp, unless the computed value equals the priority
before the call, which is then kept). The call yields if and only if the
computed priority before clamping is lower than the effective priority before
the call; in particular, for a priority not above `PRI_MAX` before the call, it
yields whenever the effective priority after the call is lower than before. -/
theorem set_nice_stores_and_yields (k : kernel) (n : Int)
    (hrun : (deref k.threads k.current).status = THREAD_RUNNING) :
    ∃ k' y, thread_set_nice k n = .ok (k', y) ∧
      (deref k'.threads k.current).nice = clamp_nice n ∧
      (deref k'.threads k.current).priority =
        settle (deref k.threads k.current).priority
          (mlfqs_priority (deref k.threads k.current).recent_cpu (clamp_nice n)) ∧
      (PRI_MIN ≤ (deref k.threads k.current).priority →
        (deref k.threads k.current).priority ≤ PRI_MAX →
        (deref k'.threads k.current).priority =
          clamp_priority (mlfqs_priority (deref k.threads k.current).recent_cpu (clamp_nice n))) ∧
      (y = true ↔
        mlfqs_priority (deref k.threads k.current).recent_cpu (clamp_nice n)
          < (deref k.threads k.current).priority) ∧
      ((deref k.threads k.current).priority ≤ PRI_MAX →
        (deref k'.threads k.current).priority < (deref k.threads k.current).priority →
        y = true) := by
  have hk1 : deref (store k.threads k.current (fun r => { r with nice := clamp_nice n })) k.current
      = { deref k.threads k.current with nice := clamp_nice n } := by
    rw [deref_store, if_pos rfl]
  have hrec := update_priority_records { k with threads := (store k.threads k.current
    (fun r => { r with nice := clamp_nice n })) } k.current
    (mlfqs_priority (deref k.threads k.current).recent_cpu (clamp_nice n)) k.current
  dsimp only at hrec
  rw [if_pos rfl, hk1] at hrec
  dsimp only at hrec
  have hbelow : (deref k.threads k.current).priority ≤ PRI_MAX →
      settle (deref k.threads k.current).priority
          (mlfqs_priority (deref k.threads k.current).recent_cpu (clamp_nice n))
        < (deref k.threads k.current).priority →
      mlfqs_priority (deref k.threads k.current).recent_cpu (clamp_nice n)
        < (deref k.threads k.current).priority := by
    intro hhi h
    unfold settle at h
    split_ifs at h with hne
    · by_contra hcon
      have h3 := not_lt.mp hcon
      have h4 := (clamp_priority_cases
        (mlfqs_priority (deref k.threads k.current).recent_cpu (clamp_nice n))).2
      by_cases h5 : mlfqs_priority (deref k.threads k.current).recent_cpu (clamp_nice n) ≤ PRI_MAX
      · have := h4 h5
        omega
      · have h6 : clamp_priority
            (mlfqs_priority (deref k.threads k.current).recent_cpu (clamp_nice n)) = PRI_MAX := by
          unfold clamp_priority
          rw [if_pos (not_le.mp h5)]
        omega
    · exact absurd h (lt_irrefl _)
  unfold thread_set_nice thread_current
  rw [if_pos hrun]
  simp only [bind, Except.bind]
  rw [recalculate_priority_eq]
  dsimp only
  have hn : (if n > 20 then 20 else if n < -20 then -20 else n) = clamp_nice n := rfl
  rw [hn, hk1]
  dsimp only
  by_cases hlt : mlfqs_priority (deref k.threads k.current).recent_cpu (clamp_nice n)
      < (deref k.threads k.current).priority
  · rw [if_pos hlt]
    obtain ⟨k', hk', hf⟩ := thread_yield_returns
      (update_priority { k with threads := (store k.threads k.current
        (fun r => { r with nice := clamp_nice n })) } k.current
        (mlfqs_priority (deref k.threads k.current).recent_cpu (clamp_nice n)))
      (by rw [update_priority_current, hrec]; exact hrun)
    rw [hk']
    have hfields := congrArg (fun r : thread => (r.nice, r.priority)) ((hf k.current).trans
      (congrArg forget_status hrec))
    simp only [forget_status, Prod.mk.injEq] at hfields
    exact ⟨k', true, rfl, hfields.1, hfields.2,
      fun hlo hhi => hfields.2.trans (settle_of_in_range _ _ hlo hhi), by simp [hlt],
      fun _ _ => rfl⟩
  · rw [if_neg hlt]
    refine ⟨_, false, rfl, by rw [hrec], by rw [hrec],
      fun hlo hhi => by rw [hrec]; exact settle_of_in_range _ _ hlo hhi, by simp [hlt], ?_⟩
    intro hhi h
    rw [hrec] at h
    exact absurd (hbelow hhi h) hlt

/-- Adding the integer 1 to a fixed-point value adds `2^14` when that fits. -/
theorem fixed_int_add_one (x : Int) (h1 : -2 ^ 31 ≤ x) (h2 : x + 2 ^ 14 < 2 ^ 31) :
    fixed_int_add x 1 = x + 2 ^ 14 := by
  have e : int_to_fixed 1 = 16384 := by decide
  unfold fixed_int_add fixed_add
  rw [e]
  norm_num at h1 h2 ⊢
  exact wrap32_of_fits _ (by omega) (by omega)

/-- What `thread_tick` charges: in MLFQS mode, on every timer tick that is not a
one-second boundary, it returns and adds exactly 1.0 (`2^14`) to the running
thread's `recent_cpu` (when that fits in an `int`), whether or not the running
thread is the idle thread; no other thread's `recent_cpu` changes. -/
theorem tick_charges_running_thread (k : kernel) (timer_ticks : Int)
    (hm : k.thread_mlfqs = true)
    (hrun : (deref k.threads k.current).status = THREAD_RUNNING)
    (hsec : Int.tmod timer_ticks TIMER_FREQ ≠ 0)
    (hlo : -2 ^ 31 ≤ (deref k.threads k.current).recent_cpu)
    (hhi : (deref k.threads k.current).recent_cpu + 2 ^ 14 < 2 ^ 31) :
    ∃ k' y, thread_tick k timer_ticks = .ok (k', y) ∧
      (deref k'.threads k.current).recent_cpu = (deref k.threads k.current).recent_cpu + 2 ^ 14 ∧
      ∀ x, x ≠ k.current →
        (deref k'.threads x).recent_cpu = (deref k.threads x).recent_cpu := by
  have hka : ∀ x, (deref (store k.threads k.current
      (fun r => { r with recent_cpu := fixed_int_add r.recent_cpu 1 })) x).recent_cpu =
      if x = k.current then (deref k.threads k.current).recent_cpu + 2 ^ 14
      else (deref k.threads x).recent_cpu := by
    intro x
    rw [deref_store]
    by_cases hx : x = k.current
    · rw [if_pos hx, if_pos hx]
      exact fixed_int_add_one _ hlo hhi
    · rw [if_neg hx, if_neg hx]
  unfold thread_tick thread_current
  rw [if_pos hrun]
  simp only [bind, Except.bind]
  rw [if_pos hm, if_neg hsec]
  by_cases h4 : Int.tmod timer_ticks 4 = 0
  · rw [if_pos h4]
    unfold thread_recalculate_all_priorities
    obtain ⟨k', hk', g1, _⟩ := recalculate_all_priorities_loop_spec
      ({ k with threads := (store k.threads k.current
        (fun r => { r with recent_cpu := fixed_int_add r.recent_cpu 1 })) } : kernel).all_list
      { k with threads := (store k.threads k.current
        (fun r => { r with recent_cpu := fixed_int_add r.recent_cpu 1 })) }
    rw [hk']
    have hcpu : ∀ x, (deref k'.threads x).recent_cpu = (deref (store k.threads k.current
        (fun r => { r with recent_cpu := fixed_int_add r.recent_cpu 1 })) x).recent_cpu := by
      intro x
      have := congrArg (fun r : thread => r.recent_cpu) (g1 x)
      simpa only [forget_priority] using this
    refine ⟨_, _, rfl, ?_, ?_⟩
    · dsimp only
      rw [hcpu, hka, if_pos rfl]
    · intro x hx
      dsimp only
      rw [hcpu, hka, if_neg hx]
  · rw [if_neg h4]
    refine ⟨_, _, rfl, ?_, ?_⟩
    · dsimp only [pure, Except.pure]
      rw [hka, if_pos rfl]
    · intro x hx
      dsimp only [pure, Except.pure]
      rw [hka, if_neg hx]

/-! ## Witnesses of the scheduling, MLFQS and fixed-point theorems -/

/-- Witness of C11: thread 1 runs at priority 40, `main` (20) is ready; thread 1
calls `thread_set_priority (10)` and yields. -/
theorem set_priority_yields_iff_witness :
    (deref single_2.threads single_2.current).priority = 40 ∧
    ∃ k', thread_set_priority_traced single_2 10 = .ok (k', true) ∧
      thread_set_priority single_2 10 = .ok k' := by
  obtain ⟨k', y, h1, h2, h3, _⟩ := set_priority_yields_iff single_2 10 (by decide)
  have hy : y = true := h3.2 ⟨rfl, by decide, by decide⟩
  subst hy
  exact ⟨by decide, k', h1, h2⟩

/-- Witness of C12: `main` at 31 calls `thread_set_priority (20)` and yields;
running again, it repeats the call, which neither yields nor changes a record. -/
theorem set_priority_twice_witness :
    thread_set_priority_traced booted 20 = .ok (main_at_20, true) ∧
    ∃ k3, thread_set_priority_traced main_at_20 20 = .ok (k3, false) ∧
      (∀ x, deref k3.threads x = deref main_at_20.threads x) ∧
      k3.ready_list = main_at_20.ready_list := by
  obtain ⟨k1, y1, h1, _, h3⟩ := set_priority_twice booted 20 (by decide) (by decide)
  have e : thread_set_priority_traced booted 20 = .ok (main_at_20, true) := rfl
  rw [e] at h1
  injection h1 with h1
  injection h1 with ha hb
  subst ha
  obtain ⟨k3, g1, g2, g3, _⟩ := h3 main_at_20 rfl rfl (by decide) rfl
  exact ⟨e, k3, g1, g2, g3⟩

/-- Witness of C13: `main` (priority 31, `recent_cpu = 400.0`) calls
`thread_set_nice (-30)`: `nice` becomes -20, the priority `63 - 100 + 40 = 3`,
and the thread yields. -/
theorem set_nice_stores_and_yields_witness :
    ∃ k', thread_set_nice mlfqs_400 (-30) = .ok (k', true) ∧
      (deref k'.threads 0).nice = -20 ∧ (deref k'.threads 0).priority = 3 := by
  obtain ⟨k', y, h1, h2, _, h3, h4, _⟩ :=
    set_nice_stores_and_yields mlfqs_400 (-30) (by decide)
  have hy : y = true := h4.2 (by decide)
  subst hy
  exact ⟨k', h1, h2.trans (by decide), (h3 (by decide) (by decide)).trans (by decide)⟩

/-- Witness of C14: `recent_cpu = 400.0` and `nice = 0` give priority 0. -/
theorem recalculation_stores_clamped_formula_witness :
    (deref mlfqs_400.threads 0).recent_cpu = 400 * 2 ^ 14 ∧
    (deref mlfqs_400.threads 0).nice = 0 ∧
    ∃ k', thread_recalculate_all_priorities mlfqs_400 = .ok k' ∧
      (deref k'.threads 0).priority = 0 := by
  obtain ⟨k', h1, h2, _⟩ := recalculation_stores_clamped_formula mlfqs_400 0
    (by decide) (by decide) (by decide) (by decide) (by decide) (by decide) (by decide)
  exact ⟨by decide, by decide, k', h1, h2.trans (by decide)⟩

/-- Witness of C15: with `recent_cpu = 256.0` and `nice = 0` the exact value is
`63 - 64 = -1`; the stored priority is 0, at distance 1. -/
theorem recalculation_within_one_of_exact_witness :
    ∃ k', thread_recalculate_all_priorities mlfqs_256 = .ok k' ∧
      PRI_MIN ≤ (deref k'.threads 0).priority ∧ (deref k'.threads 0).priority ≤ PRI_MAX ∧
      |((deref k'.threads 0).priority : ℚ) - ((63 : ℚ) - 4194304 / 2 ^ 14 / 4 - 0 * 2)| ≤ 1 := by
  obtain ⟨k', h1, h2, h3, h4⟩ := recalculation_within_one_of_exact mlfqs_256 0
    (by decide) (by decide) (by decide) (by decide) (by decide) (by decide) (by decide)
  have e1 : (deref mlfqs_256.threads 0).recent_cpu = 4194304 := by decide
  have e2 : (deref mlfqs_256.threads 0).nice = 0 := by decide
  have e3 : PRI_MAX = 63 := rfl
  have e4 : PRI_MIN = 0 := rfl
  rw [e1, e2, e3, e4] at h4
  exact ⟨k', h1, h2, h3, by simpa using h4 (by norm_num) (by norm_num)⟩

/-- A tick of a thread that is not the idle thread: `main` runs with `recent_cpu = 400.0`; the tick numbered 3
leaves it at `401.0` and the idle thread at 0. -/
theorem tick_charges_running_thread_witness :
    ∃ k' y, thread_tick mlfqs_400 3 = .ok (k', y) ∧
      (deref k'.threads 0).recent_cpu = 401 * 2 ^ 14 ∧ (deref k'.threads 1).recent_cpu = 0 := by
  obtain ⟨k', y, h1, h2, h3⟩ := tick_charges_running_thread mlfqs_400 3
    rfl (by decide) (by decide) (by decide) (by decide)
  exact ⟨k', y, h1, h2.trans (by decide), (h3 1 (by decide)).trans (by decide)⟩

/-- Witness of C17: `load_avg = 1.0` and one ready thread (the running `main`)
give `load_avg'.v = 16110 + 273 = 16383`. -/
theorem load_avg_recalculation_witness :
    ready_threads_count mlfqs_400 = 1 ∧
    ∃ k', thread_recalculate_load_avg mlfqs_400 = .ok k' ∧ k'.load_avg = 16383 := by
  obtain ⟨k', h1, h2, _⟩ := load_avg_recalculation mlfqs_400
    (by decide) (by decide) (by decide) (by decide)
  exact ⟨by decide, k', h1, h2.trans (by decide)⟩

/-- Witness of C18: `load_avg = 1.0` gives the coefficient `2/3`
(`c = 10922`), and `recent_cpu = 400.0` with `nice = 0` decays to `4368800`. -/
theorem recent_cpu_recalculation_witness :
    ∃ k', recalculate_recent_cpu mlfqs_400 0 = .ok k' ∧
      fixed_div (fixed_int_mult mlfqs_400.load_avg 2)
        (fixed_int_add (fixed_int_mult mlfqs_400.load_avg 2) 1) = .ok 10922 ∧
      (deref k'.threads 0).recent_cpu = 4368800 := by
  obtain ⟨_, k', c, h1, h2, h3, _, _, h6, _⟩ := recent_cpu_recalculation mlfqs_400 0
    (by decide) (by decide)
  have hc : c = 10922 := h3.trans (by decide)
  subst hc
  exact ⟨k', h1, h2, h6.trans (by decide)⟩

/-- Witness of C19: the least representable integer survives the truncating
round trip, and -5 survives both. -/
theorem round_trip_int_fixed_witness :
    fixed_to_int (int_to_fixed (-131072)) false = -131072 ∧
    fixed_to_int (int_to_fixed (-5)) false = -5 ∧
    fixed_to_int (int_to_fixed (-5)) true = -5 :=
  ⟨(round_trip_int_fixed (-131072) (by norm_num) (by norm_num)).1,
   (round_trip_int_fixed (-5) (by norm_num) (by norm_num)).1,
   (round_trip_int_fixed (-5) (by norm_num) (by norm_num)).2 (by norm_num)⟩

/-- Witness of C20: `-2.5` rounds to `-3` and truncates to `-2`. -/
theorem fixed_to_int_rounds_witness :
    |((fixed_to_int (-40960) true : Int) : ℚ) - (-40960 : Int) / 2 ^ 14| ≤ 1 / 2 ∧
    fixed_to_int (-(-40960)) true = -fixed_to_int (-40960) true ∧
    fixed_to_int (-40960) true = -3 ∧ fixed_to_int (-40960) false = -2 := by
  obtain ⟨h1, _, h3, _⟩ := fixed_to_int_rounds (-40960) (by norm_num [abs_le])
  exact ⟨h1, h3, by decide, by decide⟩

/-! ## Inputs on which a sentence of the specification fails -/

/-- C11 (fails as stated): "a call that does not lower the effective priority
does not yield". `main` runs at priority 0 and calls `thread_set_priority (-5)`:
the request is below its priority, so the call yields, and `update_priority`
clamps the stored priority to `PRI_MIN`: the effective priority is 0 as before. -/
theorem set_priority_below_range_yields_without_lowering :
    thread_init false 0 = .ok booted ∧
    thread_set_priority booted 0 = .ok main_at_0 ∧
    (deref main_at_0.threads 0).priority = 0 ∧
    thread_set_priority_traced main_at_0 (-5) = .ok (main_below, true) ∧
    (deref main_below.threads 0).priority = 0 ∧
    ¬ (deref main_below.threads 0).priority < (deref main_at_0.threads 0).priority :=
  ⟨rfl, rfl, rfl, rfl, rfl, by decide⟩

/-- C12 (fails as stated): "no additional yield on the second call". `main`
calls `thread_set_priority (-5)` twice: the stored fields are the same after
both calls, but the second call yields again, the request being below the
clamped priority 0. -/
theorem set_priority_below_range_yields_again :
    thread_init false 0 = .ok booted ∧
    thread_set_priority_traced booted (-5) = .ok (main_below, true) ∧
    thread_set_priority_traced main_below (-5) = .ok (main_below, true) :=
  ⟨rfl, rfl, rfl⟩

/-- C13 (fails as stated): "a thread already at `PRI_MIN` whose raw computed
priority falls below 0 does not yield". `main` runs at `PRI_MIN` with
`recent_cpu = 256.0` and calls `thread_set_nice (5)`: the computed priority is
`63 - 64 - 10 = -11`, the stored priority stays `PRI_MIN`, and the thread yields. -/
theorem set_nice_yields_at_floor :
    (deref mlfqs_256.threads 0).priority = PRI_MIN ∧
    thread_set_nice mlfqs_256 5 = .ok (mlfqs_256_nicer, true) ∧
    recalculate_priority mlfqs_256_nicer 0 = .ok (-11) ∧
    (deref mlfqs_256_nicer.threads 0).priority = PRI_MIN ∧
    ¬ (deref mlfqs_256_nicer.threads 0).priority < (deref mlfqs_256.threads 0).priority :=
  ⟨rfl, rfl, rfl, rfl, by decide⟩

/-- C15 (fails as stated): with `recent_cpu = 400.0` and `nice = 0` the exact
value is `63 - 100 = -37`; the stored priority is the clamp bound 0, at distance
37 from it. -/
theorem recalculated_priority_far_from_exact :
    thread_recalculate_all_priorities mlfqs_400 = .ok mlfqs_400_done ∧
    (deref mlfqs_400_done.threads 0).priority = 0 ∧
    ¬ |((deref mlfqs_400_done.threads 0).priority : ℚ) -
        ((PRI_MAX : ℚ) - ((deref mlfqs_400.threads 0).recent_cpu : ℚ) / 2 ^ 14 / 4
          - ((deref mlfqs_400.threads 0).nice : ℚ) * 2)| ≤ 1 := by
  have e0 : (deref mlfqs_400_done.threads 0).priority = 0 := by decide
  have e1 : (deref mlfqs_400.threads 0).recent_cpu = 6553600 := by decide
  have e2 : (deref mlfqs_400.threads 0).nice = 0 := by decide
  have e3 : PRI_MAX = 63 := rfl
  refine ⟨rfl, e0, ?_⟩
  rw [e0, e1, e2, e3]
  norm_num [abs_le]

/-- C19 (fails as stated): the rounding round trip of `n = -2^17`. `int_to_fixed`
gives `-2^31`, the least `int`; subtracting `f / 2` from it leaves the range of
`int`, and the result is 131071. -/
theorem round_trip_nearest_fails_at_minimum :
    -2 ^ 17 ≤ (-131072 : Int) ∧ (-131072 : Int) < 2 ^ 17 ∧
    int_to_fixed (-131072) = -2 ^ 31 ∧
    fixed_to_int (int_to_fixed (-131072)) true = 131071 ∧
    fixed_to_int (int_to_fixed (-131072)) true ≠ -131072 :=
  ⟨by decide, by decide, by decide, by decide, by decide⟩

/-! ## Mixed fixed-point operations and `fixed_div` -/

/-- A common positive factor cancels in a truncating division. -/
theorem tdiv_mul_right_cancel (x n c : Int) (hc : 0 < c) :
    Int.tdiv (x * c) (n * c) = Int.tdiv x n := by
  have key : ∀ a b : Int, 0 ≤ a → 0 ≤ b → Int.tdiv (a * c) (b * c) = Int.tdiv a b := by
    intro a b ha hb
    rw [Int.tdiv_eq_ediv (mul_nonneg ha hc.le) (mul_nonneg hb hc.le), Int.tdiv_eq_ediv ha hb,
      Int.mul_ediv_mul_of_pos_left _ _ hc]
  rcases le_total 0 x with hx | hx <;> rcases le_total 0 n with hn | hn
  · exact key x n hx hn
  · have := key x (-n) hx (by omega)
    rw [neg_mul, Int.tdiv_neg, Int.tdiv_neg] at this
    exact neg_injective this
  · have := key (-x) n (by omega) hn
    rw [neg_mul, Int.neg_tdiv, Int.neg_tdiv] at this
    exact neg_injective this
  · have := key (-x) (-n) (by omega) (by omega)
    rw [neg_mul, neg_mul, Int.neg_tdiv, Int.neg_tdiv, Int.tdiv_neg, Int.tdiv_neg] at this
    exact neg_injective (neg_injective this)

/-- A representable value is not changed by `wrap32`. -/
theorem wrap32_of_fits_int32 (y : Int) (h : fits_int32 y) : wrap32 y = y := by
  obtain ⟨h1, h2⟩ := h
  exact wrap32_of_fits y (by norm_num at h1; exact h1) (by norm_num at h2; exact h2)

/-- C28: for every fixed-point `x` and integer `n` with `|n| < 2^17`, the mixed
operations of `fixed_point.c`, which convert `n` with `int_to_fixed` and call
the fixed/fixed operation, equal the direct formulas whenever the mathematical
result fits in a signed 32-bit integer: `fixed_int_add (x, n).v = x.v + n * 2^14`,
`fixed_int_sub (x, n).v = x.v - n * 2^14`, `fixed_int_mult (x, n).v = x.v * n`,
and for `n ≠ 0`, `fixed_int_div (x, n).v = x.v / n` truncated toward zero. -/
theorem mixed_operations_are_direct (x n : Int) (hn1 : -2 ^ 17 < n) (hn2 : n < 2 ^ 17) :
    (fits_int32 (direct_int_add x n) → fixed_int_add x n = direct_int_add x n) ∧
    (fits_int32 (direct_int_sub x n) → fixed_int_sub x n = direct_int_sub x n) ∧
    (fits_int32 (direct_int_mult x n) → fixed_int_mult x n = direct_int_mult x n) ∧
    (n ≠ 0 → fits_int32 (direct_int_div x n) → fixed_int_div x n = .ok (direct_int_div x n)) := by
  have hn : int_to_fixed n = n * 16384 :=
    int_to_fixed_of_fits n (by norm_num at hn1; omega) (by norm_num at hn2; exact hn2)
  have e14 : (2 : Int) ^ 14 = 16384 := by norm_num
  unfold direct_int_add direct_int_sub direct_int_mult direct_int_div
  rw [e14]
  refine ⟨?_, ?_, ?_, ?_⟩
  · intro h
    unfold fixed_int_add fixed_add
    rw [hn]
    exact wrap32_of_fits_int32 _ h
  · intro h
    unfold fixed_int_sub fixed_sub
    rw [hn]
    exact wrap32_of_fits_int32 _ h
  · intro h
    unfold fixed_int_mult fixed_mult
    rw [hn, f_eq, ← mul_assoc, Int.mul_tdiv_cancel _ (by norm_num)]
    exact wrap32_of_fits_int32 _ h
  · intro h0 h
    unfold fixed_int_div fixed_div
    rw [hn, f_eq, if_neg (by omega), tdiv_mul_right_cancel _ _ _ (by norm_num),
      wrap32_of_fits_int32 _ h]

/-- C21 (amended): `fixed_div (x, y)` checks nothing: when `y.v = 0` the integer
division faults (a division-by-zero fault of the processor, not an assertion
failure and not a returned value), and for every `y.v ≠ 0` it returns
`((int64) x.v * 2^14) / y.v` with truncating division, reduced to the 32-bit
`int` of the result and so equal to it whenever it fits. -/
theorem fixed_div_traps_or_divides (x y : Int) :
    (y = 0 → fixed_div x y = .error fault.div_by_zero) ∧
    (y ≠ 0 → fixed_div x y = .ok (wrap32 (Int.tdiv (x * 2 ^ 14) y))) ∧
    (y ≠ 0 → fits_int32 (Int.tdiv (x * 2 ^ 14) y) →
      fixed_div x y = .ok (Int.tdiv (x * 2 ^ 14) y)) := by
  unfold fixed_div f
  refine ⟨fun h => by rw [if_pos h], fun h => by rw [if_neg h], fun h hf => ?_⟩
  rw [if_neg h, wrap32_of_fits_int32 _ hf]

/-! ## Reachable states of the dispatcher -/

/-- What `schedule` does when it returns: the outgoing thread had left
`THREAD_RUNNING`, the thread chosen is the popped front of the ready queue or, the
queue being empty, the idle thread; it is marked running and made current. -/
theorem schedule_spec (k k' : kernel) (h : schedule k = .ok k') :
    (deref k.threads k.current).status ≠ THREAD_RUNNING ∧
    ∃ n, (k.ready_list = n :: k'.ready_list ∨
        (k.ready_list = [] ∧ k'.ready_list = [] ∧ k.idle_thread = some n)) ∧
      k'.current = n ∧
      (∀ x, deref k'.threads x =
        if x = n then { deref k.threads n with status := THREAD_RUNNING }
        else deref k.threads x) ∧
      k'.all_list = k.all_list ∧ k'.idle_thread = k.idle_thread := by
  unfold schedule next_thread_to_run at h
  by_cases hst : (deref k.threads k.current).status = THREAD_RUNNING
  · cases hrl : k.ready_list <;> simp [hrl, hst] at h
  · refine ⟨hst, ?_⟩
    cases hrl : k.ready_list with
    | nil =>
      cases hid : k.idle_thread with
      | none => simp [hrl, hid, hst] at h
      | some n =>
        simp only [hrl, hid, hst, if_false] at h
        unfold thread_schedule_tail at h
        refine ⟨n, ?_⟩
        by_cases hc : k.current = n
        · simp only [hc, ne_eq, not_true_eq_false, if_false] at h
          injection h with h
          subst h
          exact ⟨Or.inr ⟨rfl, rfl, rfl⟩, rfl, fun x => by dsimp only; exact deref_store _ _ _ x,
              rfl, rfl⟩
        · simp only [ne_eq, hc, not_false_eq_true, if_true] at h
          split_ifs at h <;> injection h with h <;> subst h <;>
            exact ⟨Or.inr ⟨rfl, rfl, rfl⟩, rfl, fun x => by dsimp only; exact deref_store _ _ _ x,
              rfl, rfl⟩
    | cons n rest =>
      simp only [hrl, hst, if_false] at h
      unfold thread_schedule_tail at h
      refine ⟨n, ?_⟩
      by_cases hc : k.current = n
      · simp only [hc, ne_eq, not_true_eq_false, if_false] at h
        injection h with h
        subst h
        exact ⟨Or.inl rfl, rfl, fun x => by dsimp only; exact deref_store _ _ _ x, rfl, rfl⟩
      · simp only [ne_eq, hc, not_false_eq_true, if_true] at h
        split_ifs at h <;> injection h with h <;> subst h <;>
          exact ⟨Or.inl rfl, rfl, fun x => by dsimp only; exact deref_store _ _ _ x, rfl, rfl⟩

/-- The `status` a record has after `status` was written at `t`. -/
theorem status_store (th : memory) (t : Nat) (s : thread_status) (x : Nat) :
    (deref (store th t (fun r => { r with status := s })) x).status =
      if x = t then s else (deref th x).status := by
  rw [deref_store]
  split_ifs <;> rfl

/-- Membership in a list after `list_remove`. -/
theorem mem_list_remove (l : List Nat) (x y : Nat) :
    y ∈ list_remove l x ↔ y ∈ l ∧ y ≠ x := by
  unfold list_remove
  simp [List.mem_filter]

/-- The running thread of a settled state is marked running. -/
theorem scheduler_inv_running (k : kernel) (h : scheduler_inv k) :
    (deref k.threads k.current).status = THREAD_RUNNING :=
  (h.one_running k.current h.current_live).2 rfl

/-- The running thread of a settled state is not in the ready queue. -/
theorem scheduler_inv_current_out (k : kernel) (h : scheduler_inv k) :
    k.current ∉ k.ready_list := by
  by_cases hid : some k.current = k.idle_thread
  · exact (h.idle_out k.current hid.symm).2
  · intro hm
    have := (h.ready_iff k.current hid).1 hm
    rw [scheduler_inv_running k h] at this
    cases this

/-- When `schedule` returns from a switching state, the state is settled. -/
theorem schedule_settles (k k' : kernel) (hk : switching_inv k) (h : schedule k = .ok k') :
    scheduler_inv k' := by
  obtain ⟨_, n, hn, hcur, hth, hall, hidle⟩ := schedule_spec k k' h
  have hst : ∀ x, (deref k'.threads x).status =
      if x = n then THREAD_RUNNING else (deref k.threads x).status := by
    intro x
    rw [hth x]
    split_ifs <;> rfl
  have hsub : ∀ x ∈ k'.ready_list, x ∈ k.ready_list := by
    intro x hx
    rcases hn with hn | ⟨_, hn, _⟩
    · rw [hn]; exact List.mem_cons_of_mem _ hx
    · rw [hn] at hx; cases hx
  have hnlive : n ∈ k.all_list := by
    rcases hn with hn | ⟨_, _, hn⟩
    · exact hk.ready_live n (by rw [hn]; exact List.mem_cons_self _ _)
    · exact (hk.idle_out n hn).1
  have hnout : n ∉ k'.ready_list := by
    rcases hn with hn | ⟨_, hn, _⟩
    · have := hk.ready_nodup
      rw [hn] at this
      exact (List.nodup_cons.mp this).1
    · rw [hn]; exact List.not_mem_nil _
  have hback : ∀ x, x ≠ n → x ∈ k.ready_list → x ∈ k'.ready_list := by
    intro x hx hm
    rcases hn with hn | ⟨hn, _, _⟩
    · rw [hn] at hm
      rcases List.mem_cons.mp hm with e | e
      · exact absurd e hx
      · exact e
    · rw [hn] at hm; cases hm
  refine ⟨?_, ?_, ?_, ?_, ?_, ?_, ?_⟩
  · rcases hn with hn | ⟨_, hn, _⟩
    · have := hk.ready_nodup
      rw [hn] at this
      exact (List.nodup_cons.mp this).2
    · rw [hn]; exact List.nodup_nil
  · intro x hx
    rw [hall]
    exact hk.ready_live x (hsub x hx)
  · rw [hcur, hall]; exact hnlive
  · intro x hx
    rw [hall] at hx
    rw [hst, hcur]
    by_cases e : x = n
    · simp [e]
    · simp only [e, if_false, iff_false]
      exact hk.none_running x hx
  · intro i hi
    rw [hidle] at hi
    rw [hall]
    exact ⟨(hk.idle_out i hi).1, fun hm => (hk.idle_out i hi).2 (hsub i hm)⟩
  · intro x hx
    rw [hidle] at hx
    rw [hst]
    by_cases e : x = n
    · subst e
      simp only [if_true]
      exact ⟨fun hm => absurd hm hnout, fun hc => by cases hc⟩
    · simp only [e, if_false]
      rw [← hk.ready_iff x hx]
      exact ⟨fun hm => hsub x hm, fun hm => hback x e hm⟩
  · intro x hx
    rw [hst] at hx
    rw [hall]
    by_cases e : x = n
    · subst e; exact hnlive
    · simp only [e, if_false] at hx
      exact hk.blocked_live x hx

/-- Membership in the ready queue after an ordered insertion, and absence of
duplicates when the thread was not queued. -/
theorem insert_thread_ordered_mem (k : kernel) (t : Nat) :
    (∀ x, x ∈ (insert_thread_ordered k t).ready_list ↔ x = t ∨ x ∈ k.ready_list) ∧
    (t ∉ k.ready_list → k.ready_list.Nodup → (insert_thread_ordered k t).ready_list.Nodup) := by
  obtain ⟨pre, post, hl, hins, _⟩ := insert_thread_ordered_split k t
  rw [hins, hl]
  constructor
  · intro x
    simp only [List.mem_append, List.mem_cons]
    tauto
  · intro hout hnd
    rw [List.nodup_middle]
    exact List.nodup_cons.mpr ⟨hout, hnd⟩

/-- When `thread_block` returns from a settled state, the state is settled. -/
theorem thread_block_settles (k k' : kernel) (hk : scheduler_inv k)
    (h : thread_block k = .ok k') : scheduler_inv k' := by
  have hrun := scheduler_inv_running k hk
  have hout := scheduler_inv_current_out k hk
  unfold thread_block thread_current at h
  rw [if_pos hrun] at h
  simp only [bind, Except.bind] at h
  refine schedule_settles _ _ ?_ h
  refine ⟨hk.ready_nodup, hk.ready_live, ?_, hk.idle_out, ?_, ?_⟩
  · intro x hx
    dsimp only
    rw [status_store]
    by_cases e : x = k.current
    · simp [e]
    · simp only [e, if_false]
      exact fun hc => e ((hk.one_running x hx).1 hc)
  · intro x hx
    dsimp only
    rw [status_store]
    by_cases e : x = k.current
    · subst e
      simp only [if_true]
      exact ⟨fun hm => absurd hm hout, fun hc => by cases hc⟩
    · simp only [e, if_false]
      exact hk.ready_iff x hx
  · intro x hx
    dsimp only at hx ⊢
    rw [status_store] at hx
    by_cases e : x = k.current
    · subst e; exact hk.current_live
    · simp only [e, if_false] at hx
      exact hk.blocked_live x hx

/-- When `thread_yield` returns from a settled state, the state is settled. -/
theorem thread_yield_settles (k k' : kernel) (hk : scheduler_inv k)
    (h : thread_yield k = .ok k') : scheduler_inv k' := by
  have hrun := scheduler_inv_running k hk
  have hout := scheduler_inv_current_out k hk
  unfold thread_yield thread_current at h
  rw [if_pos hrun] at h
  simp only [bind, Except.bind] at h
  by_cases hid : some k.current ≠ k.idle_thread
  · rw [if_pos hid] at h
    obtain ⟨hmem, hnd⟩ := insert_thread_ordered_mem k k.current
    obtain ⟨f1, _, f3, _, _⟩ := insert_thread_ordered_frame k k.current
    have fth := insert_thread_ordered_threads k k.current
    refine schedule_settles _ _ ?_ h
    refine ⟨hnd hout hk.ready_nodup, ?_, ?_, ?_, ?_, ?_⟩
    · intro x hx
      dsimp only at hx ⊢
      rw [f1]
      rcases (hmem x).1 hx with e | e
      · rw [e]; exact hk.current_live
      · exact hk.ready_live x e
    · intro x hx
      dsimp only at hx ⊢
      rw [f1] at hx
      rw [status_store, fth]
      by_cases e : x = k.current
      · simp [e]
      · simp only [e, if_false]
        exact fun hc => e ((hk.one_running x hx).1 hc)
    · intro i hi
      dsimp only at hi ⊢
      rw [f3] at hi
      rw [f1]
      refine ⟨(hk.idle_out i hi).1, fun hm => ?_⟩
      rcases (hmem i).1 hm with e | e
      · exact hid (by rw [hi, e])
      · exact (hk.idle_out i hi).2 e
    · intro x hx
      dsimp only at hx ⊢
      rw [f3] at hx
      rw [status_store, fth, hmem x]
      by_cases e : x = k.current
      · simp [e]
      · simp only [e, if_false, false_or]
        exact hk.ready_iff x hx
    · intro x hx
      dsimp only at hx ⊢
      rw [status_store, fth] at hx
      rw [f1]
      by_cases e : x = k.current
      · rw [e]; exact hk.current_live
      · simp only [e, if_false] at hx
        exact hk.blocked_live x hx
  · rw [if_neg hid] at h
    have hid2 : some k.current = k.idle_thread := not_not.mp hid
    refine schedule_settles _ _ ?_ h
    refine ⟨hk.ready_nodup, hk.ready_live, ?_, hk.idle_out, ?_, ?_⟩
    · intro x hx
      dsimp only
      rw [status_store]
      by_cases e : x = k.current
      · simp [e]
      · simp only [e, if_false]
        exact fun hc => e ((hk.one_running x hx).1 hc)
    · intro x hx
      dsimp only at hx ⊢
      rw [status_store]
      have e : x ≠ k.current := fun e => hx (by rw [e]; exact hid2)
      simp only [e, if_false]
      exact hk.ready_iff x hx
    · intro x hx
      dsimp only at hx ⊢
      rw [status_store] at hx
      by_cases e : x = k.current
      · subst e; exact hk.current_live
      · simp only [e, if_false] at hx
        exact hk.blocked_live x hx

/-- When `thread_exit` by a thread other than the idle thread returns from a
settled state, the state is settled. -/
theorem thread_exit_settles (k k' : kernel) (hk : scheduler_inv k)
    (hid : some k.current ≠ k.idle_thread)
    (h : thread_exit k = .ok k') : scheduler_inv k' := by
  have hrun := scheduler_inv_running k hk
  have hout := scheduler_inv_current_out k hk
  unfold thread_exit thread_current at h
  rw [if_pos hrun] at h
  simp only [bind, Except.bind] at h
  refine schedule_settles _ _ ?_ h
  refine ⟨hk.ready_nodup, ?_, ?_, ?_, ?_, ?_⟩
  · intro x hx
    dsimp only at hx ⊢
    rw [mem_list_remove]
    exact ⟨hk.ready_live x hx, fun e => hout (e ▸ hx)⟩
  · intro x hx
    dsimp only at hx ⊢
    rw [mem_list_remove] at hx
    rw [status_store]
    simp only [hx.2, if_false]
    exact fun hc => hx.2 ((hk.one_running x hx.1).1 hc)
  · intro i hi
    dsimp only at hi ⊢
    rw [mem_list_remove]
    exact ⟨⟨(hk.idle_out i hi).1, fun e => hid (by rw [hi, e])⟩, (hk.idle_out i hi).2⟩
  · intro x hx
    dsimp only at hx ⊢
    rw [status_store]
    by_cases e : x = k.current
    · subst e
      simp only [if_true]
      exact ⟨fun hm => absurd hm hout, fun hc => by cases hc⟩
    · simp only [e, if_false]
      exact hk.ready_iff x hx
  · intro x hx
    dsimp only at hx ⊢
    rw [status_store] at hx
    rw [mem_list_remove]
    by_cases e : x = k.current
    · simp only [e, if_true] at hx
      cases hx
    · simp only [e, if_false] at hx
      exact ⟨hk.blocked_live x hx, e⟩

/-- When `thread_unblock` of a thread other than the idle thread returns from a
settled state, the state is settled. -/
theorem thread_unblock_settles (k k' : kernel) (t : Nat) (hk : scheduler_inv k)
    (hid : some t ≠ k.idle_thread)
    (h : thread_unblock k t = .ok k') : scheduler_inv k' := by
  unfold thread_unblock at h
  by_cases hb : (deref k.threads t).status = THREAD_BLOCKED
  · rw [if_pos hb] at h
    injection h with h
    subst h
    have hlive := hk.blocked_live t hb
    have htout : t ∉ k.ready_list := by
      intro hm
      have := (hk.ready_iff t hid).1 hm
      rw [hb] at this
      cases this
    have htcur : t ≠ k.current := by
      intro e
      have := scheduler_inv_running k hk
      rw [← e, hb] at this
      cases this
    obtain ⟨hmem, hnd⟩ := insert_thread_ordered_mem k t
    obtain ⟨f1, _, f3, _, _⟩ := insert_thread_ordered_frame k t
    have fth := insert_thread_ordered_threads k t
    have fcur := insert_thread_ordered_current k t
    refine ⟨hnd htout hk.ready_nodup, ?_, ?_, ?_, ?_, ?_, ?_⟩
    · intro x hx
      dsimp only at hx ⊢
      rw [f1]
      rcases (hmem x).1 hx with e | e
      · rw [e]; exact hlive
      · exact hk.ready_live x e
    · dsimp only
      rw [fcur, f1]
      exact hk.current_live
    · intro x hx
      dsimp only at hx ⊢
      rw [f1] at hx
      rw [status_store, fth, fcur]
      by_cases e : x = t
      · subst e
        simp only [if_true]
        exact ⟨fun hc => (by cases hc), fun hc => absurd hc htcur⟩
      · simp only [e, if_false]
        exact hk.one_running x hx
    · intro i hi
      dsimp only at hi ⊢
      rw [f3] at hi
      rw [f1]
      refine ⟨(hk.idle_out i hi).1, fun hm => ?_⟩
      rcases (hmem i).1 hm with e | e
      · exact hid (by rw [hi, e])
      · exact (hk.idle_out i hi).2 e
    · intro x hx
      dsimp only at hx ⊢
      rw [f3] at hx
      rw [status_store, fth, hmem x]
      by_cases e : x = t
      · simp [e]
      · simp only [e, if_false, false_or]
        exact hk.ready_iff x hx
    · intro x hx
      dsimp only at hx ⊢
      rw [status_store, fth] at hx
      rw [f1]
      by_cases e : x = t
      · simp only [e, if_true] at hx
        cases hx
      · simp only [e, if_false] at hx
        exact hk.blocked_live x hx
  · rw [if_neg hb] at h
    cases h

/-- When `idle` runs for the first time in a settled state, the state stays
settled. -/
theorem idle_settles (k k' : kernel) (hk : scheduler_inv k)
    (hnone : k.idle_thread = none) (h : idle k = .ok k') : scheduler_inv k' := by
  have hrun := scheduler_inv_running k hk
  have hout := scheduler_inv_current_out k hk
  unfold idle thread_current at h
  rw [if_pos hrun] at h
  simp only [bind, Except.bind, pure, Except.pure] at h
  injection h with h
  subst h
  refine ⟨hk.ready_nodup, hk.ready_live, hk.current_live, hk.one_running, ?_, ?_, hk.blocked_live⟩
  · intro i hi
    dsimp only at hi ⊢
    injection hi with hi
    subst hi
    exact ⟨hk.current_live, hout⟩
  · intro x _
    dsimp only
    exact hk.ready_iff x (by rw [hnone]; exact fun e => by cases e)

/-- The state `thread_init` leaves is settled. -/
theorem thread_init_settles (mlfqs : Bool) (boot : Nat) (k : kernel)
    (h : thread_init mlfqs boot = .ok k) : scheduler_inv k := by
  have hr : PRI_MIN ≤ PRI_DEFAULT ∧ PRI_DEFAULT ≤ PRI_MAX := by decide
  unfold thread_init init_thread allocate_tid at h
  simp only [hr, if_true, bind, Except.bind, pure, Except.pure] at h
  injection h with h
  subst h
  have hst : ∀ x, (deref (store (store (write [] boot
      { zero_thread with status := THREAD_BLOCKED, priority := PRI_DEFAULT }) boot
      (fun r => { r with status := THREAD_RUNNING })) boot
      (fun r => { r with tid := 1, donor_list := [], is_a_donor := false, is_a_donee := false,
                         original_priority := r.priority, donor_lock := none, nice := 0,
                         recent_cpu := int_to_fixed 0 })) x).status = THREAD_RUNNING := by
    intro x
    by_cases e : x = boot
    · simp [e, deref_store, deref_write]
    · simp only [deref_store, deref_write, e, if_false]
      rfl
  refine ⟨List.nodup_nil, fun x hx => (by cases hx), (by simp), ?_,
    fun i hi => (by cases hi), ?_, ?_⟩
  · intro x hx
    simp only [List.nil_append, List.mem_singleton] at hx
    exact ⟨fun _ => hx, fun _ => hst x⟩
  · intro x _
    dsimp only
    rw [hst x]
    simp
  · intro x hx
    dsimp only at hx
    rw [hst x] at hx
    cases hx

/-- A sequenced computation that returns has a first part that returns. -/
theorem except_bind_ok {ε α β : Type} (x : Except ε α) (g : α → Except ε β) (b : β)
    (h : (x >>= g) = .ok b) : ∃ a, x = .ok a ∧ g a = .ok b := by
  cases x with
  | error e => cases h
  | ok a => exact ⟨a, rfl, h⟩

/-- The steps of a `thread_create` that returns with a page: the new record is
written as a blocked thread and appended to `all_list`, the thread is
unblocked, and the creator yields or not. -/
theorem thread_create_steps (k k' : kernel) (t : Nat) (priority tid : Int)
    (h : thread_create k (some t) priority = .ok (k', tid)) :
    ∃ k3 k4 : kernel,
      k3.ready_list = k.ready_list ∧ k3.all_list = k.all_list ++ [t] ∧
      k3.current = k.current ∧ k3.idle_thread = k.idle_thread ∧
      (∀ x, x ≠ t → deref k3.threads x = deref k.threads x) ∧
      (deref k3.threads t).status = THREAD_BLOCKED ∧
      (deref k3.threads t).donee = none ∧
      thread_unblock k3 t = .ok k4 ∧
      (k' = k4 ∨ thread_yield k4 = .ok k') := by
  unfold thread_create at h
  obtain ⟨k1, h1, h⟩ := except_bind_ok _ _ _ h
  unfold init_thread at h1
  split_ifs at h1
  injection h1 with h1
  subst h1
  unfold allocate_tid at h
  dsimp only at h
  obtain ⟨cur, h2, h⟩ := except_bind_ok _ _ _ h
  have hfin : ∀ k4 : kernel,
      (do let cur ← thread_current k4
          if (deref k4.threads t).priority > (deref k4.threads cur).priority then do
            let k5 ← thread_yield k4
            pure (k5, k.next_tid)
          else pure (k4, k.next_tid) : Except fault (kernel × Int)) = .ok (k', tid) →
      (k' = k4 ∨ thread_yield k4 = .ok k') := by
    intro k4 h
    obtain ⟨cur4, _, h⟩ := except_bind_ok _ _ _ h
    split_ifs at h
    · obtain ⟨k5, hY, h⟩ := except_bind_ok _ _ _ h
      simp only [pure, Except.pure] at h
      injection h with h
      injection h with h1 h2
      subst h1
      exact Or.inr hY
    · simp only [pure, Except.pure] at h
      injection h with h
      injection h with h1 h2
      exact Or.inl h1.symm
  split_ifs at h
  · obtain ⟨_, _, h⟩ := except_bind_ok _ _ _ h
    obtain ⟨k4, hU, h⟩ := except_bind_ok _ _ _ h
    refine ⟨_, k4, ?_, ?_, ?_, ?_, ?_, ?_, ?_, hU, hfin k4 h⟩
    · rfl
    · rfl
    · rfl
    · rfl
    · intro x hx
      dsimp only
      rw [deref_store, if_neg hx, deref_write, if_neg hx]
    · dsimp only
      rw [deref_store, if_pos rfl, deref_write, if_pos rfl]
    · dsimp only
      rw [deref_store, if_pos rfl]
  · obtain ⟨_, _, h⟩ := except_bind_ok _ _ _ h
    obtain ⟨k4, hU, h⟩ := except_bind_ok _ _ _ h
    refine ⟨_, k4, ?_, ?_, ?_, ?_, ?_, ?_, ?_, hU, hfin k4 h⟩
    · rfl
    · rfl
    · rfl
    · rfl
    · intro x hx
      dsimp only
      rw [deref_store, if_neg hx, deref_write, if_neg hx]
    · dsimp only
      rw [deref_store, if_pos rfl, deref_write, if_pos rfl]
    · dsimp only
      rw [deref_store, if_pos rfl]

/-- When `thread_create` on a page that holds no live thread returns from a
settled state, the state is settled. -/
theorem thread_create_settles (k k' : kernel) (page : Option Nat) (priority tid : Int)
    (hk : scheduler_inv k) (hfree : ∀ t, page = some t → t ∉ k.all_list)
    (h : thread_create k page priority = .ok (k', tid)) : scheduler_inv k' := by
  cases page with
  | none =>
    unfold thread_create at h
    injection h with h
    injection h with h1 _
    rw [← h1]
    exact hk
  | some t =>
    have hnew : t ∉ k.all_list := hfree t rfl
    obtain ⟨k3, k4, e1, e2, e3, e4, hth, hbl, _, hU, hfin⟩ := thread_create_steps k k' t priority tid h
    have htcur : t ≠ k.current := fun e => hnew (e ▸ hk.current_live)
    have htout : t ∉ k.ready_list := fun hm => hnew (hk.ready_live t hm)
    have hk3 : scheduler_inv k3 := by
      refine ⟨by rw [e1]; exact hk.ready_nodup, ?_, ?_, ?_, ?_, ?_, ?_⟩
      · intro x hx
        rw [e1] at hx
        rw [e2]
        exact List.mem_append_left _ (hk.ready_live x hx)
      · rw [e3, e2]
        exact List.mem_append_left _ hk.current_live
      · intro x hx
        rw [e2] at hx
        rw [e3]
        by_cases e : x = t
        · subst e
          rw [hbl]
          exact ⟨fun hc => (by cases hc), fun hc => absurd hc htcur⟩
        · rw [hth x e]
          rcases List.mem_append.mp hx with hm | hm
          · exact hk.one_running x hm
          · exact absurd (List.mem_singleton.mp hm) e
      · intro i hi
        rw [e4] at hi
        rw [e2, e1]
        exact ⟨List.mem_append_left _ (hk.idle_out i hi).1, (hk.idle_out i hi).2⟩
      · intro x hx
        rw [e4] at hx
        rw [e1]
        by_cases e : x = t
        · subst e
          rw [hbl]
          exact ⟨fun hm => absurd hm htout, fun hc => (by cases hc)⟩
        · rw [hth x e]
          exact hk.ready_iff x hx
      · intro x hx
        rw [e2]
        by_cases e : x = t
        · subst e
          exact List.mem_append_right _ (List.mem_singleton.mpr rfl)
        · rw [hth x e] at hx
          exact List.mem_append_left _ (hk.blocked_live x hx)
    have hidle : some t ≠ k3.idle_thread := by
      rw [e4]
      intro e
      exact hnew (hk.idle_out t e.symm).1
    have hk4 := thread_unblock_settles k3 k4 t hk3 hidle hU
    rcases hfin with e | hY
    · rw [e]; exact hk4
    · exact thread_yield_settles k4 k' hk4 hY

/-- Every reachable state is settled. -/
theorem reachable_settled (k : kernel) (h : reachable k) : scheduler_inv k := by
  induction h with
  | init mlfqs boot k h => exact thread_init_settles mlfqs boot k h
  | create k k' page priority tid _ hfree h ih =>
    exact thread_create_settles k k' page priority tid ih hfree h
  | block k k' _ h ih => exact thread_block_settles k k' ih h
  | unblock k k' t _ hid h ih => exact thread_unblock_settles k k' t ih hid h
  | yield k k' _ h ih => exact thread_yield_settles k k' ih h
  | exit k k' _ hid h ih => exact thread_exit_settles k k' ih hid h
  | idle k k' _ hnone h ih => exact idle_settles k k' ih hnone h

/-- C22 (amended): in every state reachable from `thread_init` through
`thread_create`, `thread_block`, `thread_unblock`, `thread_yield` (a yield by
the idle thread included), `thread_exit` and the `schedule` they call, a thread
other than the idle thread is an element of the ready queue if and only if its
status is `THREAD_READY`; the idle thread, once recorded in `idle_thread`, is
never in the ready queue; and no thread is queued twice. -/
theorem ready_queue_holds_the_ready_threads (k : kernel) (h : reachable k) :
    (∀ x, some x ≠ k.idle_thread →
      (x ∈ k.ready_list ↔ (deref k.threads x).status = THREAD_READY)) ∧
    (∀ i, k.idle_thread = some i → i ∉ k.ready_list) ∧
    k.ready_list.Nodup :=
  ⟨(reachable_settled k h).ready_iff, fun i hi => ((reachable_settled k h).idle_out i hi).2,
    (reachable_settled k h).ready_nodup⟩

/-- C23: in every state reachable from `thread_init` through `thread_create`,
`thread_block`, `thread_unblock`, `thread_yield` and `thread_exit`, observed
after each operation's `schedule` and `thread_schedule_tail` have completed,
exactly one live thread has status `THREAD_RUNNING`, the running thread; and
whenever `schedule` returns, the thread it made current and marked running is
the one `next_thread_to_run` selected: the popped front of the ready queue, or
the idle thread when the queue was empty. -/
theorem exactly_one_running (k : kernel) (h : reachable k) :
    k.current ∈ k.all_list ∧
    (∀ x ∈ k.all_list, ((deref k.threads x).status = THREAD_RUNNING ↔ x = k.current)) ∧
    (∀ k0 k1 : kernel, schedule k0 = .ok k1 →
      (next_thread_to_run k0).1 = some k1.current ∧
      (deref k1.threads k1.current).status = THREAD_RUNNING ∧
      (∀ n rest, k0.ready_list = n :: rest → k1.current = n ∧ k1.ready_list = rest) ∧
      (k0.ready_list = [] → k0.idle_thread = some k1.current)) := by
  refine ⟨(reachable_settled k h).current_live, (reachable_settled k h).one_running, ?_⟩
  intro k0 k1 hs
  obtain ⟨_, n, hn, hcur, hth, _, _⟩ := schedule_spec k0 k1 hs
  refine ⟨?_, ?_, ?_, ?_⟩
  · unfold next_thread_to_run
    rcases hn with hn | ⟨hn, _, hi⟩
    · rw [hn, hcur]
    · rw [hn, hcur]; exact hi
  · rw [hth, hcur, if_pos rfl]
  · intro m rest hl
    rcases hn with hn | ⟨hn, _, _⟩
    · rw [hl] at hn
      injection hn with a b
      exact ⟨by rw [hcur, a], b.symm⟩
    · rw [hl] at hn; cases hn
  · intro hl
    rcases hn with hn | ⟨_, _, hi⟩
    · rw [hl] at hn; cases hn
    · rw [hcur]; exact hi

/-! ## The thread chosen after a yield -/

/-- C24: for every sorted ready queue, when a running thread other than the idle
thread yields, `thread_yield` returns and the thread chosen is the front of the
ready queue after the yielding thread has been inserted behind every entry of
priority at least its own: its priority is at least that of every thread left in
the queue, and the yielding thread is chosen again exactly when its priority is
strictly greater than that of every other ready thread; with an empty ready
queue `next_thread_to_run` chooses the idle thread. -/
theorem yield_runs_front_of_queue (k : kernel)
    (hrun : (deref k.threads k.current).status = THREAD_RUNNING)
    (hid : some k.current ≠ k.idle_thread)
    (hout : k.current ∉ k.ready_list)
    (hs : sorted_desc k.threads k.ready_list) :
    ∃ k' pre post, thread_yield k = .ok k' ∧ k.ready_list = pre ++ post ∧
      (∀ x ∈ pre, (deref k.threads x).priority ≥ (deref k.threads k.current).priority) ∧
      (∀ x ∈ post, (deref k.threads x).priority < (deref k.threads k.current).priority) ∧
      k'.current :: k'.ready_list = pre ++ k.current :: post ∧
      (deref k'.threads k'.current).status = THREAD_RUNNING ∧
      (∀ x, (deref k'.threads x).priority = (deref k.threads x).priority) ∧
      (∀ x ∈ k'.ready_list,
        (deref k'.threads x).priority ≤ (deref k'.threads k'.current).priority) ∧
      (k'.current = k.current ↔
        ∀ x ∈ k.ready_list, (deref k.threads x).priority < (deref k.threads k.current).priority) ∧
      (∀ k0 : kernel, k0.ready_list = [] → (next_thread_to_run k0).1 = k0.idle_thread) := by
  obtain ⟨pre, post, hl, hins, hpre, hhead, hth, hcur⟩ := insert_thread_ordered_split k k.current
  have hpost : ∀ x ∈ post,
      (deref k.threads x).priority < (deref k.threads k.current).priority := by
    apply sorted_tail_below
    · have : sorted_desc k.threads (pre ++ post) := hl ▸ hs
      unfold sorted_desc at this ⊢
      exact (List.pairwise_append.mp this).2.1
    · exact hhead
  have hsorted : sorted_desc k.threads (pre ++ k.current :: post) :=
    sorted_insert k.threads k.current pre post (hl ▸ hs) hpre hpost
  obtain ⟨k', hk', hf⟩ := schedule_returns
    { insert_thread_ordered k k.current with
      threads := (store (insert_thread_ordered k k.current).threads k.current
        (fun r => { r with status := THREAD_READY })) }
    (by simp [deref_store, insert_thread_ordered_current])
    (Or.inl (insert_thread_ordered_nonempty k k.current))
  obtain ⟨_, n, hn, hc, hrec, _, _⟩ := schedule_spec _ k' hk'
  have hprio : ∀ x, (deref k'.threads x).priority = (deref k.threads x).priority := by
    intro x
    rw [(forget_status_priority _ _ (hf x)).1]
    dsimp only
    rw [deref_store, hth]
    split_ifs with e
    · rw [e]
    · rfl
  have hlist : k'.current :: k'.ready_list = pre ++ k.current :: post := by
    rcases hn with hn | ⟨hn, _, _⟩
    · dsimp only at hn
      rw [hc, ← hn, hins]
    · dsimp only at hn
      rw [hins] at hn
      cases pre <;> cases hn
  refine ⟨k', pre, post, ?_, hl, hpre, hpost, hlist, ?_, hprio, ?_, ?_, ?_⟩
  · unfold thread_yield thread_current
    simp only [hrun, if_true, bind, Except.bind]
    rw [if_pos hid]
    exact hk'
  · rw [hrec, hc, if_pos rfl]
  · intro x hx
    rw [hprio, hprio]
    have hp : sorted_desc k.threads (k'.current :: k'.ready_list) := hlist ▸ hsorted
    unfold sorted_desc at hp
    exact (List.pairwise_cons.mp hp).1 x hx
  · constructor
    · intro e
      cases pre with
      | nil =>
        intro x hx
        rw [hl] at hx
        exact hpost x hx
      | cons a rest =>
        exfalso
        rw [List.cons_append] at hlist
        injection hlist with h1 _
        apply hout
        rw [hl, ← e, h1]
        exact List.mem_append_left _ (List.mem_cons_self _ _)
    · intro hall
      cases pre with
      | nil =>
        rw [List.nil_append] at hlist
        injection hlist with h1 _
      | cons a rest =>
        exfalso
        have h1 := hpre a (List.mem_cons_self _ _)
        have h2 := hall a (by rw [hl]; exact List.mem_append_left _ (List.mem_cons_self _ _))
        omega
  · intro k0 h0
    unfold next_thread_to_run
    rw [h0]

/-! ## Waking sleeping threads -/

/-- On 64-bit tick counts with the start not after `now` and an interval below
`2^63`, `sleep_time_elapsed` returns and compares `now - start` with the
interval. -/
theorem sleep_time_elapsed_eq (a : alarm) (now : Nat) (hnow : now < 2 ^ 64)
    (hstart : a.start_sleep_tick ≤ now) (hticks : a.amount_ticks_to_sleep < 2 ^ 63) :
    sleep_time_elapsed a now = .ok (decide (alarm_due now a)) := by
  have e1 : to_uint64 (to_int64 a.start_sleep_tick) = a.start_sleep_tick := by
    unfold to_uint64 to_int64
    norm_num at hnow ⊢
    omega
  have e2 : to_int64 a.amount_ticks_to_sleep = a.amount_ticks_to_sleep := by
    unfold to_int64
    norm_num at hticks ⊢
    omega
  have e3 : to_uint64 ((now : Int) - to_int64 a.start_sleep_tick)
      = now - a.start_sleep_tick := by
    unfold to_uint64 to_int64
    norm_num at hnow ⊢
    omega
  have e4 : to_uint64 (a.amount_ticks_to_sleep : Int) = a.amount_ticks_to_sleep := by
    unfold to_uint64
    norm_num at hticks ⊢
    omega
  unfold sleep_time_elapsed alarm_due
  simp only [e1, e2, e3, e4]
  rw [if_neg (by omega), if_neg (by omega)]

/-- What `thread_unblock` of a blocked thread does to a sorted ready queue. -/
theorem thread_unblock_sorted (k : kernel) (t : Nat)
    (hb : (deref k.threads t).status = THREAD_BLOCKED)
    (hs : sorted_desc k.threads k.ready_list) :
    ∃ k', thread_unblock k t = .ok k' ∧
      sorted_desc k'.threads k'.ready_list ∧
      (deref k'.threads t).status = THREAD_READY ∧
      (∀ x, x ∈ k'.ready_list ↔ x = t ∨ x ∈ k.ready_list) ∧
      (∀ x, (deref k'.threads x).priority = (deref k.threads x).priority) ∧
      (∀ x, x ≠ t → deref k'.threads x = deref k.threads x) ∧
      k'.current = k.current := by
  obtain ⟨pre, post, hl, hins, hpre, hhead, hth, hcur⟩ := insert_thread_ordered_split k t
  have hpost : ∀ x ∈ post, (deref k.threads x).priority < (deref k.threads t).priority := by
    apply sorted_tail_below
    · have : sorted_desc k.threads (pre ++ post) := hl ▸ hs
      unfold sorted_desc at this ⊢
      exact (List.pairwise_append.mp this).2.1
    · exact hhead
  have hprio : ∀ x, (deref (store (insert_thread_ordered k t).threads t
      (fun r => { r with status := THREAD_READY })) x).priority = (deref k.threads x).priority := by
    intro x
    rw [deref_store, hth]
    by_cases hx : x = t
    · simp [hx]
    · simp [hx]
  refine ⟨{ insert_thread_ordered k t with
      threads := (store (insert_thread_ordered k t).threads t
        (fun r => { r with status := THREAD_READY })) }, ?_, ?_, ?_, ?_, hprio, ?_, hcur⟩
  · simp [thread_unblock, hb]
  · have h1 : sorted_desc k.threads (pre ++ t :: post) :=
      sorted_insert k.threads t pre post (hl ▸ hs) hpre hpost
    show sorted_desc _ (insert_thread_ordered k t).ready_list
    rw [hins]
    unfold sorted_desc at h1 ⊢
    refine h1.imp ?_
    intro a b hab
    rw [hprio a, hprio b]
    exact hab
  · dsimp only
    rw [deref_store]
    simp
  · exact (insert_thread_ordered_mem k t).1
  · intro x hx
    dsimp only
    rw [deref_store, hth]
    simp [hx]

/-- One iteration of the loop of `alarm_check_sleeping_list`. -/
theorem check_sleeping_loop_cons (now : Nat) (a : alarm) (rest : List alarm) (k : kernel) :
    check_sleeping_loop now (a :: rest) k =
      (sleep_time_elapsed a now >>= fun elapsed =>
        if elapsed = true then wake_thread k a >>= fun k1 => check_sleeping_loop now rest k1
        else check_sleeping_loop now rest k >>= fun r => pure (a :: r.1, r.2)) := rfl

/-- The loop of `alarm_check_sleeping_list` returns; it keeps the alarms that
are not due, in order, and unblocks the thread of every alarm that is due. -/
theorem check_sleeping_loop_spec (now : Nat) (hnow : now < 2 ^ 64) :
    ∀ (sl : List alarm) (k : kernel),
      (∀ a ∈ sl, a.start_sleep_tick ≤ now) →
      (∀ a ∈ sl, a.amount_ticks_to_sleep < 2 ^ 63) →
      (∀ a ∈ sl, alarm_due now a → (deref k.threads a.sleeping_thread).status = THREAD_BLOCKED) →
      ((sl.filter (fun a => decide (alarm_due now a))).map alarm.sleeping_thread).Nodup →
      sorted_desc k.threads k.ready_list →
      ∃ k', check_sleeping_loop now sl k
          = .ok (sl.filter (fun a => decide (¬ alarm_due now a)), k') ∧
        sorted_desc k'.threads k'.ready_list ∧
        (∀ a ∈ sl, alarm_due now a →
          (deref k'.threads a.sleeping_thread).status = THREAD_READY ∧
          a.sleeping_thread ∈ k'.ready_list) ∧
        (∀ x, (∀ a ∈ sl, alarm_due now a → a.sleeping_thread ≠ x) →
          deref k'.threads x = deref k.threads x ∧ (x ∈ k'.ready_list ↔ x ∈ k.ready_list)) ∧
        (∀ x ∈ k.ready_list, x ∈ k'.ready_list) ∧
        (∀ x, (deref k'.threads x).priority = (deref k.threads x).priority) ∧
        k'.current = k.current := by
  intro sl
  induction sl with
  | nil =>
    intro k _ _ _ _ hs
    exact ⟨k, rfl, hs, fun a ha => (by cases ha), fun x _ => ⟨rfl, Iff.rfl⟩, fun x hx => hx,
      fun x => rfl, rfl⟩
  | cons a rest ih =>
    intro k hstart hticks hblocked hnodup hs
    have hel := sleep_time_elapsed_eq a now hnow (hstart a (List.mem_cons_self _ _))
      (hticks a (List.mem_cons_self _ _))
    have hstart' : ∀ b ∈ rest, b.start_sleep_tick ≤ now :=
      fun b hb => hstart b (List.mem_cons_of_mem _ hb)
    have hticks' : ∀ b ∈ rest, b.amount_ticks_to_sleep < 2 ^ 63 :=
      fun b hb => hticks b (List.mem_cons_of_mem _ hb)
    by_cases hdue : alarm_due now a
    · have hbl := hblocked a (List.mem_cons_self _ _) hdue
      rw [List.filter_cons_of_pos (by simpa using hdue), List.map_cons, List.nodup_cons]
        at hnodup
      obtain ⟨hfresh, hnodup'⟩ := hnodup
      have hother : ∀ b ∈ rest, alarm_due now b → b.sleeping_thread ≠ a.sleeping_thread := by
        intro b hb hbd e
        apply hfresh
        rw [← e]
        exact List.mem_map_of_mem _ (List.mem_filter.mpr ⟨hb, by simpa using hbd⟩)
      obtain ⟨k1, hk1, hs1, hst1, hmem1, hprio1, hfr1, hcur1⟩ :=
        thread_unblock_sorted k a.sleeping_thread hbl hs
      obtain ⟨k', hk', hs', hwoken, hframe, hmono, hprio', hcur'⟩ := ih k1 hstart' hticks'
        (fun b hb hbd => by
          rw [hfr1 _ (hother b hb hbd)]
          exact hblocked b (List.mem_cons_of_mem _ hb) hbd)
        hnodup' hs1
      refine ⟨k', ?_, hs', ?_, ?_, ?_, ?_, by rw [hcur', hcur1]⟩
      · rw [check_sleeping_loop_cons, hel]
        simp only [bind, Except.bind, hdue, decide_True, if_true]
        unfold wake_thread
        rw [if_pos hbl, hk1]
        dsimp only
        rw [hk', List.filter_cons_of_neg (by simpa using hdue)]
      · intro b hb hbd
        rcases List.mem_cons.mp hb with e | e
        · subst e
          have := hframe b.sleeping_thread (fun c hc hcd => hother c hc hcd)
          rw [this.1]
          exact ⟨hst1, this.2.2 ((hmem1 _).2 (Or.inl rfl))⟩
        · exact hwoken b e hbd
      · intro x hx
        have hxa : x ≠ a.sleeping_thread := fun e => hx a (List.mem_cons_self _ _) hdue e.symm
        have := hframe x (fun c hc hcd => hx c (List.mem_cons_of_mem _ hc) hcd)
        rw [this.1, hfr1 x hxa, this.2, hmem1 x]
        exact ⟨rfl, ⟨fun h => h.resolve_left hxa, Or.inr⟩⟩
      · intro x hx
        exact hmono x ((hmem1 x).2 (Or.inr hx))
      · intro x
        rw [hprio', hprio1]
    · obtain ⟨k', hk', hs', hwoken, hframe, hmono, hprio', hcur'⟩ := ih k hstart' hticks'
        (fun b hb hbd => hblocked b (List.mem_cons_of_mem _ hb) hbd)
        (by rw [List.filter_cons_of_neg (by simpa using hdue)] at hnodup; exact hnodup) hs
      refine ⟨k', ?_, hs', ?_, ?_, hmono, hprio', hcur'⟩
      · rw [check_sleeping_loop_cons, hel]
        simp only [bind, Except.bind, hdue, decide_False, if_false, Bool.false_eq_true]
        rw [hk', List.filter_cons_of_pos (by simpa using hdue)]
        rfl
      · intro b hb hbd
        rcases List.mem_cons.mp hb with e | e
        · subst e; exact absurd hbd hdue
        · exact hwoken b e hbd
      · intro x hx
        exact hframe x (fun c hc hcd => hx c (List.mem_cons_of_mem _ hc) hcd)

/-- What `alarm_check_sleeping_list` does on a sleeping list that `list_init`
has set up, which the list of `alarm.c` never is. For every tick `now > 0` that
is not before the start tick of any alarm in it (64-bit ticks, intervals below
`2^63`, the threads of the due alarms blocked and distinct, the ready queue
sorted) the call returns; afterwards the list holds exactly the alarms with
`now - start < ticks`, in their previous order, and the thread of every alarm
with `now - start ≥ ticks` is unblocked: its status is `THREAD_READY` and it is
in the ready queue, which is still sorted by priority. No other record changes
and no priority changes. -/
theorem check_sleeping_wakes_due_alarms (sl : List alarm) (k : kernel) (now : Nat)
    (hpos : 0 < now) (hnow : now < 2 ^ 64)
    (hstart : ∀ a ∈ sl, a.start_sleep_tick ≤ now)
    (hticks : ∀ a ∈ sl, a.amount_ticks_to_sleep < 2 ^ 63)
    (hblocked : ∀ a ∈ sl, now - a.start_sleep_tick ≥ a.amount_ticks_to_sleep →
      (deref k.threads a.sleeping_thread).status = THREAD_BLOCKED)
    (hnodup : ((sl.filter (fun a => decide (now - a.start_sleep_tick ≥ a.amount_ticks_to_sleep))).map
      alarm.sleeping_thread).Nodup)
    (hs : sorted_desc k.threads k.ready_list) :
    ∃ k', alarm_check_sleeping_list (alarm_list.linked sl) k now
        = .ok (alarm_list.linked (sl.filter
            (fun a => decide (now - a.start_sleep_tick < a.amount_ticks_to_sleep))), k') ∧
      (∀ a ∈ sl, now - a.start_sleep_tick ≥ a.amount_ticks_to_sleep →
        (deref k'.threads a.sleeping_thread).status = THREAD_READY ∧
        a.sleeping_thread ∈ k'.ready_list) ∧
      sorted_desc k'.threads k'.ready_list ∧
      (∀ x, (∀ a ∈ sl, now - a.start_sleep_tick ≥ a.amount_ticks_to_sleep →
          a.sleeping_thread ≠ x) →
        deref k'.threads x = deref k.threads x ∧ (x ∈ k'.ready_list ↔ x ∈ k.ready_list)) ∧
      (∀ x ∈ k.ready_list, x ∈ k'.ready_list) ∧
      (∀ x, (deref k'.threads x).priority = (deref k.threads x).priority) ∧
      k'.current = k.current := by
  obtain ⟨k', hk', hs', hwoken, hframe, hmono, hprio, hcur⟩ :=
    check_sleeping_loop_spec now hnow sl k hstart hticks hblocked hnodup hs
  refine ⟨k', ?_, hwoken, hs', hframe, hmono, hprio, hcur⟩
  unfold alarm_check_sleeping_list
  rw [if_pos hpos]
  simp only [hk', bind, Except.bind, pure, Except.pure]
  congr 3
  apply List.filter_congr
  intro a _
  unfold alarm_due
  simp

/-! ## The donation graph and the nested walk -/

/-- Records that agree up to `priority` have the same donation links and flags. -/
theorem forget_priority_links (a b : thread) (h : forget_priority a = forget_priority b) :
    a.donee = b.donee ∧ a.is_a_donor = b.is_a_donor ∧ a.is_a_donee = b.is_a_donee := by
  cases a
  cases b
  simp only [forget_priority, thread.mk.injEq] at h
  simp only
  tauto

/-- A donee chain starts with its first thread. -/
theorem donee_chain_head (th : memory) (n x : Nat) :
    ∃ l, donee_chain th n x = x :: l := by
  cases n with
  | zero => exact ⟨[], rfl⟩
  | succ n =>
    unfold donee_chain
    cases (deref th x).donee with
    | none => exact ⟨[], rfl⟩
    | some d => exact ⟨_, rfl⟩

/-- The nested walk along a donee chain that ends within `n` links: with
`n + 1` units of fuel it ends on its own, after at most `n` iterations that
reach a thread; these threads are the next ones on the chain, every iteration
but the last raises its thread from a priority below the donor's to the donor's,
and with consistent flags the walk returns. `th0` fixes the links, `th` may
differ from it in priorities. -/
theorem donate_walk_bounded (th0 : memory) (donor : Nat) (P : Int) :
    ∀ (n nd : Nat) (th : memory) (fuel : Nat),
      chain_closed th0 n nd →
      (∀ x, forget_priority (deref th x) = forget_priority (deref th0 x)) →
      (deref th donor).priority = P →
      n + 1 ≤ fuel →
      (donate_walk_traced fuel donor nd th).1 = donate_walk fuel donor nd th ∧
      donate_walk fuel donor nd th ≠ .error fault.out_of_fuel ∧
      (donate_walk_traced fuel donor nd th).2.length ≤ n ∧
      ((donate_walk_traced fuel donor nd th).2.map Prod.fst) <+: (donee_chain th0 n nd).tail ∧
      (∀ e ∈ (donate_walk_traced fuel donor nd th).2.dropLast, e.2 = true) ∧
      (∀ x, (x, true) ∈ (donate_walk_traced fuel donor nd th).2 →
        (deref th x).priority < P ∧
        ∀ th', donate_walk fuel donor nd th = .ok th' → (deref th' x).priority = P) ∧
      (links_consistent th0 → ∃ th', donate_walk fuel donor nd th = .ok th') := by
  intro n
  induction n with
  | zero =>
    intro nd th fuel hc hsh hP hf
    obtain ⟨f, rfl⟩ : ∃ f, fuel = f + 1 := ⟨fuel - 1, by omega⟩
    have hl := forget_priority_links _ _ (hsh nd)
    have hdn : (deref th nd).donee = none := by rw [hl.1]; exact hc
    obtain ⟨_, s2, _⟩ := donate_walk_stop f donor nd th
    have s1 := (donate_walk_stop (f + 1) donor nd th).1
    by_cases hd : (deref th nd).is_a_donor = true
    · obtain ⟨e1, e2⟩ := s2 hd hdn
      rw [e1, e2]
      refine ⟨rfl, fun h => (by cases h), by simp, by simp, by simp, by simp, ?_⟩
      intro hcons
      rw [hl.2.1] at hd
      obtain ⟨d, hd', _⟩ := (hcons nd).1 hd
      have : (deref th0 nd).donee = none := hc
      rw [this] at hd'
      cases hd'
    · obtain ⟨e1, e2⟩ := s1 hd
      rw [e1, e2]
      exact ⟨rfl, fun h => (by cases h), by simp, by simp, by simp, by simp, fun _ => ⟨th, rfl⟩⟩
  | succ n ih =>
    intro nd th fuel hc hsh hP hf
    obtain ⟨f, rfl⟩ : ∃ f, fuel = f + 1 := ⟨fuel - 1, by omega⟩
    have hl := forget_priority_links _ _ (hsh nd)
    obtain ⟨_, s2, s3, s4, s5⟩ := donate_walk_stop f donor nd th
    have s1 := (donate_walk_stop (f + 1) donor nd th).1
    by_cases hd : (deref th nd).is_a_donor = true
    · cases hne : (deref th nd).donee with
      | none =>
        obtain ⟨e1, e2⟩ := s2 hd hne
        rw [e1, e2]
        refine ⟨rfl, fun h => (by cases h), by simp, by simp, by simp, by simp, ?_⟩
        intro hcons
        rw [hl.2.1] at hd
        obtain ⟨d, hd', _⟩ := (hcons nd).1 hd
        rw [← hl.1, hne] at hd'
        cases hd'
      | some ne =>
        have hne0 : (deref th0 nd).donee = some ne := by rw [← hl.1]; exact hne
        have hchain : donee_chain th0 (n + 1) nd = nd :: donee_chain th0 n ne := by
          rw [donee_chain]
          simp only [hne0]
        have hc' : chain_closed th0 n ne := by
          rw [chain_closed] at hc
          simp only [hne0] at hc
          exact hc
        obtain ⟨tl, htl⟩ := donee_chain_head th0 n ne
        have hpre1 : ∀ b : Bool, [(ne, b)].map Prod.fst <+: (donee_chain th0 (n + 1) nd).tail := by
          intro b
          rw [hchain, List.tail_cons, htl]
          exact ⟨tl, rfl⟩
        have hle := forget_priority_links _ _ (hsh ne)
        by_cases hfl : (deref th ne).is_a_donee = true
        · by_cases hgt : (deref th donor).priority > (deref th ne).priority
          · have hdn : donor ≠ ne := by
              intro e; rw [e] at hgt; exact lt_irrefl _ hgt
            have hlt : (deref th ne).priority < P := by rw [← hP]; exact hgt
            have hnew : (deref (store th ne
                (fun r => { r with priority := (deref th donor).priority })) ne).priority = P := by
              rw [deref_store, if_pos rfl]; exact hP
            by_cases hd2 : (deref th ne).is_a_donor = true
            · obtain ⟨e1, e2⟩ := donate_walk_step f donor nd ne th hd hne hfl hgt hd2
              have hsh1 : ∀ x, forget_priority (deref (store th ne
                  (fun r => { r with priority := (deref th donor).priority })) x)
                  = forget_priority (deref th0 x) := by
                intro x
                rw [forget_priority_store]
                exact hsh x
              have hP1 : (deref (store th ne
                  (fun r => { r with priority := (deref th donor).priority })) donor).priority
                  = P := by
                rw [deref_store, if_neg hdn]; exact hP
              obtain ⟨i1, i2, i3, i4, i5, i6, i7⟩ := ih ne _ f hc' hsh1 hP1 (by omega)
              rw [e1, e2]
              dsimp only
              refine ⟨i1, i2, by simp only [List.length_cons]; omega, ?_, ?_, ?_, i7⟩
              · rw [hchain, List.tail_cons, htl, List.map_cons]
                rw [htl, List.tail_cons] at i4
                exact (List.prefix_cons_inj ne).2 i4
              · intro e he
                cases hT : (donate_walk_traced f donor ne (store th ne
                    (fun r => { r with priority := (deref th donor).priority }))).2 with
                | nil => rw [hT] at he; simp at he
                | cons a rest =>
                  rw [hT, List.dropLast_cons₂] at he
                  rcases List.mem_cons.mp he with h | h
                  · rw [h]
                  · apply i5
                    rw [hT]
                    exact h
              · intro x hx
                rcases List.mem_cons.mp hx with h | h
                · injection h with h _
                  subst h
                  refine ⟨hlt, fun th' hw => ?_⟩
                  have := (donate_walk_frame donor f x _ th' hw x).2 (by rw [hP1, hnew])
                  rw [this, hnew]
                · obtain ⟨j1, j2⟩ := i6 x h
                  refine ⟨?_, j2⟩
                  by_cases hx : x = ne
                  · rw [hx, hnew] at j1
                    exact absurd j1 (lt_irrefl _)
                  · rw [deref_store, if_neg hx] at j1
                    exact j1
            · obtain ⟨t1, t2⟩ := s5 ne hd hne hfl hgt hd2
              by_cases hn : (deref th ne).donee = none
              · obtain ⟨e1, e2⟩ := t1 hn
                rw [e1, e2]
                refine ⟨rfl, fun h => (by cases h), by simp, hpre1 true, by simp, ?_,
                  fun _ => ⟨_, rfl⟩⟩
                intro x hx
                simp only [List.mem_singleton, Prod.mk.injEq, and_true] at hx
                subst hx
                refine ⟨hlt, fun th' hw => ?_⟩
                injection hw with hw
                rw [← hw, hnew]
              · obtain ⟨e1, e2⟩ := t2 hn
                rw [e1, e2]
                refine ⟨rfl, fun h => (by cases h), by simp, hpre1 true, by simp, ?_, ?_⟩
                · intro x hx
                  simp only [List.mem_singleton, Prod.mk.injEq, and_true] at hx
                  subst hx
                  exact ⟨hlt, fun th' hw => (by cases hw)⟩
                · intro hcons
                  exfalso
                  apply hn
                  rw [hle.1]
                  apply (hcons ne).2
                  rw [← hle.2.1]
                  simpa using hd2
          · obtain ⟨e1, e2⟩ := s4 ne hd hne hfl hgt
            rw [e1, e2]
            refine ⟨rfl, fun h => (by cases h), by simp, hpre1 false, by simp, ?_,
              fun _ => ⟨_, rfl⟩⟩
            intro x hx
            simp at hx
        · obtain ⟨e1, e2⟩ := s3 ne hd hne hfl
          rw [e1, e2]
          refine ⟨rfl, fun h => (by cases h), by simp, hpre1 false, by simp, ?_, ?_⟩
          · intro x hx
            simp at hx
          · intro hcons
            exfalso
            rw [hl.2.1] at hd
            obtain ⟨d, hd', hfd⟩ := (hcons nd).1 hd
            rw [hne0] at hd'
            injection hd' with hd'
            subst hd'
            apply hfl
            rw [hle.2.2]
            exact hfd
    · obtain ⟨e1, e2⟩ := s1 hd
      rw [e1, e2]
      exact ⟨rfl, fun h => (by cases h), by simp, by simp, by simp, by simp, fun _ => ⟨th, rfl⟩⟩

/-- Only a page that was written can hold a donee link. -/
theorem donee_in_table (th : memory) (y : Nat) (h : (deref th y).donee ≠ none) :
    y ∈ th.map Prod.fst := by
  induction th with
  | nil => exact absurd rfl h
  | cons p rest ih =>
    obtain ⟨a, r⟩ := p
    rw [deref] at h
    by_cases e : a = y
    · rw [List.map_cons, e]
      exact List.mem_cons_self _ _
    · rw [if_neg e] at h
      exact List.mem_cons_of_mem _ (ih h)

/-- A donee chain that does not end within `n` links passes `n + 1` threads
that all have a donee; without cycles they are distinct. -/
theorem open_chain_threads (th : memory) :
    ∀ (n x : Nat), ¬ chain_closed th n x →
      ∃ l : List Nat, l.length = n + 1 ∧
        (∀ y ∈ l, (deref th y).donee ≠ none ∧ Relation.ReflTransGen (donee_link th) x y) ∧
        (acyclic th → l.Nodup) := by
  intro n
  induction n with
  | zero =>
    intro x h
    refine ⟨[x], rfl, ?_, fun _ => List.nodup_singleton x⟩
    intro y hy
    rw [List.mem_singleton] at hy
    subst hy
    exact ⟨h, Relation.ReflTransGen.refl⟩
  | succ n ih =>
    intro x h
    rw [chain_closed] at h
    cases hd : (deref th x).donee with
    | none => simp only [hd, not_true_eq_false] at h
    | some d =>
      simp only [hd] at h
      obtain ⟨l, hlen, hall, hnd⟩ := ih d h
      refine ⟨x :: l, by simp [hlen], ?_, ?_⟩
      · intro y hy
        rcases List.mem_cons.mp hy with e | e
        · subst e
          exact ⟨by rw [hd]; exact fun c => (by cases c), Relation.ReflTransGen.refl⟩
        · exact ⟨(hall y e).1, Relation.ReflTransGen.head hd (hall y e).2⟩
      · intro hac
        refine List.nodup_cons.mpr ⟨?_, hnd hac⟩
        intro hm
        exact hac x (Relation.TransGen.head' hd (hall x hm).2)

/-- Without cycles every donee chain ends within as many links as pages were
written. -/
theorem acyclic_chain_closed (th : memory) (hac : acyclic th) (x : Nat) :
    chain_closed th th.length x := by
  by_contra h
  obtain ⟨l, hlen, hall, hnd⟩ := open_chain_threads th th.length x h
  have hsub : l ⊆ th.map Prod.fst := fun y hy => donee_in_table th y (hall y hy).1
  have := (List.subperm_of_subset (hnd hac) hsub).length_le
  rw [hlen, List.length_map] at this
  omega

/-- A chain that ends within `n` links is the chain cut at its own number of
links. -/
theorem chain_closed_tight (th : memory) :
    ∀ (n x : Nat), chain_closed th n x →
      chain_closed th ((donee_chain th n x).length - 1) x ∧
      donee_chain th ((donee_chain th n x).length - 1) x = donee_chain th n x := by
  intro n
  induction n with
  | zero =>
    intro x h
    exact ⟨h, rfl⟩
  | succ n ih =>
    intro x h
    rw [chain_closed] at h
    cases hd : (deref th x).donee with
    | none =>
      have e : donee_chain th (n + 1) x = [x] := by rw [donee_chain]; simp only [hd]
      rw [e]
      refine ⟨?_, ?_⟩
      · show chain_closed th 0 x
        exact hd
      · rfl
    | some d =>
      simp only [hd] at h
      obtain ⟨i1, i2⟩ := ih d h
      obtain ⟨tl, htl⟩ := donee_chain_head th n d
      have e : donee_chain th (n + 1) x = x :: donee_chain th n d := by
        rw [donee_chain]; simp only [hd]
      have elen : (donee_chain th (n + 1) x).length - 1
          = ((donee_chain th n d).length - 1) + 1 := by
        rw [e, htl]; simp
      rw [elen]
      refine ⟨?_, ?_⟩
      · rw [chain_closed]
        simp only [hd]
        exact i1
      · rw [donee_chain]
        simp only [hd]
        rw [i2, e]

/-- The last thread of a chain that ends has no donee. -/
theorem chain_closed_last (th : memory) :
    ∀ (n x : Nat), chain_closed th n x →
      ∀ y, (donee_chain th n x).getLast? = some y → (deref th y).donee = none := by
  intro n
  induction n with
  | zero =>
    intro x h y hy
    simp only [donee_chain, List.getLast?_singleton, Option.some.injEq] at hy
    subst hy
    exact h
  | succ n ih =>
    intro x h y hy
    rw [chain_closed] at h
    rw [donee_chain] at hy
    cases hd : (deref th x).donee with
    | none =>
      simp only [hd, List.getLast?_singleton, Option.some.injEq] at hy
      subst hy
      exact hd
    | some d =>
      simp only [hd] at h hy
      obtain ⟨tl, htl⟩ := donee_chain_head th n d
      rw [htl, List.getLast?_cons_cons, ← htl] at hy
      exact ih d h y hy

/-- C27: for every table of threads whose donee links form an acyclic graph, the
chain from `donee` ends (its last thread has no donee), and with as much fuel as
there are threads on that chain the nested walk of `thread_donate_priority` ends
on its own: it does not run out of fuel, it reaches fewer threads than the chain
has, these are the next threads on the chain in order, every iteration but the
last raises its thread from a priority strictly below the caller's to the
caller's, and with consistent donation flags the walk returns. -/
theorem donate_walk_terminates (th : memory) (donor donee : Nat) (hac : acyclic th)
    (fuel : Nat) (hfuel : (donee_chain th th.length donee).length ≤ fuel) :
    (∀ y, (donee_chain th th.length donee).getLast? = some y → (deref th y).donee = none) ∧
    (donate_walk_traced fuel donor donee th).1 = donate_walk fuel donor donee th ∧
    donate_walk fuel donor donee th ≠ .error fault.out_of_fuel ∧
    (donate_walk_traced fuel donor donee th).2.length + 1
      ≤ (donee_chain th th.length donee).length ∧
    ((donate_walk_traced fuel donor donee th).2.map Prod.fst)
      <+: (donee_chain th th.length donee).tail ∧
    (∀ e ∈ (donate_walk_traced fuel donor donee th).2.dropLast, e.2 = true) ∧
    (∀ x, (x, true) ∈ (donate_walk_traced fuel donor donee th).2 →
      (deref th x).priority < (deref th donor).priority ∧
      ∀ th', donate_walk fuel donor donee th = .ok th' →
        (deref th' x).priority = (deref th donor).priority) ∧
    (links_consistent th → ∃ th', donate_walk fuel donor donee th = .ok th') := by
  have hclosed := acyclic_chain_closed th hac donee
  obtain ⟨t1, t2⟩ := chain_closed_tight th th.length donee hclosed
  obtain ⟨tl, htl⟩ := donee_chain_head th th.length donee
  obtain ⟨i1, i2, i3, i4, i5, i6, i7⟩ := donate_walk_bounded th donor (deref th donor).priority
    ((donee_chain th th.length donee).length - 1) donee th fuel t1 (fun _ => rfl) rfl
    (by rw [htl] at hfuel ⊢; simp at hfuel ⊢; omega)
  rw [t2] at i4
  have hpos : 1 ≤ (donee_chain th th.length donee).length := by rw [htl]; simp
  exact ⟨chain_closed_last th th.length donee hclosed, i1, i2, by omega, i4, i5, i6, i7⟩

/-- Records that agree up to `status` have the same donee. -/
theorem forget_status_donee (a b : thread) (h : forget_status a = forget_status b) :
    a.donee = b.donee := by
  cases a
  cases b
  simp only [forget_status, thread.mk.injEq] at h
  simp only
  tauto

/-- When `schedule` returns it has written no field but `status`. -/
theorem schedule_frame (k k' : kernel) (h : schedule k = .ok k') :
    ∀ x, forget_status (deref k'.threads x) = forget_status (deref k.threads x) := by
  obtain ⟨_, n, _, _, hth, _, _⟩ := schedule_spec k k' h
  intro x
  rw [hth x]
  split_ifs with e
  · rw [e]; rfl
  · rfl

/-- A graph whose links are all links of an acyclic graph is acyclic. -/
theorem acyclic_of_links_kept (k k' : kernel) (hk : links_kept k k')
    (hac : acyclic k.threads) : acyclic k'.threads :=
  fun x hx => hac x (Relation.TransGen.mono hk hx)

/-- Stores that change no donee keep the links. -/
theorem links_kept_of_donee (k k' : kernel)
    (h : ∀ x, (deref k'.threads x).donee = (deref k.threads x).donee ∨
      (deref k'.threads x).donee = none) : links_kept k k' := by
  intro x y hxy
  unfold donee_link at hxy ⊢
  rcases h x with e | e
  · rw [← e]; exact hxy
  · rw [e] at hxy; cases hxy

/-- The scheduling calls keep the donee links. -/
theorem scheduling_keeps_links (k k' : kernel) :
    (thread_block k = .ok k' → links_kept k k') ∧
    (thread_yield k = .ok k' → links_kept k k') ∧
    (∀ t, thread_unblock k t = .ok k' → links_kept k k') := by
  refine ⟨?_, ?_, ?_⟩
  · intro h
    unfold thread_block at h
    obtain ⟨cur, _, h⟩ := except_bind_ok _ _ _ h
    apply links_kept_of_donee
    intro x
    left
    rw [forget_status_donee _ _ (schedule_frame _ _ h x)]
    exact forget_status_donee _ _ (forget_status_store _ _ _ _)
  · intro h
    unfold thread_yield at h
    obtain ⟨cur, _, h⟩ := except_bind_ok _ _ _ h
    apply links_kept_of_donee
    intro x
    left
    rw [forget_status_donee _ _ (schedule_frame _ _ h x)]
    dsimp only
    rw [forget_status_donee _ _ (forget_status_store _ _ _ _)]
    split_ifs
    · rw [insert_thread_ordered_threads]
    · rfl
  · intro t h
    unfold thread_unblock at h
    split_ifs at h
    injection h with h
    subst h
    apply links_kept_of_donee
    intro x
    left
    dsimp only
    rw [forget_status_donee _ _ (forget_status_store _ _ _ _), insert_thread_ordered_threads]

/-- A returning `thread_create` keeps the donee links. -/
theorem thread_create_keeps_links (k k' : kernel) (page : Option Nat) (priority tid : Int)
    (h : thread_create k page priority = .ok (k', tid)) : links_kept k k' := by
  cases page with
  | none =>
    unfold thread_create at h
    injection h with h
    injection h with h1 _
    rw [← h1]
    exact fun _ _ hxy => hxy
  | some t =>
    obtain ⟨k3, k4, _, _, _, _, hth, _, hdn, hU, hfin⟩ := thread_create_steps k k' t priority tid h
    have h3 : links_kept k k3 := by
      apply links_kept_of_donee
      intro x
      by_cases e : x = t
      · right; rw [e]; exact hdn
      · left; rw [hth x e]
    have h4 : links_kept k3 k4 := (scheduling_keeps_links k3 k4).2.2 t hU
    have h34 : links_kept k k4 := fun x y hxy => h3 x y (h4 x y hxy)
    rcases hfin with e | hY
    · rw [e]; exact h34
    · exact fun x y hxy => h34 x y ((scheduling_keeps_links k4 k').2.1 hY x y hxy)

/-- A returning donation adds the link from the caller to the donee and changes
no other link. -/
theorem donate_adds_link (fuel : Nat) (k k' : kernel) (donee : Nat) (X : lock)
    (h : thread_donate_priority fuel k donee X = .ok k') :
    ∀ x, (deref k'.threads x).donee =
      if x = k.current then some donee else (deref k.threads x).donee := by
  obtain ⟨th6, h6, hw⟩ := donate_unfold fuel k donee X k' h
  intro x
  have := (forget_priority_links _ _ (donate_walk_frame k.current fuel donee th6 _ hw x).1).1
  rw [this, h6 x]

/-- A field assignment that leaves `donee` alone leaves every donee alone. -/
theorem donee_store_same (th : memory) (t : Nat) (g : thread → thread)
    (hg : ∀ r, (g r).donee = r.donee) (x : Nat) :
    (deref (store th t g) x).donee = (deref th x).donee := by
  rw [deref_store]
  split_ifs with e
  · rw [hg, e]
  · rfl

/-- A returning reversal clears donee links and adds none. -/
theorem reverse_keeps_links (k k' : kernel) (X : lock)
    (h : thread_reverse_priority_donation k X = .ok k') : links_kept k k' := by
  unfold thread_reverse_priority_donation at h
  obtain ⟨cur, _, h⟩ := except_bind_ok _ _ _ h
  have hloop : ∀ x, (deref (reverse_loop X cur (deref k.threads cur).donor_list k.threads) x).donee
      = (deref k.threads x).donee ∨
      (deref (reverse_loop X cur (deref k.threads cur).donor_list k.threads) x).donee = none := by
    intro x
    rw [(reverse_loop_fields X cur (deref k.threads cur).donor_list k.threads x).2.2.2.2.2.2.2]
    split_ifs
    · right; rfl
    · left; rfl
  apply links_kept_of_donee
  dsimp only at h
  split_ifs at h
  · simp only [pure, Except.pure] at h
    injection h with h
    subst h
    intro x
    dsimp only
    rw [donee_store_same _ _ (fun r => { r with is_a_donee := false }) (fun _ => rfl),
      donee_store_same _ _ (fun r => { r with priority := r.original_priority }) (fun _ => rfl)]
    exact hloop x
  · obtain ⟨m, _, h⟩ := except_bind_ok _ _ _ h
    simp only [pure, Except.pure] at h
    injection h with h
    subst h
    intro x
    dsimp only
    rw [donee_store_same _ _ (fun r => { r with priority := (deref
      (reverse_loop X cur (deref k.threads cur).donor_list k.threads) m).priority })
      (fun _ => rfl)]
    exact hloop x

/-- Adding one link to an acyclic graph leaves it acyclic when the source of the
link cannot be reached from its target. -/
theorem acyclic_add_link (th th' : memory) (c d : Nat)
    (hlinks : ∀ x y, donee_link th' x y → donee_link th x y ∨ (x = c ∧ y = d))
    (hac : acyclic th)
    (hfar : ¬ Relation.ReflTransGen (donee_link th) d c) : acyclic th' := by
  have key : ∀ x y, Relation.TransGen (donee_link th') x y →
      Relation.TransGen (donee_link th) x y ∨
      (Relation.ReflTransGen (donee_link th) x c ∧ Relation.ReflTransGen (donee_link th) d y) := by
    intro x y hxy
    induction hxy with
    | single hab =>
      rcases hlinks _ _ hab with e | ⟨e1, e2⟩
      · exact Or.inl (Relation.TransGen.single e)
      · subst e1; subst e2
        exact Or.inr ⟨Relation.ReflTransGen.refl, Relation.ReflTransGen.refl⟩
    | tail _ hbc ih =>
      rcases hlinks _ _ hbc with e | ⟨e1, e2⟩
      · rcases ih with i | ⟨i1, i2⟩
        · exact Or.inl (Relation.TransGen.tail i e)
        · exact Or.inr ⟨i1, Relation.ReflTransGen.tail i2 e⟩
      · subst e1; subst e2
        rcases ih with i | ⟨i1, _⟩
        · exact Or.inr ⟨i.to_reflTransGen, Relation.ReflTransGen.refl⟩
        · exact Or.inr ⟨i1, Relation.ReflTransGen.refl⟩
  intro x hx
  rcases key x x hx with h | ⟨h1, h2⟩
  · exact hac x h
  · exact hfar (h2.trans h1)

/-- The state `thread_init` leaves has no donee link. -/
theorem thread_init_no_links (mlfqs : Bool) (boot : Nat) (k : kernel)
    (h : thread_init mlfqs boot = .ok k) : ∀ x, (deref k.threads x).donee = none := by
  have hr : PRI_MIN ≤ PRI_DEFAULT ∧ PRI_DEFAULT ≤ PRI_MAX := by decide
  unfold thread_init init_thread allocate_tid at h
  simp only [hr, if_true, bind, Except.bind, pure, Except.pure] at h
  injection h with h
  subst h
  intro x
  by_cases e : x = boot
  · simp [e, deref_store, deref_write, zero_thread]
  · simp only [deref_store, deref_write, e, if_false]
    rfl

/-- C26 (amended): in every state reachable from `thread_init` through
`thread_donate_priority` and `thread_reverse_priority_donation` (and the
scheduling calls between them), where every donation is by the running thread
to a thread whose donee chain does not lead to the caller, the donation graph
formed by the donee links has no cycle. -/
theorem donation_graph_stays_acyclic (k : kernel) (h : donation_reachable k) :
    acyclic k.threads := by
  induction h with
  | init mlfqs boot k h =>
    intro x hx
    obtain ⟨b, hb, _⟩ := Relation.TransGen.head'_iff.mp hx
    unfold donee_link at hb
    rw [thread_init_no_links mlfqs boot k h x] at hb
    cases hb
  | create k k' page priority tid _ h ih =>
    exact acyclic_of_links_kept k k' (thread_create_keeps_links k k' page priority tid h) ih
  | block k k' _ h ih =>
    exact acyclic_of_links_kept k k' ((scheduling_keeps_links k k').1 h) ih
  | unblock k k' t _ h ih =>
    exact acyclic_of_links_kept k k' ((scheduling_keeps_links k k').2.2 t h) ih
  | yield k k' _ h ih =>
    exact acyclic_of_links_kept k k' ((scheduling_keeps_links k k').2.1 h) ih
  | donate k k' fuel donee X _ hfar h ih =>
    apply acyclic_add_link k.threads k'.threads k.current donee ?_ ih hfar
    intro x y hxy
    unfold donee_link at hxy ⊢
    rw [donate_adds_link fuel k k' donee X h x] at hxy
    split_ifs at hxy with e
    · injection hxy with hxy
      exact Or.inr ⟨e, hxy.symm⟩
    · exact Or.inl hxy
  | reverse k k' X _ h ih =>
    exact acyclic_of_links_kept k k' (reverse_keeps_links k k' X h) ih

/-! ## Witnesses of the division, dispatcher, alarm and donation-graph theorems -/

/-- Witness of C21: `-2.5 / 3.0` is `-13653`, and `1.0 / 0` faults. -/
theorem fixed_div_traps_or_divides_witness :
    fixed_div (-40960) 49152 = .ok (-13653) ∧
    fixed_div 16384 0 = .error fault.div_by_zero :=
  ⟨(fixed_div_traps_or_divides (-40960) 49152).2.2 (by decide) (by decide),
   (fixed_div_traps_or_divides 16384 0).1 rfl⟩

/-- The start-up execution is a run of the scheduler. -/
theorem start_8_reachable : reachable start_8 := by
  have h0 : reachable booted := reachable.init false 0 booted rfl
  have h1 : reachable start_1 :=
    reachable.create booted start_1 (some 1) 0 2 h0
      (fun t ht => by injection ht with ht; subst ht; decide) rfl
  have h2 : reachable start_2 := reachable.block start_1 start_2 h1 rfl
  have h3 : reachable start_3 := reachable.idle start_2 start_3 h2 rfl rfl
  have h4 : reachable start_4 := reachable.unblock start_3 start_4 0 h3 (by decide) rfl
  have h5 : reachable start_5 := reachable.block start_4 start_5 h4 rfl
  have h6 : reachable start_6 := reachable.block start_5 start_6 h5 rfl
  have h7 : reachable start_7 := reachable.unblock start_6 start_7 0 h6 (by decide) rfl
  exact reachable.yield start_7 start_8 h7 rfl

/-- Witness of C22: after the idle thread yielded to the woken `main`, `main`
is neither queued nor marked ready, and the idle thread is outside the queue. -/
theorem ready_queue_holds_the_ready_threads_witness :
    reachable start_8 ∧
    (0 ∈ start_8.ready_list ↔ (deref start_8.threads 0).status = THREAD_READY) ∧
    1 ∉ start_8.ready_list := by
  obtain ⟨h1, h2, _⟩ := ready_queue_holds_the_ready_threads start_8 start_8_reachable
  exact ⟨start_8_reachable, h1 0 (by decide), h2 1 rfl⟩

/-- Witness of C23: thread 1 (40) was created, preempted `main` and exited;
`main` is the one live thread and it is running. -/
theorem exactly_one_running_witness :
    reachable exit_1 ∧ exit_1.all_list = [0] ∧ exit_1.current = 0 ∧
    (deref exit_1.threads 0).status = THREAD_RUNNING ∧
    (next_thread_to_run start_6).1 = some start_6.current := by
  have h0 : reachable booted := reachable.init false 0 booted rfl
  have h1 : reachable restore_1 :=
    reachable.create booted restore_1 (some 1) 40 2 h0
      (fun t ht => by injection ht with ht; subst ht; decide) rfl
  have h2 : reachable exit_1 := reachable.exit restore_1 exit_1 h1 (by decide) rfl
  obtain ⟨_, g2, g3⟩ := exactly_one_running exit_1 h2
  have hs : schedule { start_5 with threads := (store start_5.threads 0
      (fun r => { r with status := THREAD_BLOCKED })) } = .ok start_6 := rfl
  exact ⟨h2, rfl, rfl, (g2 0 (by decide)).2 rfl, (g3 _ start_6 hs).1⟩

/-- Witness of C24: `main` (20) yields while thread 1 (20) is ready: `main` is
not chosen again, and nothing left in the queue is above the thread chosen. -/
theorem yield_runs_front_of_queue_witness :
    ∃ k', thread_yield chain_1 = .ok k' ∧ k'.current ≠ chain_1.current ∧
      (deref k'.threads k'.current).status = THREAD_RUNNING ∧
      ∀ x ∈ k'.ready_list,
        (deref k'.threads x).priority ≤ (deref k'.threads k'.current).priority := by
  obtain ⟨k', pre, post, h1, _, _, _, _, h6, _, h8, h9, _⟩ :=
    yield_runs_front_of_queue chain_1 (by decide) (by decide) (by decide) (by decide)
  refine ⟨k', h1, ?_, h6, h8⟩
  intro e
  have := h9.1 e 1 (by decide)
  revert this
  decide

/-- On a sleeping list that `list_init` has set up, `main` sleeps from tick 100
for 50 ticks. At ticks 100 and 149 the check leaves the alarm linked and `main`
blocked; at tick 150 it unlinks the alarm and `main` is ready, in the ready
queue. -/
theorem check_sleeping_wakes_due_alarms_witness :
    alarm_sleep_current_thread (alarm_list.linked []) sleeper_1 100 50
      = .ok (alarm_list.linked [⟨100, 50, 0⟩], asleep_1) ∧
    (∃ k', alarm_check_sleeping_list (alarm_list.linked [⟨100, 50, 0⟩]) asleep_1 100
        = .ok (alarm_list.linked [⟨100, 50, 0⟩], k') ∧
      (deref k'.threads 0).status = THREAD_BLOCKED) ∧
    (∃ k', alarm_check_sleeping_list (alarm_list.linked [⟨100, 50, 0⟩]) asleep_1 149
        = .ok (alarm_list.linked [⟨100, 50, 0⟩], k') ∧
      (deref k'.threads 0).status = THREAD_BLOCKED) ∧
    (∃ k', alarm_check_sleeping_list (alarm_list.linked [⟨100, 50, 0⟩]) asleep_1 150
        = .ok (alarm_list.linked [], k') ∧
      (deref k'.threads 0).status = THREAD_READY ∧ 0 ∈ k'.ready_list) := by
  obtain ⟨ka, a1, _, _, a4, _⟩ := check_sleeping_wakes_due_alarms [⟨100, 50, 0⟩] asleep_1 100
    (by decide) (by norm_num) (by decide) (by decide) (by decide) (by decide) (by decide)
  obtain ⟨kb, b1, _, _, b4, _⟩ := check_sleeping_wakes_due_alarms [⟨100, 50, 0⟩] asleep_1 149
    (by decide) (by norm_num) (by decide) (by decide) (by decide) (by decide) (by decide)
  obtain ⟨kc, c1, c2, _⟩ := check_sleeping_wakes_due_alarms [⟨100, 50, 0⟩] asleep_1 150
    (by decide) (by norm_num) (by decide) (by decide) (by decide) (by decide) (by decide)
  refine ⟨rfl, ⟨ka, a1, ?_⟩, ⟨kb, b1, ?_⟩, ⟨kc, c1, c2 ⟨100, 50, 0⟩ (by decide) (by decide)⟩⟩
  · rw [(a4 0 (by decide)).1]; rfl
  · rw [(b4 0 (by decide)).1]; rfl

/-- Witness of C26: thread 1 (40) donates to `main`, whose donee chain is
empty: the run stays in the reachable states, the link from thread 1 to `main`
is there and the graph has no cycle. -/
theorem donation_graph_stays_acyclic_witness :
    donee_link restore_2.threads 1 0 ∧ acyclic restore_2.threads := by
  have h0 : donation_reachable booted := donation_reachable.init false 0 booted rfl
  have h1 : donation_reachable restore_1 :=
    donation_reachable.create booted restore_1 (some 1) 40 2 h0 rfl
  have hfar : ¬ Relation.ReflTransGen (donee_link restore_1.threads) 0 restore_1.current := by
    intro h
    rcases Relation.ReflTransGen.cases_head h with e | ⟨b, hb, _⟩
    · exact absurd e (by decide)
    · unfold donee_link at hb
      have hn : (deref restore_1.threads 0).donee = none := rfl
      rw [hn] at hb
      cases hb
  have h2 : donation_reachable restore_2 :=
    donation_reachable.donate restore_1 restore_2 0 0 ⟨7, some 0⟩ h1 hfar rfl
  exact ⟨by unfold donee_link; decide, donation_graph_stays_acyclic restore_2 h2⟩

/-- The donee links of `nest_walk`: thread 2 to thread 1, thread 1 to `main`. -/
theorem nest_walk_links (x y : Nat) (h : donee_link nest_walk x y) :
    (x = 1 ∧ y = 0) ∨ (x = 2 ∧ y = 1) := by
  unfold donee_link nest_walk at h
  simp only [deref] at h
  split_ifs at h with h0 h1 h2
  · cases h
  · injection h with h
    exact Or.inl ⟨h1.symm, h.symm⟩
  · injection h with h
    exact Or.inr ⟨h2.symm, h.symm⟩
  · cases h

/-- The records of `nest_walk` have no cycle of donee links. -/
theorem nest_walk_acyclic : acyclic nest_walk := by
  have h0 : ∀ y, ¬ Relation.ReflTransGen (donee_link nest_walk) 0 y ∨ y = 0 := by
    intro y
    by_cases e : y = 0
    · exact Or.inr e
    · left
      intro h
      rcases Relation.ReflTransGen.cases_head h with e' | ⟨b, hb, _⟩
      · exact e e'.symm
      · rcases nest_walk_links _ _ hb with ⟨c, _⟩ | ⟨c, _⟩ <;> cases c
  have h1 : ∀ y, Relation.ReflTransGen (donee_link nest_walk) 1 y → y = 1 ∨ y = 0 := by
    intro y h
    rcases Relation.ReflTransGen.cases_head h with e' | ⟨b, hb, hr⟩
    · exact Or.inl e'.symm
    · rcases nest_walk_links _ _ hb with ⟨_, c⟩ | ⟨c, _⟩
      · subst c
        rcases h0 y with n | n
        · exact absurd hr n
        · exact Or.inr n
      · cases c
  intro x hx
  obtain ⟨b, hb, hr⟩ := Relation.TransGen.head'_iff.mp hx
  rcases nest_walk_links _ _ hb with ⟨e1, e2⟩ | ⟨e1, e2⟩
  · subst e1; subst e2
    rcases h0 1 with n | n
    · exact n hr
    · cases n
  · subst e1; subst e2
    rcases h1 2 hr with n | n <;> cases n

/-- Witness of C27: thread 2 (50) has linked itself to thread 1, which waits for
`main` (30). The chain from thread 1 is thread 1, `main`; the walk takes one
iteration, which raises `main` to 50, and returns. -/
theorem donate_walk_terminates_witness :
    donee_chain nest_walk nest_walk.length 1 = [1, 0] ∧
    donate_walk 2 2 1 nest_walk = .ok nest_done ∧
    (donate_walk_traced 2 2 1 nest_walk).2 = [(0, true)] ∧
    (deref nest_walk 0).priority < (deref nest_walk 2).priority ∧
    (deref nest_done 0).priority = (deref nest_walk 2).priority := by
  obtain ⟨_, _, _, _, _, _, h7, _⟩ :=
    donate_walk_terminates nest_walk 2 1 nest_walk_acyclic 2 (by decide)
  have e : donate_walk 2 2 1 nest_walk = .ok nest_done := rfl
  obtain ⟨g1, g2⟩ := h7 0 (by decide)
  exact ⟨rfl, e, rfl, g1, g2 nest_done e⟩

/-- Witness of C28: `0.5 + 3`, `0.5 - 3`, `0.5 * (-3)` and `-2.5 / 3`. -/
theorem mixed_operations_are_direct_witness :
    fixed_int_add 8192 3 = 57344 ∧ fixed_int_sub 8192 3 = -40960 ∧
    fixed_int_mult 8192 (-3) = -24576 ∧ fixed_int_div (-40960) 3 = .ok (-13653) := by
  obtain ⟨h1, _, _, _⟩ := mixed_operations_are_direct 8192 3 (by norm_num) (by norm_num)
  obtain ⟨_, h2, _, _⟩ := mixed_operations_are_direct 8192 3 (by norm_num) (by norm_num)
  obtain ⟨_, _, h3, _⟩ := mixed_operations_are_direct 8192 (-3) (by norm_num) (by norm_num)
  obtain ⟨_, _, _, h4⟩ := mixed_operations_are_direct (-40960) 3 (by norm_num) (by norm_num)
  exact ⟨h1 (by decide), h2 (by decide), h3 (by decide), h4 (by decide) (by decide)⟩

/-! ## Further inputs on which a sentence of the specification fails -/

/-- C21 (fails as stated): "an assertion failure", and "returns the value
`((int64) x.v * 2^14) / y.v`". `fixed_div (1.0, 0)` is a division by zero of the
processor: `fixed_div` has no `ASSERT`. `fixed_div (2^30, 1)` has the 64-bit
quotient `2^44`; stored in the `int` of the result it is 0. -/
theorem fixed_div_by_zero_is_no_assertion :
    fixed_div 16384 0 = .error fault.div_by_zero ∧
    fixed_div 16384 0 ≠ .error fault.assertion ∧
    fixed_div (2 ^ 30) 1 = .ok 0 ∧
    Int.tdiv (2 ^ 30 * 2 ^ 14) 1 = 2 ^ 44 := by
  refine ⟨rfl, ?_, rfl, by decide⟩
  intro h
  have h2 : (Except.error fault.div_by_zero : Except fault Int) = .error fault.assertion := h
  injection h2 with h3
  cases h3

/-- C22 (fails as stated): "a thread is an element of the ready queue if and
only if its status is READY", with a yield by the idle thread. After start-up
(`main` creates the idle thread and blocks, the idle thread records itself,
unblocks `main` and blocks) `main` goes to sleep and the idle thread runs; a
timer interrupt wakes `main`, and the idle thread yields at the end of its time
slice. `thread_yield` does not queue the idle thread: it is marked ready and is
not in the ready queue. -/
theorem idle_thread_ready_outside_queue :
    thread_init false 0 = .ok booted ∧
    thread_create booted (some 1) PRI_MIN = .ok (start_1, 2) ∧
    thread_block start_1 = .ok start_2 ∧
    idle start_2 = .ok start_3 ∧
    thread_unblock start_3 0 = .ok start_4 ∧
    thread_block start_4 = .ok start_5 ∧
    thread_block start_5 = .ok start_6 ∧
    thread_unblock start_6 0 = .ok start_7 ∧
    start_7.idle_thread = some start_7.current ∧
    thread_yield start_7 = .ok start_8 ∧
    (deref start_8.threads 1).status = THREAD_READY ∧
    1 ∉ start_8.ready_list ∧
    ¬ (1 ∈ start_8.ready_list ↔ (deref start_8.threads 1).status = THREAD_READY) :=
  ⟨rfl, rfl, rfl, rfl, rfl, rfl, rfl, rfl, rfl, rfl, rfl, by decide, by decide⟩

/-- C26 (fails as stated): the donation graph gets a cycle. `main` holds lock 8;
thread 1 (40) holds lock 9, donates to `main` for lock 8 and blocks. `main`, the
running thread with a null `donee`, then donates to thread 1 for lock 9: the
call returns, and each thread is the donee of the other. -/
theorem donation_to_own_donor_closes_cycle :
    thread_init false 0 = .ok booted ∧
    thread_create booted (some 1) 40 = .ok (restore_1, 2) ∧
    (∀ fuel, thread_donate_priority fuel restore_1 0 ⟨8, some 0⟩ = .ok release_2) ∧
    thread_block release_2 = .ok release_3 ∧
    release_3.current = 0 ∧
    (deref release_3.threads 0).donee = none ∧
    (∀ fuel, thread_donate_priority (fuel + 1) release_3 1 ⟨9, some 1⟩ = .ok cycle_1) ∧
    donee_link cycle_1.threads 0 1 ∧ donee_link cycle_1.threads 1 0 ∧
    ¬ acyclic cycle_1.threads := by
  have e01 : donee_link cycle_1.threads 0 1 := by unfold donee_link; decide
  have e10 : donee_link cycle_1.threads 1 0 := by unfold donee_link; decide
  refine ⟨rfl, rfl, fun fuel => by cases fuel <;> rfl, rfl, rfl, rfl,
    fun fuel => by cases fuel <;> rfl, e01, e10, ?_⟩
  intro h
  exact h 0 (Relation.TransGen.tail (Relation.TransGen.single e01) e10)

/-- C17 (fails as stated): "every ready_threads_count n >= 0 ... 0 <=
load_avg'". With `2^17 - 1` ready threads and a running thread that is not the
idle thread the count is `2^17`; `int_to_fixed` takes it to `-2^31`, the least
`int`, and from `load_avg = 0` the recomputation stores `-2^31 / 60`, which is
negative. -/
theorem load_avg_negative_at_crowded_queue :
    mlfqs_crowded.load_avg = 0 ∧
    ready_threads_count mlfqs_crowded = 2 ^ 17 ∧
    int_to_fixed (2 ^ 17) = -2 ^ 31 ∧
    thread_recalculate_load_avg mlfqs_crowded = .ok mlfqs_crowded_done ∧
    mlfqs_crowded_done.load_avg = -35791394 ∧
    ¬ 0 ≤ mlfqs_crowded_done.load_avg := by
  have hc : ready_threads_count mlfqs_crowded = 131072 := by
    unfold ready_threads_count
    have hl : mlfqs_crowded.ready_list.length = 131071 := by
      show (List.range' 2 131071).length = 131071
      exact List.length_range' _ _ _
    rw [hl]
    have hi : (some mlfqs_crowded.current ≠ mlfqs_crowded.idle_thread) := by
      show (some 0 : Option Nat) ≠ some 1
      decide
    rw [if_pos hi]
    rfl
  refine ⟨rfl, by rw [hc]; norm_num, by decide, ?_, rfl, by decide⟩
  unfold thread_recalculate_load_avg
  rw [get_num_ready_threads_eq mlfqs_crowded rfl, hc]
  rfl

/-- C18 (fails as stated): "for every load_avg >= 0, the recent_cpu recomputation
never divides by zero" and "0 <= recent_cpu' <= recent_cpu". At `load_avg =
131071.5` the product `2 * load_avg` is stored in an `int` as `-1.0`, the divisor
`2 * load_avg + 1` is 0 and `fixed_div` divides by zero. At `load_avg = 65535.5`
the divisor is stored as `-2^31`, the coefficient is negative, and `recent_cpu =
400.0` with `nice = 0` becomes negative. -/
theorem recent_cpu_divides_by_zero_at_high_load :
    (0 : Int) ≤ mlfqs_overloaded.load_avg ∧
    fixed_int_mult mlfqs_overloaded.load_avg 2 = -2 ^ 14 ∧
    fixed_int_add (fixed_int_mult mlfqs_overloaded.load_avg 2) 1 = 0 ∧
    recalculate_recent_cpu mlfqs_overloaded 0 = .error fault.div_by_zero ∧
    thread_recalculate_all_recent_cpu mlfqs_overloaded = .error fault.div_by_zero ∧
    (0 : Int) ≤ mlfqs_loaded.load_avg ∧
    fixed_int_add (fixed_int_mult mlfqs_loaded.load_avg 2) 1 = -2 ^ 31 ∧
    (deref mlfqs_loaded.threads 0).nice = 0 ∧
    (deref mlfqs_loaded.threads 0).recent_cpu = 400 * 2 ^ 14 ∧
    recalculate_recent_cpu mlfqs_loaded 0 = .ok mlfqs_loaded_done ∧
    (deref mlfqs_loaded_done.threads 0).recent_cpu = -6553200 ∧
    ¬ (0 : Int) ≤ (deref mlfqs_loaded_done.threads 0).recent_cpu :=
  ⟨by decide, by decide, by decide, rfl, rfl, by decide, by decide, rfl, by decide, rfl, rfl,
    by decide⟩

/-! ## Further executions on which the code departs from the specification -/

/-- C16 (code departs): the idle thread's `recent_cpu` does not stay unchanged
when the idle thread is running. The idle thread runs in MLFQS mode with an
empty ready queue; the tick numbered 1, not a one-second boundary, raises its
`recent_cpu` from 0 to 1.0. `get_num_ready_threads` on the same state does leave
the idle thread out: its count is 0. -/
theorem tick_charges_idle_thread :
    idle_running.thread_mlfqs = true ∧
    idle_running.idle_thread = some idle_running.current ∧
    Int.tmod 1 TIMER_FREQ ≠ 0 ∧
    thread_tick idle_running 1 = .ok (idle_ticked, false) ∧
    (deref idle_running.threads 1).recent_cpu = 0 ∧
    (deref idle_ticked.threads 1).recent_cpu = 2 ^ 14 ∧
    get_num_ready_threads idle_running = .ok 0 :=
  ⟨rfl, rfl, by decide, rfl, rfl, by decide, rfl⟩

/-- C25 (code departs): `sleep (100, 50)`, the claim's own execution, on the
sleeping list the kernel has. `sleeping_list` is never passed to `list_init`;
the `list_push_back` of `alarm_sleep_current_thread` fails its assertion before
the thread is blocked, whatever the state and the arguments, so no alarm is ever
linked; and `alarm_check_sleeping_list` at the ticks 100, 149 and 150 starts
from the null `head.next` and reads an alarm through it instead of returning.
On a list that `list_init` has set up the same call does link the alarm and
block `main`. -/
theorem sleep_asserts_on_uninitialised_list :
    sleeping_list = alarm_list.zeroed ∧
    (∀ k start ticks,
      alarm_sleep_current_thread sleeping_list k start ticks = .error fault.assertion) ∧
    (∀ k now, ∃ e, alarm_check_sleeping_list sleeping_list k now = .error e) ∧
    thread_current sleeper_1 = .ok 0 ∧
    alarm_sleep_current_thread sleeping_list sleeper_1 100 50 = .error fault.assertion ∧
    alarm_check_sleeping_list sleeping_list sleeper_1 100 = .error fault.null_pointer ∧
    alarm_check_sleeping_list sleeping_list sleeper_1 149 = .error fault.null_pointer ∧
    alarm_check_sleeping_list sleeping_list sleeper_1 150 = .error fault.null_pointer ∧
    alarm_sleep_current_thread (alarm_list.linked []) sleeper_1 100 50
      = .ok (alarm_list.linked [⟨100, 50, 0⟩], asleep_1) := by
  refine ⟨rfl, ?_, ?_, rfl, rfl, rfl, rfl, rfl, rfl⟩
  · intro k start ticks
    unfold alarm_sleep_current_thread thread_current
    by_cases h1 : start > 0
    · by_cases h2 : ticks > 0
      · by_cases h3 : (deref k.threads k.current).status = THREAD_RUNNING
        · simp only [h1, h2, h3, if_true, bind, Except.bind]
          rfl
        · simp only [h1, h2, h3, if_true, if_false, bind, Except.bind]
      · simp only [h1, h2, if_true, if_false]
    · simp only [h1, if_false]
  · intro k now
    unfold alarm_check_sleeping_list
    by_cases h : now > 0
    · exact ⟨fault.null_pointer, by simp only [h, if_true]; rfl⟩
    · exact ⟨fault.assertion, by simp only [h, if_false]⟩

end Pintos
